import Mathlib

/-!
# Multi-step passport form (`script.js`): shallow embedding

The script is a set of DOM event handlers over a handful of global variables.
The embedding makes the globals and the part of the DOM the script reads or
writes into one record `State`; every handler is a function on `State`.
Strings are Lean `String`s handled through their character lists; the regular
expressions of the script are kept as data (`RE`) and run by a derivative
matcher.
-/

namespace PassportForm

/-! ## Strings and regular expressions -/

/-- JavaScript `\s` (and the characters removed by `String.prototype.trim`):
the WhiteSpace and LineTerminator code points of ECMAScript. -/
def isJsSpace (c : Char) : Bool :=
  let n := c.toNat
  n == 0x09 || n == 0x0A || n == 0x0B || n == 0x0C || n == 0x0D || n == 0x20 ||
  n == 0xA0 || n == 0x1680 || (0x2000 ≤ n && n ≤ 0x200A) || n == 0x2028 ||
  n == 0x2029 || n == 0x202F || n == 0x205F || n == 0x3000 || n == 0xFEFF

/-- JavaScript `\d`, the ASCII digits. -/
def isJsDigit (c : Char) : Bool :=
  let n := c.toNat
  0x30 ≤ n && n ≤ 0x39

/-- The class `[a-zA-Z]`. -/
def isAsciiLetter (c : Char) : Bool :=
  let n := c.toNat
  (0x41 ≤ n && n ≤ 0x5A) || (0x61 ≤ n && n ≤ 0x7A)

/-- The class `[^a-zA-Z\s]`. -/
def notLetterOrSpace (c : Char) : Bool :=
  !(isAsciiLetter c || isJsSpace c)

/-- The class `[^\s@]`. -/
def notSpaceOrAt (c : Char) : Bool :=
  !(isJsSpace c || c.toNat == 0x40)

/-- The class `[a-zA-Z0-9.\-_]`. -/
def isUpiLocalChar (c : Char) : Bool :=
  let n := c.toNat
  isAsciiLetter c || isJsDigit c || n == 0x2E || n == 0x2D || n == 0x5F

/-- The literal `@`. -/
def isAt (c : Char) : Bool := c.toNat == 0x40

/-- The literal `\.`. -/
def isDot (c : Char) : Bool := c.toNat == 0x2E

/-- The call `str.trim()` on a character list. -/
def trimChars (l : List Char) : List Char :=
  ((l.dropWhile isJsSpace).reverse.dropWhile isJsSpace).reverse

/-- The call `str.trim()`. -/
def trim (str : String) : String := ⟨trimChars str.data⟩

/-- Regular expressions as far as the script uses them: a character class,
concatenation and Kleene star (`+` and `{2,}` are written out with them). -/
inductive RE where
  | eps : RE
  | cls : (Char → Bool) → RE
  | cat : RE → RE → RE
  | star : RE → RE
  | none : RE
  | alt : RE → RE → RE

/-- One or more repetitions, `r+`. -/
def RE.plus (r : RE) : RE := RE.cat r (RE.star r)

/-- Two or more repetitions, `r{2,}`. -/
def RE.atLeast2 (r : RE) : RE := RE.cat r (RE.cat r (RE.star r))

/-- Whether the expression matches the empty string. -/
def RE.nullable : RE → Bool
  | RE.eps => true
  | RE.cls _ => false
  | RE.cat a b => a.nullable && b.nullable
  | RE.star _ => true
  | RE.none => false
  | RE.alt a b => a.nullable || b.nullable

/-- Brzozowski derivative with respect to one character. -/
def RE.deriv : RE → Char → RE
  | RE.eps, _ => RE.none
  | RE.cls p, c => if p c then RE.eps else RE.none
  | RE.cat a b, c =>
      if a.nullable then RE.alt (RE.cat (a.deriv c) b) (b.deriv c)
      else RE.cat (a.deriv c) b
  | RE.star a, c => RE.cat (a.deriv c) (RE.star a)
  | RE.none, _ => RE.none
  | RE.alt a b, c => RE.alt (a.deriv c) (b.deriv c)

/-- Whole-string match (`^...$`), by iterated derivatives. -/
def RE.fullMatch : RE → List Char → Bool
  | r, [] => r.nullable
  | r, c :: cs => (r.deriv c).fullMatch cs

/-- The pattern `/^[^\s@]+@[^\s@]+\.[^\s@]+$/`. -/
def emailRE : RE :=
  RE.cat (RE.plus (RE.cls notSpaceOrAt))
    (RE.cat (RE.cls isAt)
      (RE.cat (RE.plus (RE.cls notSpaceOrAt))
        (RE.cat (RE.cls isDot) (RE.plus (RE.cls notSpaceOrAt)))))

/-- The pattern `/^[a-zA-Z0-9.\-_]{2,}@[a-zA-Z]{2,}$/`. -/
def upiRE : RE :=
  RE.cat (RE.atLeast2 (RE.cls isUpiLocalChar))
    (RE.cat (RE.cls isAt) (RE.atLeast2 (RE.cls isAsciiLetter)))

/-- The function `onlyDigits(str)`: `(str || "").replace(/\D/g, "")`. -/
def onlyDigits (str : String) : String := ⟨str.data.filter isJsDigit⟩

/-- The function `isEmailValid(email)`: the email pattern tested on the trimmed value. -/
def isEmailValid (email : String) : Bool := emailRE.fullMatch (trim email).data

/-- The function `isUpiValid(v)`: the UPI pattern tested on the trimmed value. -/
def isUpiValid (v : String) : Bool := upiRE.fullMatch (trim v).data

/-- The test `/[^a-zA-Z\s]/.test(str)`: some character is neither a letter nor
whitespace. -/
def hasNonLetterSpace (str : String) : Bool := str.data.any notLetterOrSpace

/-- The function `safeValue(v)`: the trimmed value, or a dash when that is empty. -/
def safeValue (v : String) : String :=
  let t := trim v
  if t = "" then "—" else t

/-! ## The page state -/

/-- The three values the script assigns to `paymentState`. -/
inductive PaymentState where
  | UNPAID
  | PENDING
  | PAID
  deriving DecidableEq, Repr

/-- The names under which the script addresses form controls (`form[name]`,
`getRadioValue(name)`, `getElementById(id)`) and error slots
(`data-error-for`). -/
inductive Field where
  | firstName | lastName | dob | nationality | nid | passportType | address
  | city | state | pincode | mobile | email | gender
  | photo | idProof | addressProof | birthCert
  | payMethod | upiId | cardName | cardNumber | expiry | cvv | confirm | fee
  deriving DecidableEq, Repr

/-- Modelled from the spec: the markup is not part of the sources; the
controls selected by `form.querySelectorAll("input, select, textarea,
button")` are every named control and the buttons of the four pages ("disable
every interactive control"), a Next, Previous or edit-chooser button being
known by the step number in its `data-next`, `data-prev` or `data-goto`. -/
inductive Control where
  | field (f : Field)
  | payNowBtn
  | verifyPayBtn
  | yesBtn
  | noBtn
  | prevBtn (prev : Nat)
  | nextBtn (next : Nat)
  | goEdit (goto : Nat)
  deriving DecidableEq, Repr

/-- Modelled from the spec: the element with id `toStep4Btn` is the Next button
of the payment page, the one whose `data-next` is 4 ("PAID ... enables the
confirm checkbox and forward navigation to step 4"). -/
def toStep4Btn : Control := Control.nextBtn 4

/-- One button of `.stepper .step`: its `data-step`, the three state classes,
`aria-current` and `disabled`. -/
structure StepButton where
  step : Nat
  isActive : Bool
  isDone : Bool
  isComplete : Bool
  ariaCurrent : String
  disabled : Bool
  deriving DecidableEq, Repr

/-- The globals of the script and the part of the document it reads or
writes. -/
structure State where
  /-- the global `let currentStep` -/
  currentStep : Nat
  /-- the global `let isSubmitted` -/
  isSubmitted : Bool
  /-- the global `let paymentState` -/
  paymentState : PaymentState
  /-- the global `let pendingTxn`, `none` for `null` -/
  pendingTxn : Option String
  /-- the `.value` of the text, select and textarea controls -/
  value : Field → String
  /-- the value of the checked radio of a group, `""` when none is checked -/
  radio : Field → String
  /-- the names of the files chosen in a file input -/
  files : Field → List String
  /-- the flag `form.confirm.checked` -/
  confirmChecked : Bool
  /-- Modelled from the spec: the markup is not part of the sources; every
  name the script reports on has a `[data-error-for=name]` element of class
  `error`, whose text is held here ("ErrorMap: mapping of field name →
  human-readable message string or empty; rebuilt on every validation pass") -/
  errors : Field → String
  /-- the `disabled` flag of the controls inside the form -/
  disabled : Control → Bool
  /-- class `hidden` of `stepPages[idx]` -/
  pageHidden : Fin 4 → Bool
  /-- the stepper buttons, in document order -/
  stepButtons : List StepButton
  statusText : String
  editChooserHidden : Bool
  confirmNote : String
  /-- the review grid, as (label, value) rows -/
  reviewBox : List (String × String)
  payStatus : String
  payResult : String
  payResultClasses : List String
  txnIdText : String
  payNowBtnText : String
  upiBoxHidden : Bool
  cardBoxHidden : Bool
  feeBoxPaid : Bool
  stepperLocked : Bool
  /-- messages shown by `alert`, oldest first -/
  alerts : List String
  /-- callbacks queued by `setTimeout` and not yet run -/
  timers : Nat

/-! ## Helpers -/

/-- The function `setError(name, msg)`; every name has its error element
(see `State.errors`). -/
def setError (s : State) (name : Field) (msg : String) : State :=
  { s with errors := Function.update s.errors name msg }

/-- The function `clearError(name)`. -/
def clearError (s : State) (name : Field) : State :=
  { s with errors := Function.update s.errors name "" }

/-- The function `clearAllErrors()`; the elements of class `error` are the
error elements of the ErrorMap (see `State.errors`). -/
def clearAllErrors (s : State) : State :=
  { s with errors := fun _ => "" }

/-- The function `getRadioValue(name)`. -/
def getRadioValue (s : State) (name : Field) : String := s.radio name

/-- The function `fileName(inputId)`. -/
def fileName (s : State) (inputId : Field) : String :=
  match s.files inputId with
  | [] => "—"
  | f :: _ => f

/-- The call `alert(msg)`: the message is appended to the log. -/
def alert (s : State) (msg : String) : State :=
  { s with alerts := s.alerts ++ [msg] }

/-- The call `classList.add(c)`. -/
def classAdd (cs : List String) (c : String) : List String :=
  if c ∈ cs then cs else cs ++ [c]

/-- The call `classList.remove(...rs)`. -/
def classRemove (cs : List String) (rs : List String) : List String :=
  cs.filter (fun c => !(rs.contains c))

/-! ## Input restrictions -/

/-- The function `keepLettersSpaces(inputEl, fieldName)`, the input element being the
control named `el`. -/
def keepLettersSpaces (s : State) (el fieldName : Field) : State :=
  let original := s.value el
  let cleaned : String := ⟨original.data.filter (fun c => !(notLetterOrSpace c))⟩
  if cleaned ≠ original then
    setError { s with value := Function.update s.value el cleaned } fieldName
      "Only letters and spaces are allowed."
  else
    clearError s fieldName

/-- The function `keepDigits(inputEl, fieldName, maxLen)` with a numeric `maxLen`. -/
def keepDigits (s : State) (el fieldName : Field) (maxLen : Nat) : State :=
  let original := s.value el
  let cleaned : String := ⟨(original.data.filter isJsDigit).take maxLen⟩
  if cleaned ≠ original then
    setError { s with value := Function.update s.value el cleaned } fieldName
      "Only digits are allowed."
  else
    clearError s fieldName

/-- The array `letterFields`. -/
def letterFields : List (Field × Field) :=
  [(Field.firstName, Field.firstName), (Field.lastName, Field.lastName),
   (Field.nationality, Field.nationality), (Field.city, Field.city),
   (Field.state, Field.state), (Field.cardName, Field.cardName)]

/-- The array `digitFields`, followed by the separately registered `nid`. -/
def digitFields : List (Field × Field × Nat) :=
  [(Field.mobile, Field.mobile, 10), (Field.pincode, Field.pincode, 6),
   (Field.cardNumber, Field.cardNumber, 16), (Field.cvv, Field.cvv, 3),
   (Field.nid, Field.nid, 16)]

/-! ## Validation per step -/

/-- The statement `if (c) { setError(name, msg); ok = false; }` on the pair of
the state and the local `ok`. -/
def flag (c : Prop) [Decidable c] (name : Field) (msg : String)
    (a : State × Bool) : State × Bool :=
  if c then (setError a.1 name msg, false) else a

/-- The `required` array of step 1. -/
def requiredStep1 : List Field :=
  [Field.firstName, Field.lastName, Field.dob, Field.nationality, Field.nid,
   Field.passportType, Field.address, Field.city, Field.state, Field.pincode,
   Field.mobile, Field.email]

/-- The `lettersCheck` array of step 1. -/
def lettersCheck : List Field :=
  [Field.firstName, Field.lastName, Field.nationality, Field.city, Field.state]

/-- The file inputs checked by step 2. -/
def requiredFiles : List Field :=
  [Field.photo, Field.idProof, Field.addressProof, Field.birthCert]

/-- The card fields required by step 3. -/
def requiredCard : List Field :=
  [Field.cardName, Field.cardNumber, Field.expiry, Field.cvv]

/-- The loop `names.forEach(name => { if (c) { setError(name, msg); ok = false; } })`,
the condition `c` being read off the document for each name in turn. -/
def flagEach (c : State → Field → Prop) [∀ s name, Decidable (c s name)] (msg : String)
    (names : List Field) (a : State × Bool) : State × Bool :=
  names.foldl (fun a name => flag (c a.1 name) name msg a) a

/-- The loop over required names, with the test `!el.value.trim()`. -/
def flagBlank (names : List Field) (a : State × Bool) : State × Bool :=
  flagEach (fun s name => trim (s.value name) = "") "This field is required." names a

/-- The body of `if (step === 1)`. -/
def checkStep1 (a : State × Bool) : State × Bool :=
  let a := flagBlank requiredStep1 a
  let a := flag (getRadioValue a.1 Field.gender = "") Field.gender "Please select a gender." a
  let a := flagEach
    (fun s f =>
      let val := trim (s.value f)
      val ≠ "" ∧ hasNonLetterSpace val = true)
    "Only letters and spaces are allowed." lettersCheck a
  let a := flag (a.1.value Field.email ≠ "" ∧ isEmailValid (a.1.value Field.email) = false)
    Field.email "Enter a valid email address." a
  let pin := onlyDigits (a.1.value Field.pincode)
  let a := flag (pin.length ≠ 6) Field.pincode "Pincode must be exactly 6 digits." a
  let mob := onlyDigits (a.1.value Field.mobile)
  let a := flag (mob.length ≠ 10) Field.mobile "Mobile number must be exactly 10 digits." a
  let nid := onlyDigits (a.1.value Field.nid)
  flag (¬(nid.length = 12 ∨ (nid.length ≥ 8 ∧ nid.length ≤ 16))) Field.nid
    "National ID must be 8–16 digits (Aadhaar: exactly 12)." a

/-- The body of `if (step === 2)`. -/
def checkStep2 (a : State × Bool) : State × Bool :=
  flagEach (fun s name => s.files name = []) "Please upload this document." requiredFiles a

/-- The UPI branch of a payment-input check. -/
def checkUpi (a : State × Bool) : State × Bool :=
  let upi := trim (a.1.value Field.upiId)
  if upi = "" then (setError a.1 Field.upiId "UPI ID is required.", false)
  else if isUpiValid upi = false then
    (setError a.1 Field.upiId "Enter a valid UPI ID (example: ankit@okicici).", false)
  else a

/-- The card branch of step 3. -/
def checkCard (a : State × Bool) : State × Bool :=
  let a := flagBlank requiredCard a
  let a := flag (a.1.value Field.cardName ≠ "" ∧
      hasNonLetterSpace (trim (a.1.value Field.cardName)) = true)
    Field.cardName "Only letters and spaces are allowed." a
  let card := onlyDigits (a.1.value Field.cardNumber)
  let a := flag (card.length ≠ 16) Field.cardNumber "Card number must be exactly 16 digits." a
  let cvv := onlyDigits (a.1.value Field.cvv)
  flag (cvv.length ≠ 3) Field.cvv "CVV must be exactly 3 digits." a

/-- The block `if (typeof paymentState !== "undefined") {...}` of step 3;
`paymentState` is a `let` of the same script, initialised before any handler
can run, so the `else if (typeof paid ...)` arm is never taken. -/
def checkPaid (a : State × Bool) : State × Bool :=
  if a.1.paymentState ≠ PaymentState.PAID then
    ({ a.1 with
        payResult := "Please complete payment verification to continue."
        payResultClasses := classAdd a.1.payResultClasses "pending" }, false)
  else a

/-- The body of `if (step === 3)`; the first branch is the early `return ok`. -/
def checkStep3 (a : State × Bool) : State × Bool :=
  let method := getRadioValue a.1 Field.payMethod
  if method = "" then
    (setError a.1 Field.payMethod "Please select payment method.", false)
  else
    let a := if method = "UPI" then checkUpi a else checkCard a
    let a := checkPaid a
    flag (a.1.confirmChecked = false) Field.confirm "Please confirm the information." a

/-- The function `validateStep(step)`: the new state and the returned `ok`. -/
def validateStep (s : State) (step : Nat) : State × Bool :=
  let a : State × Bool := (clearAllErrors s, true)
  if step = 1 then checkStep1 a
  else if step = 2 then checkStep2 a
  else if step = 3 then checkStep3 a
  else a

/-- The function `validateAll()`: `validateStep(1) && validateStep(2) && validateStep(3)`,
the later calls being skipped once one returns false. -/
def validateAll (s : State) : State × Bool :=
  let r1 := validateStep s 1
  if r1.2 = false then r1
  else
    let r2 := validateStep r1.1 2
    if r2.2 = false then r2 else validateStep r2.1 3

/-! ## Step navigation and review -/

/-- The last four characters, `str.slice(-4)`. -/
def lastFour (str : String) : String := ⟨str.data.drop (str.data.length - 4)⟩

/-- The function `buildReview()`: the rows of the review grid, built from the
current values. -/
def buildReview (s : State) : State :=
  { s with reviewBox :=
      [("First Name", safeValue (s.value Field.firstName)),
       ("Last Name", safeValue (s.value Field.lastName)),
       ("Date of Birth", safeValue (s.value Field.dob)),
       ("Gender", safeValue (getRadioValue s Field.gender)),
       ("Nationality", safeValue (s.value Field.nationality)),
       ("National ID", safeValue (s.value Field.nid)),
       ("Passport Type", safeValue (s.value Field.passportType)),
       ("City", safeValue (s.value Field.city)),
       ("State", safeValue (s.value Field.state)),
       ("Pincode", safeValue (s.value Field.pincode)),
       ("Mobile", safeValue (s.value Field.mobile)),
       ("Email", safeValue (s.value Field.email)),
       ("Address", safeValue (s.value Field.address)),
       ("Photograph File", fileName s Field.photo),
       ("Identity Proof File", fileName s Field.idProof),
       ("Address Proof File", fileName s Field.addressProof),
       ("Birth Certificate File", fileName s Field.birthCert),
       ("Application Fee", safeValue (s.value Field.fee)),
       ("Payment Method", safeValue (getRadioValue s Field.payMethod)),
       ("Card Holder Name", safeValue (s.value Field.cardName)),
       ("Card Number",
         if s.value Field.cardNumber ≠ "" then
           "•••• •••• •••• " ++ lastFour (onlyDigits (s.value Field.cardNumber))
         else "—"),
       ("Expiry", safeValue (s.value Field.expiry))] }

/-- The function `goToStep(stepNumber)` (the smooth scroll to the top is not
part of the state). -/
def goToStep (s : State) (stepNumber : Nat) : State :=
  if s.isSubmitted = true then s
  else
    let s1 : State :=
      { s with
          currentStep := stepNumber
          pageHidden := fun idx => decide (idx.val + 1 ≠ stepNumber)
          stepButtons := s.stepButtons.map (fun btn =>
            { btn with
                isActive := decide (btn.step = stepNumber)
                isDone := decide (btn.step < stepNumber)
                ariaCurrent := if btn.step = stepNumber then "step" else "false" })
          statusText := "Step " ++ toString stepNumber }
    if stepNumber = 4 then
      { buildReview s1 with editChooserHidden := true, confirmNote := "" }
    else s1

/-- The click listener of a stepper button whose `data-step` is `target`. -/
def onStepButtonClick (s : State) (target : Nat) : State :=
  if target > s.currentStep then
    let r := validateStep s s.currentStep
    if r.2 = false then
      alert r.1 "Please fix the errors in this step before continuing."
    else goToStep r.1 target
  else goToStep s target

/-- The click listener of a `.prevBtn` whose `data-prev` is `prev`. -/
def onPrevClick (s : State) (prev : Nat) : State := goToStep s prev

/-- The click listener of a `.nextBtn` whose `data-next` is `next`. -/
def onNextClick (s : State) (next : Nat) : State :=
  let stepNow := s.currentStep
  let r := validateStep s stepNow
  if r.2 = false then
    alert r.1 "Please fix the errors in this step before continuing."
  else goToStep r.1 next

/-! ## Confirmation and lock -/

/-- The function `lockForm()`. -/
def lockForm (s : State) : State :=
  { s with
      disabled := fun _ => true
      pageHidden := fun idx => decide (idx.val ≠ 3)
      stepperLocked := true }

/-- The statements of the Yes listener that follow a successful
`validateAll()`: the lock is set, the stepper buttons are marked complete and
disabled, and the form is locked. -/
def confirmSubmission (s : State) : State :=
  let s1 : State :=
    { s with
        isSubmitted := true
        stepButtons := s.stepButtons.map (fun btn =>
          { btn with isActive := false, isDone := false, isComplete := true,
                     disabled := true })
        statusText := "Submitted" }
  let s2 := lockForm s1
  let s3 := alert s2 "Confirmed! Your application has been submitted successfully."
  { s3 with confirmNote := "✅ Confirmed and submitted. Editing is disabled." }

/-- The click listener of `yesBtn`. -/
def onYesClick (s : State) : State :=
  if s.isSubmitted = true then s
  else
    let r := validateAll s
    if r.2 = false then
      goToStep
        (alert r.1 "Some required details are missing or invalid. Please edit and try again.") 1
    else confirmSubmission r.1

/-- The click listener of `noBtn`. -/
def onNoClick (s : State) : State :=
  if s.isSubmitted = true then s
  else
    { s with
        confirmNote := "No problem — please edit your information."
        editChooserHidden := false }

/-- The click listener of a `.goEdit` button whose `data-goto` is `step`. -/
def onGoEditClick (s : State) (step : Nat) : State := goToStep s step

/-! ## Payment simulation -/

/-- The change listener of the `payMethod` radios. -/
def onPayMethodChange (s : State) : State :=
  let method := getRadioValue s Field.payMethod
  let s : State :=
    { s with
        upiBoxHidden := decide (method ≠ "UPI")
        cardBoxHidden := decide (method = "UPI" ∨ method = "") }
  let s := clearAllErrors s
  let s := setError s Field.upiId ""
  let s := setError s Field.cardName ""
  let s := setError s Field.cardNumber ""
  let s := setError s Field.expiry ""
  let s := setError s Field.cvv ""
  { s with payResult := "" }

/-- The string `letters` of `genTxnId`. -/
def txnLetters : List Char := "ABCDEFGHJKLMNPQRSTUVWXYZ23456789".data

/-- Decimal digits of a number, most significant first, `fuel` bounding their
count (`String(n)` for a non-negative integer). -/
def decimalDigits : Nat → Nat → List Char
  | 0, _ => []
  | fuel + 1, n =>
      if n < 10 then [Char.ofNat (48 + n)]
      else decimalDigits fuel (n / 10) ++ [Char.ofNat (48 + n % 10)]

/-- The conversion `String(n)` for a non-negative integer. -/
def natToString (n : Nat) : String := ⟨decimalDigits (n + 1) n⟩

/-- The call `str.padStart(2, "0")`. -/
def padStart2 (str : String) : String :=
  ⟨List.replicate (2 - str.data.length) '0' ++ str.data⟩

/-- What `genTxnId` reads from its environment: the six values of
`Math.floor(Math.random() * letters.length)`, and the local date
(`getFullYear()`, `getMonth()`, `getDate()`). -/
structure TxnEnv where
  draws : Fin 6 → Fin 32
  fullYear : Nat
  month : Fin 12
  date : Nat

/-- The function `genTxnId()`. -/
def genTxnId (env : TxnEnv) : String :=
  let tail : String := ⟨(List.finRange 6).map (fun i => txnLetters.getD (env.draws i).val 'A')⟩
  let y := natToString env.fullYear
  let m := padStart2 (natToString (env.month.val + 1))
  let day := padStart2 (natToString env.date)
  "GOVTXN-" ++ y ++ m ++ day ++ "-" ++ tail

/-- The template value of `pendingTxn`: the string itself, or `null`. -/
def txnText (t : Option String) : String :=
  match t with
  | some x => x
  | none => "null"

/-- The function `setPayUI(state, message, cssClass)`. -/
def setPayUI (s : State) (state : PaymentState) (message cssClass : String) : State :=
  let s : State :=
    { s with
        paymentState := state
        payStatus :=
          match state with
          | PaymentState.UNPAID => "UNPAID"
          | PaymentState.PENDING => "PENDING"
          | PaymentState.PAID => "PAID"
        payResult := message
        payResultClasses :=
          let cs := classRemove s.payResultClasses ["pending", "paid", "processing"]
          if cssClass ≠ "" then classAdd cs cssClass else cs
        txnIdText :=
          match s.pendingTxn with
          | some t => if t ≠ "" then t else "—"
          | none => "—" }
  match state with
  | PaymentState.UNPAID =>
      { s with
          disabled := Function.update (Function.update (Function.update (Function.update
            s.disabled Control.payNowBtn false) Control.verifyPayBtn true)
            (Control.field Field.confirm) true) toStep4Btn true
          payNowBtnText := "Generate Payment Request" }
  | PaymentState.PENDING =>
      { s with
          disabled := Function.update (Function.update (Function.update (Function.update
            s.disabled Control.payNowBtn true) Control.verifyPayBtn false)
            (Control.field Field.confirm) true) toStep4Btn true }
  | PaymentState.PAID =>
      { s with
          disabled := Function.update (Function.update (Function.update (Function.update
            s.disabled Control.payNowBtn true) Control.verifyPayBtn true)
            (Control.field Field.confirm) false) toStep4Btn false }

/-- The card branch of `validatePaymentInputsGovStyle`. -/
def checkCardGov (a : State × Bool) : State × Bool :=
  let a := flag (trim (a.1.value Field.cardName) = "") Field.cardName "This field is required." a
  let a := flag (trim (a.1.value Field.cardNumber) = "") Field.cardNumber
    "This field is required." a
  let a := flag (trim (a.1.value Field.expiry) = "") Field.expiry "This field is required." a
  let a := flag (trim (a.1.value Field.cvv) = "") Field.cvv "This field is required." a
  let card := onlyDigits (a.1.value Field.cardNumber)
  let a := flag (card.length ≠ 16) Field.cardNumber "Card number must be exactly 16 digits." a
  let cvv := onlyDigits (a.1.value Field.cvv)
  let a := flag (cvv.length ≠ 3) Field.cvv "CVV must be exactly 3 digits." a
  flag (a.1.value Field.cardName ≠ "" ∧
      hasNonLetterSpace (trim (a.1.value Field.cardName)) = true)
    Field.cardName "Only letters and spaces are allowed." a

/-- The UPI branch of `validatePaymentInputsGovStyle`, which also clears the
error of a valid id. -/
def checkUpiGov (a : State × Bool) : State × Bool :=
  let v := trim (a.1.value Field.upiId)
  if v = "" then (setError a.1 Field.upiId "UPI ID is required.", false)
  else if isUpiValid v = false then
    (setError a.1 Field.upiId "Enter a valid UPI ID (example: ankit@okicici).", false)
  else (setError a.1 Field.upiId "", a.2)

/-- The function `validatePaymentInputsGovStyle()`. -/
def validatePaymentInputsGovStyle (s : State) : State × Bool :=
  let method := getRadioValue s Field.payMethod
  if method = "" then
    (setError s Field.payMethod "Please select payment method.", false)
  else if method = "UPI" then checkUpiGov (s, true)
  else checkCardGov (s, true)

/-- The function `validateBeforePayment()`: steps 1 and 2 are validated, the
second only if the first passed. -/
def validateBeforePayment (s : State) : State × Bool :=
  let r1 := validateStep s 1
  let r := if r1.2 = false then r1 else validateStep r1.1 2
  if r.2 = false then
    (goToStep
      (alert r.1 "Please complete Step 1 and Step 2 correctly before making payment.") 1,
     false)
  else (r.1, true)

/-- The click listener of `payNowBtn` ("Generate Payment Request"). -/
def onPayNowClick (s : State) (env : TxnEnv) : State :=
  if s.paymentState ≠ PaymentState.UNPAID then s
  else
    let r := validateBeforePayment s
    if r.2 = false then r.1
    else
      let p := validatePaymentInputsGovStyle r.1
      if p.2 = false then alert p.1 "Please correct payment details and try again."
      else
        let txn := genTxnId env
        let s1 : State := { p.1 with pendingTxn := some txn }
        let method := getRadioValue s1 Field.payMethod
        let msg :=
          if method = "UPI" then
            "Payment request generated. Please approve the request in your UPI app. Txn ID: "
              ++ txn
          else
            "Redirecting to bank gateway (Demo). Please verify to complete payment. Txn ID: "
              ++ txn
        setPayUI s1 PaymentState.PENDING msg "pending"

/-- The click listener of `verifyPayBtn`: the callback handed to `setTimeout`
is counted in `timers`. -/
def onVerifyClick (s : State) : State :=
  if s.paymentState ≠ PaymentState.PENDING then s
  else
    let s1 := setPayUI s PaymentState.PENDING "Verifying payment... please wait (Demo)."
      "processing"
    { s1 with timers := s1.timers + 1 }

/-- The callback of the `setTimeout` in the verify listener. -/
def onVerifyTimeout (s : State) : State :=
  let s1 : State := { s with feeBoxPaid := true }
  setPayUI s1 PaymentState.PAID
    ("Payment successful (Demo). Transaction ID: " ++ txnText s1.pendingTxn) "paid"

/-- The function `validatePaymentInputs()`, the earlier copy of
`validatePaymentInputsGovStyle` that no listener calls. -/
def validatePaymentInputs (s : State) : State × Bool :=
  let method := getRadioValue s Field.payMethod
  if method = "" then
    (setError s Field.payMethod "Please select payment method.", false)
  else if method = "UPI" then checkUpiGov (s, true)
  else checkCardGov (s, true)

/-! ## Events -/

/-- The input listeners of the control `el`, run after the browser has stored
the edited value: `keepLettersSpaces` for the letter fields, `keepDigits` for
the digit fields and `nid`. -/
def onInput (s : State) (el : Field) : State :=
  let s := letterFields.foldl
    (fun s p => if p.1 = el then keepLettersSpaces s el p.2 else s) s
  digitFields.foldl
    (fun s p => if p.1 = el then keepDigits s el p.2.1 p.2.2 else s) s

/-- What can happen to the page once the script has loaded: the actions
of the user on the controls, and the run of a queued timer callback. (The keydown
listeners of `dob` and `expiry` only cancel the key and change no state.) -/
inductive Event where
  /-- the value of a text, select or textarea control is edited to `v` -/
  | input (el : Field) (v : String)
  /-- the radio with value `v` of a group is checked -/
  | check (group : Field) (v : String)
  /-- files are chosen in a file input -/
  | choose (el : Field) (names : List String)
  /-- the confirm checkbox is toggled -/
  | toggleConfirm
  /-- the stepper button at position `i` is clicked -/
  | stepClick (i : Nat)
  | prevClick (prev : Nat)
  | nextClick (next : Nat)
  | goEditClick (goto : Nat)
  | yesClick
  | noClick
  | payNowClick (env : TxnEnv)
  | verifyClick
  /-- a callback queued by `setTimeout` runs -/
  | timeout

/-- The effect of an event; an event on a disabled control, on a stepper
button that does not exist, or a timeout with no queued callback, has none. -/
def fire (s : State) : Event → State
  | Event.input el v =>
      if s.disabled (Control.field el) = true then s
      else onInput { s with value := Function.update s.value el v } el
  | Event.check group v =>
      if s.disabled (Control.field group) = true then s
      else
        let s1 : State := { s with radio := Function.update s.radio group v }
        if group = Field.payMethod then onPayMethodChange s1 else s1
  | Event.choose el names =>
      if s.disabled (Control.field el) = true then s
      else { s with files := Function.update s.files el names }
  | Event.toggleConfirm =>
      if s.disabled (Control.field Field.confirm) = true then s
      else { s with confirmChecked := !s.confirmChecked }
  | Event.stepClick i =>
      match s.stepButtons.get? i with
      | some btn => if btn.disabled = true then s else onStepButtonClick s btn.step
      | none => s
  | Event.prevClick prev =>
      if s.disabled (Control.prevBtn prev) = true then s else onPrevClick s prev
  | Event.nextClick next =>
      if s.disabled (Control.nextBtn next) = true then s else onNextClick s next
  | Event.goEditClick goto =>
      if s.disabled (Control.goEdit goto) = true then s else onGoEditClick s goto
  | Event.yesClick =>
      if s.disabled Control.yesBtn = true then s else onYesClick s
  | Event.noClick =>
      if s.disabled Control.noBtn = true then s else onNoClick s
  | Event.payNowClick env =>
      if s.disabled Control.payNowBtn = true then s else onPayNowClick s env
  | Event.verifyClick =>
      if s.disabled Control.verifyPayBtn = true then s else onVerifyClick s
  | Event.timeout =>
      if s.timers = 0 then s
      else onVerifyTimeout { s with timers := s.timers - 1 }

/-- The state once the script has run to its end on a document `html`: the
globals take their initial values, then `goToStep(1)` and
`setPayUI("UNPAID", "", "")` are executed. -/
def load (html : State) : State :=
  let s0 : State :=
    { html with
        currentStep := 1
        isSubmitted := false
        paymentState := PaymentState.UNPAID
        pendingTxn := none
        alerts := []
        timers := 0 }
  setPayUI (goToStep s0 1) PaymentState.UNPAID "" ""

/-- The states the page can be in: the loaded state of some document, and
what events make of it. -/
inductive Reachable : State → Prop where
  | load (html : State) : Reachable (load html)
  | fire {s : State} (e : Event) : Reachable s → Reachable (fire s e)

/-- The page after a sequence of events. -/
def run (s : State) (evs : List Event) : State := evs.foldl fire s

/-- A document with four stepper buttons, empty controls and nothing
disabled. -/
def blankPage : State where
  currentStep := 0
  isSubmitted := false
  paymentState := PaymentState.UNPAID
  pendingTxn := none
  value := fun _ => ""
  radio := fun _ => ""
  files := fun _ => []
  confirmChecked := false
  errors := fun _ => ""
  disabled := fun _ => false
  pageHidden := fun _ => false
  stepButtons := [1, 2, 3, 4].map (fun n =>
    { step := n, isActive := false, isDone := false, isComplete := false,
      ariaCurrent := "false", disabled := false })
  statusText := ""
  editChooserHidden := true
  confirmNote := ""
  reviewBox := []
  payStatus := ""
  payResult := ""
  payResultClasses := []
  txnIdText := ""
  payNowBtnText := ""
  upiBoxHidden := true
  cardBoxHidden := true
  feeBoxPaid := false
  stepperLocked := false
  alerts := []
  timers := 0

/-! ## What validation leaves alone -/

/-- The state `t` differs from `s` at most in what a validation pass writes:
the error texts and the payment-result line. -/
def SameButReport (s t : State) : Prop :=
  t = { s with
          errors := t.errors
          payResult := t.payResult
          payResultClasses := t.payResultClasses }

/-! ## Vocabulary of the statements, and sample runs -/

/-- What the payment step asks of the fields of the selected method. -/
def methodInputsOk (s : State) : Prop :=
  getRadioValue s Field.payMethod ≠ "" ∧
  (getRadioValue s Field.payMethod = "UPI" →
    trim (s.value Field.upiId) ≠ "" ∧ isUpiValid (s.value Field.upiId) = true) ∧
  (getRadioValue s Field.payMethod ≠ "UPI" →
    (∀ n ∈ requiredCard, trim (s.value n) ≠ "") ∧
    (∀ c ∈ (s.value Field.cardName).data, isAsciiLetter c = true ∨ isJsSpace c = true) ∧
    (onlyDigits (s.value Field.cardNumber)).length = 16 ∧
    (onlyDigits (s.value Field.cvv)).length = 3)

/-- What step 1 asks of the personal details. -/
def step1Ok (s : State) : Prop :=
  (∀ n ∈ requiredStep1, trim (s.value n) ≠ "") ∧
  getRadioValue s Field.gender ≠ "" ∧
  (∀ f ∈ lettersCheck,
    ∀ c ∈ (s.value f).data, isAsciiLetter c = true ∨ isJsSpace c = true) ∧
  isEmailValid (s.value Field.email) = true ∧
  (onlyDigits (s.value Field.pincode)).length = 6 ∧
  (onlyDigits (s.value Field.mobile)).length = 10 ∧
  ((onlyDigits (s.value Field.nid)).length = 12 ∨
    ((onlyDigits (s.value Field.nid)).length ≥ 8 ∧
      (onlyDigits (s.value Field.nid)).length ≤ 16))

/-- The local `ok` is true exactly when no error text is set. -/
def Tight (a : State × Bool) : Prop :=
  a.2 = true ↔ ∀ f, a.1.errors f = ""

/-- The local `ok` is true exactly when no error text is set and the payment
is PAID. -/
def TightPaid (a : State × Bool) : Prop :=
  a.2 = true ↔ (∀ f, a.1.errors f = "") ∧ a.1.paymentState = PaymentState.PAID

/-- A form on which the UPI inputs are in order and the confirm box is
checked, the payment being still UNPAID. -/
def unpaidConfirmed : State :=
  { blankPage with
      radio := Function.update blankPage.radio Field.payMethod "UPI"
      value := Function.update blankPage.value Field.upiId "asha@okicici"
      confirmChecked := true }

/-- The step index is one of 1 to 4 and exactly one page is visible. -/
def StepInv (s : State) : Prop :=
  (1 ≤ s.currentStep ∧ s.currentStep ≤ 4) ∧ ∃! idx : Fin 4, s.pageHidden idx = false

/-- The step number a navigation button carries is one of 1 to 4 (for a
stepper button this is asked of the document, not of the event). -/
def Event.inRange : Event → Prop
  | Event.prevClick prev => 1 ≤ prev ∧ prev ≤ 4
  | Event.nextClick next => 1 ≤ next ∧ next ≤ 4
  | Event.goEditClick goto => 1 ≤ goto ∧ goto ≤ 4
  | _ => True

/-- The stepper buttons of the document carry step numbers from 1 to 4. -/
def StepperInRange (s : State) : Prop :=
  ∀ b ∈ s.stepButtons, 1 ≤ b.step ∧ b.step ≤ 4

/-- What the navigation claims read of a state: the step index, the page
visibility and the step numbers of the stepper buttons. -/
def SameNav (s t : State) : Prop :=
  t.currentStep = s.currentStep ∧ t.pageHidden = s.pageHidden ∧
    t.stepButtons.map StepButton.step = s.stepButtons.map StepButton.step

/-- What the lock and payment claims read of a state: the lock, the payment
state, the transaction id, the disabled flags and the queued callbacks. -/
def SamePayment (s t : State) : Prop :=
  t.isSubmitted = s.isSubmitted ∧ t.paymentState = s.paymentState ∧
    t.pendingTxn = s.pendingTxn ∧ t.disabled = s.disabled ∧ t.timers = s.timers

/-- The conditions tying the lock, the payment state, the transaction id and
the gated controls together. -/
def PayInv (s : State) : Prop :=
  (s.paymentState ≠ PaymentState.PAID →
    s.disabled (Control.field Field.confirm) = true ∧ s.disabled toStep4Btn = true) ∧
  (s.isSubmitted = true → s.paymentState = PaymentState.PAID) ∧
  (s.paymentState = PaymentState.UNPAID → s.pendingTxn = none ∧ s.timers = 0) ∧
  (s.paymentState ≠ PaymentState.UNPAID → ∃ t, s.pendingTxn = some t)

/-- The step index and the pages are in order, and so are the step numbers of
the stepper buttons. -/
def NavOk (s : State) : Prop := StepInv s ∧ StepperInRange s

/-- The personal details of a sample applicant, typed into a fresh page. -/
def step1Inputs : List Event :=
  [Event.input Field.firstName "Asha", Event.input Field.lastName "Rao",
   Event.input Field.dob "1990-01-01", Event.input Field.nationality "Indian",
   Event.input Field.nid "123456789012", Event.input Field.passportType "Regular",
   Event.input Field.address "12 MG Road", Event.input Field.city "Pune",
   Event.input Field.state "Maharashtra", Event.input Field.pincode "411001",
   Event.input Field.mobile "9876543210", Event.input Field.email "asha@example.com",
   Event.check Field.gender "Female"]

/-- A sample environment of `genTxnId`: 8 February 2026, every draw 0. -/
def sampleEnv : TxnEnv := { draws := fun _ => 0, fullYear := 2026, month := 1, date := 8 }

/-- A complete application paid by UPI: the verify button is clicked twice
before the first callback runs, then the applicant confirms and submits. -/
def lockTrace : List Event :=
  step1Inputs ++
  [Event.nextClick 2,
   Event.choose Field.photo ["photo.jpg"], Event.choose Field.idProof ["id.pdf"],
   Event.choose Field.addressProof ["addr.pdf"], Event.choose Field.birthCert ["birth.pdf"],
   Event.nextClick 3,
   Event.check Field.payMethod "UPI", Event.input Field.upiId "asha@okicici",
   Event.payNowClick sampleEnv, Event.verifyClick, Event.verifyClick, Event.timeout,
   Event.toggleConfirm, Event.nextClick 4, Event.yesClick]

/-- A complete application up to the generated payment request. -/
def pendingTrace : List Event :=
  step1Inputs ++
  [Event.nextClick 2,
   Event.choose Field.photo ["photo.jpg"], Event.choose Field.idProof ["id.pdf"],
   Event.choose Field.addressProof ["addr.pdf"], Event.choose Field.birthCert ["birth.pdf"],
   Event.nextClick 3,
   Event.check Field.payMethod "UPI", Event.input Field.upiId "asha@okicici",
   Event.payNowClick sampleEnv]

/-- The strings a regular expression denotes. -/
inductive RE.Matches : RE → List Char → Prop where
  | eps : RE.Matches RE.eps []
  | cls (p : Char → Bool) (c : Char) (h : p c = true) : RE.Matches (RE.cls p) [c]
  | cat {a b : RE} {u v : List Char} (ha : RE.Matches a u) (hb : RE.Matches b v) :
      RE.Matches (RE.cat a b) (u ++ v)
  | starNil (a : RE) : RE.Matches (RE.star a) []
  | starCons {a : RE} {u v : List Char} (ha : RE.Matches a u)
      (hs : RE.Matches (RE.star a) v) : RE.Matches (RE.star a) (u ++ v)
  | altL {a : RE} (b : RE) {u : List Char} (ha : RE.Matches a u) : RE.Matches (RE.alt a b) u
  | altR (a : RE) {b : RE} {u : List Char} (hb : RE.Matches b u) : RE.Matches (RE.alt a b) u

/-- The blank page with one control filled in. -/
def withValue (el : Field) (v : String) : State :=
  { blankPage with value := Function.update blankPage.value el v }

/-- The number a string of decimal digits stands for. -/
def digitsValue (l : List Char) : Nat :=
  l.foldl (fun acc c => 10 * acc + (c.toNat - 48)) 0

theorem SameButReport.same (s : State) : SameButReport s s := Eq.refl s

theorem SameButReport.andThen {s t u : State} (h1 : SameButReport s t)
    (h2 : SameButReport t u) : SameButReport s u := by
  unfold SameButReport at *
  rw [h2]
  rw [h1]

theorem SameButReport.value {s t : State} (h : SameButReport s t) : t.value = s.value := by
  unfold SameButReport at h
  rw [h]

theorem SameButReport.radio {s t : State} (h : SameButReport s t) : t.radio = s.radio := by
  unfold SameButReport at h
  rw [h]

theorem SameButReport.files {s t : State} (h : SameButReport s t) : t.files = s.files := by
  unfold SameButReport at h
  rw [h]

theorem SameButReport.confirmChecked {s t : State} (h : SameButReport s t) :
    t.confirmChecked = s.confirmChecked := by
  unfold SameButReport at h
  rw [h]

theorem SameButReport.paymentState {s t : State} (h : SameButReport s t) :
    t.paymentState = s.paymentState := by
  unfold SameButReport at h
  rw [h]

theorem SameButReport.pendingTxn {s t : State} (h : SameButReport s t) :
    t.pendingTxn = s.pendingTxn := by
  unfold SameButReport at h
  rw [h]

theorem SameButReport.isSubmitted {s t : State} (h : SameButReport s t) :
    t.isSubmitted = s.isSubmitted := by
  unfold SameButReport at h
  rw [h]

theorem SameButReport.currentStep {s t : State} (h : SameButReport s t) :
    t.currentStep = s.currentStep := by
  unfold SameButReport at h
  rw [h]

theorem SameButReport.disabled {s t : State} (h : SameButReport s t) :
    t.disabled = s.disabled := by
  unfold SameButReport at h
  rw [h]

theorem SameButReport.pageHidden {s t : State} (h : SameButReport s t) :
    t.pageHidden = s.pageHidden := by
  unfold SameButReport at h
  rw [h]

theorem SameButReport.stepButtons {s t : State} (h : SameButReport s t) :
    t.stepButtons = s.stepButtons := by
  unfold SameButReport at h
  rw [h]

theorem SameButReport.timers {s t : State} (h : SameButReport s t) : t.timers = s.timers := by
  unfold SameButReport at h
  rw [h]

theorem sameButReport_setError (s : State) (name : Field) (msg : String) :
    SameButReport s (setError s name msg) := Eq.refl _

theorem sameButReport_clearAllErrors (s : State) : SameButReport s (clearAllErrors s) :=
  Eq.refl _

theorem sameButReport_flag (c : Prop) [Decidable c] (name : Field) (msg : String)
    (a : State × Bool) : SameButReport a.1 (flag c name msg a).1 := by
  unfold flag
  split
  · exact sameButReport_setError a.1 name msg
  · exact SameButReport.same a.1

theorem sameButReport_flagEach (c : State → Field → Prop) [∀ s name, Decidable (c s name)]
    (msg : String) (names : List Field) (a : State × Bool) :
    SameButReport a.1 (flagEach c msg names a).1 := by
  induction names generalizing a with
  | nil => exact SameButReport.same a.1
  | cons n ns ih =>
    have h1 := sameButReport_flag (c a.1 n) n msg a
    exact h1.andThen (ih (flag (c a.1 n) n msg a))

theorem sameButReport_checkUpi (a : State × Bool) : SameButReport a.1 (checkUpi a).1 := by
  unfold checkUpi
  dsimp only
  split
  · exact sameButReport_setError _ _ _
  · split
    · exact sameButReport_setError _ _ _
    · exact SameButReport.same a.1

theorem sameButReport_checkCard (a : State × Bool) : SameButReport a.1 (checkCard a).1 := by
  unfold checkCard flagBlank
  dsimp only
  exact (sameButReport_flagEach _ _ _ _).andThen <|
    (sameButReport_flag _ _ _ _).andThen <|
      (sameButReport_flag _ _ _ _).andThen (sameButReport_flag _ _ _ _)

theorem sameButReport_checkPaid (a : State × Bool) : SameButReport a.1 (checkPaid a).1 := by
  unfold checkPaid
  split
  · exact Eq.refl _
  · exact SameButReport.same a.1

theorem sameButReport_checkStep1 (a : State × Bool) : SameButReport a.1 (checkStep1 a).1 := by
  unfold checkStep1 flagBlank
  dsimp only
  exact (sameButReport_flagEach _ _ _ _).andThen <|
    (sameButReport_flag _ _ _ _).andThen <|
    (sameButReport_flagEach _ _ _ _).andThen <|
    (sameButReport_flag _ _ _ _).andThen <|
    (sameButReport_flag _ _ _ _).andThen <|
    (sameButReport_flag _ _ _ _).andThen (sameButReport_flag _ _ _ _)

theorem sameButReport_checkStep2 (a : State × Bool) : SameButReport a.1 (checkStep2 a).1 :=
  sameButReport_flagEach _ _ _ _

theorem sameButReport_checkStep3 (a : State × Bool) : SameButReport a.1 (checkStep3 a).1 := by
  unfold checkStep3
  dsimp only
  split
  · exact sameButReport_setError _ _ _
  · refine SameButReport.andThen ?_
      ((sameButReport_checkPaid _).andThen (sameButReport_flag _ _ _ _))
    split
    · exact sameButReport_checkUpi a
    · exact sameButReport_checkCard a

/-- A validation pass changes nothing but the error texts and the
payment-result line. -/
theorem sameButReport_validateStep (s : State) (step : Nat) :
    SameButReport s (validateStep s step).1 := by
  unfold validateStep
  dsimp only
  split
  · exact (sameButReport_clearAllErrors s).andThen (sameButReport_checkStep1 _)
  · split
    · exact (sameButReport_clearAllErrors s).andThen (sameButReport_checkStep2 _)
    · split
      · exact (sameButReport_clearAllErrors s).andThen (sameButReport_checkStep3 _)
      · exact sameButReport_clearAllErrors s

theorem sameButReport_validateAll (s : State) : SameButReport s (validateAll s).1 := by
  unfold validateAll
  dsimp only
  have h1 := sameButReport_validateStep s 1
  have h2 := sameButReport_validateStep (validateStep s 1).1 2
  have h3 := sameButReport_validateStep (validateStep (validateStep s 1).1 2).1 3
  split
  · exact h1
  · split
    · exact h1.andThen h2
    · exact (h1.andThen h2).andThen h3

/-! ## Trimming -/

theorem trimChars_eq (l : List Char) :
    trimChars l = (l.dropWhile isJsSpace).rdropWhile isJsSpace := Eq.refl _

theorem trimChars_subset (l : List Char) : trimChars l ⊆ l := by
  rw [trimChars_eq]
  exact fun c hc =>
    List.dropWhile_subset isJsSpace ((List.rdropWhile_prefix isJsSpace _).subset hc)

theorem mem_dropWhile_of_not {p : Char → Bool} {l : List Char} {c : Char} (hc : c ∈ l)
    (hp : p c = false) : c ∈ l.dropWhile p := by
  have h := List.takeWhile_append_dropWhile p l
  rw [← h] at hc
  rcases List.mem_append.mp hc with h1 | h1
  · have := List.mem_takeWhile_imp h1
    simp [hp] at this
  · exact h1

theorem mem_trimChars_of_not_space {l : List Char} {c : Char} (hc : c ∈ l)
    (hp : isJsSpace c = false) : c ∈ trimChars l := by
  unfold trimChars
  rw [List.mem_reverse]
  apply mem_dropWhile_of_not _ hp
  rw [List.mem_reverse]
  exact mem_dropWhile_of_not hc hp

theorem dropWhile_of_prefix_dropWhile {p : Char → Bool} {t l : List Char}
    (h : t <+: l.dropWhile p) : t.dropWhile p = t := by
  cases t with
  | nil => rfl
  | cons x xs =>
    obtain ⟨u, hu⟩ := h
    have hd : l.dropWhile p ≠ [] := by
      rw [← hu]
      simp
    have hnot := List.head_dropWhile_not p l hd
    generalize l.dropWhile p = d at hu hd hnot
    subst hu
    simp only [List.cons_append, List.head_cons] at hnot
    simp [List.dropWhile_cons, hnot]

theorem dropWhile_trimChars (l : List Char) :
    (trimChars l).dropWhile isJsSpace = trimChars l := by
  apply dropWhile_of_prefix_dropWhile (l := l)
  rw [trimChars_eq]
  exact List.rdropWhile_prefix isJsSpace _

/-- Trimming a trimmed string changes nothing. -/
theorem trimChars_idem (l : List Char) : trimChars (trimChars l) = trimChars l := by
  conv_lhs => rw [trimChars_eq]
  rw [dropWhile_trimChars, trimChars_eq, List.rdropWhile_idempotent]

theorem trim_idem (v : String) : trim (trim v) = trim v := by
  unfold trim
  simp [trimChars_idem]

theorem isUpiValid_trim (v : String) : isUpiValid (trim v) = isUpiValid v := by
  unfold isUpiValid
  rw [trim_idem]

theorem isEmailValid_trim (v : String) : isEmailValid (trim v) = isEmailValid v := by
  unfold isEmailValid
  rw [trim_idem]

/-- The letters-and-spaces test gives the same answer on a value and on the
trimmed value, the trimmed characters being whitespace. -/
theorem hasNonLetterSpace_trim (v : String) :
    hasNonLetterSpace (trim v) = hasNonLetterSpace v := by
  unfold hasNonLetterSpace trim
  rw [Bool.eq_iff_iff]
  simp only [List.any_eq_true]
  constructor
  · rintro ⟨c, hc, hp⟩
    exact ⟨c, trimChars_subset _ hc, hp⟩
  · rintro ⟨c, hc, hp⟩
    refine ⟨c, mem_trimChars_of_not_space hc ?_, hp⟩
    unfold notLetterOrSpace at hp
    cases h : isJsSpace c
    · rfl
    · simp [h] at hp

/-- A value passes the letters-and-spaces test exactly when each of its
characters is an ASCII letter or whitespace. -/
theorem hasNonLetterSpace_eq_false_iff (v : String) :
    hasNonLetterSpace v = false ↔
      ∀ c ∈ v.data, isAsciiLetter c = true ∨ isJsSpace c = true := by
  unfold hasNonLetterSpace notLetterOrSpace
  rw [← Bool.not_eq_true, List.any_eq_true]
  simp only [Bool.not_eq_true', Bool.not_eq_false, Bool.or_eq_true, not_exists, not_and,
    Bool.not_eq_true]

/-! ## The verdict of a validation pass -/

theorem flag_snd (c : Prop) [Decidable c] (name : Field) (msg : String) (a : State × Bool) :
    (flag c name msg a).2 = true ↔ a.2 = true ∧ ¬c := by
  unfold flag
  split <;> simp_all

theorem flagEach_snd (c : State → Field → Prop) [∀ s name, Decidable (c s name)]
    (hc : ∀ s t name, SameButReport s t → (c t name ↔ c s name))
    (msg : String) (names : List Field) (a : State × Bool) :
    (flagEach c msg names a).2 = true ↔ a.2 = true ∧ ∀ n ∈ names, ¬c a.1 n := by
  induction names generalizing a with
  | nil => simp [flagEach]
  | cons n ns ih =>
    have hstep : flagEach c msg (n :: ns) a = flagEach c msg ns (flag (c a.1 n) n msg a) :=
      Eq.refl _
    rw [hstep, ih, flag_snd]
    have hsame := sameButReport_flag (c a.1 n) n msg a
    constructor
    · rintro ⟨⟨h1, h2⟩, h3⟩
      refine ⟨h1, ?_⟩
      intro m hm
      rcases List.mem_cons.mp hm with rfl | hm
      · exact h2
      · exact fun h => h3 m hm ((hc _ _ m hsame).mpr h)
    · rintro ⟨h1, h2⟩
      refine ⟨⟨h1, h2 n (List.mem_cons_self n ns)⟩, ?_⟩
      intro m hm h
      exact h2 m (List.mem_cons_of_mem n hm) ((hc _ _ m hsame).mp h)

theorem flagBlank_snd (names : List Field) (a : State × Bool) :
    (flagBlank names a).2 = true ↔ a.2 = true ∧ ∀ n ∈ names, trim (a.1.value n) ≠ "" := by
  unfold flagBlank
  apply flagEach_snd
  intro s t name h
  rw [h.value]

theorem checkUpi_snd (a : State × Bool) :
    (checkUpi a).2 = true ↔
      a.2 = true ∧ trim (a.1.value Field.upiId) ≠ "" ∧
        isUpiValid (a.1.value Field.upiId) = true := by
  unfold checkUpi
  dsimp only
  rw [isUpiValid_trim]
  split
  · simp_all
  · split <;> simp_all

theorem checkCard_snd (a : State × Bool) :
    (checkCard a).2 = true ↔
      a.2 = true ∧ (∀ n ∈ requiredCard, trim (a.1.value n) ≠ "") ∧
        hasNonLetterSpace (a.1.value Field.cardName) = false ∧
        (onlyDigits (a.1.value Field.cardNumber)).length = 16 ∧
        (onlyDigits (a.1.value Field.cvv)).length = 3 := by
  unfold checkCard
  dsimp only
  have e1 := (sameButReport_flagEach (fun s name => trim (s.value name) = "")
    "This field is required." requiredCard a).value
  rw [flag_snd, flag_snd, flag_snd, flagBlank_snd]
  simp only [(sameButReport_flag _ _ _ _).value, flagBlank, e1, hasNonLetterSpace_trim]
  constructor
  · rintro ⟨⟨⟨⟨h0, h1⟩, h2⟩, h3⟩, h4⟩
    refine ⟨h0, h1, ?_, by simpa using h3, by simpa using h4⟩
    have hne : a.1.value Field.cardName ≠ "" := by
      intro h
      have := h1 Field.cardName (by simp [requiredCard])
      rw [h] at this
      exact this (by decide)
    cases hh : hasNonLetterSpace (a.1.value Field.cardName)
    · rfl
    · exact absurd ⟨hne, hh⟩ h2
  · rintro ⟨h0, h1, h2, h3, h4⟩
    refine ⟨⟨⟨⟨h0, h1⟩, ?_⟩, by simp [h3]⟩, by simp [h4]⟩
    simp [h2]

theorem checkPaid_snd (a : State × Bool) :
    (checkPaid a).2 = true ↔ a.2 = true ∧ a.1.paymentState = PaymentState.PAID := by
  unfold checkPaid
  split <;> simp_all

theorem checkStep3_snd (a : State × Bool) (ha : a.2 = true) :
    (checkStep3 a).2 = true ↔
      methodInputsOk a.1 ∧ a.1.paymentState = PaymentState.PAID ∧
        a.1.confirmChecked = true := by
  unfold checkStep3 methodInputsOk
  dsimp only
  split
  · rename_i hm
    simp [hm]
  · rename_i hm
    rw [flag_snd, checkPaid_snd]
    rw [(sameButReport_checkPaid _).confirmChecked]
    split
    · rename_i hu
      rw [checkUpi_snd, (sameButReport_checkUpi a).paymentState,
        (sameButReport_checkUpi a).confirmChecked]
      simp [hm, hu, ha]
      tauto
    · rename_i hu
      rw [checkCard_snd, (sameButReport_checkCard a).paymentState,
        (sameButReport_checkCard a).confirmChecked, hasNonLetterSpace_eq_false_iff]
      simp [hm, hu, ha]
      tauto

theorem trim_empty : trim "" = "" := by decide

theorem ne_empty_of_trim_ne {v : String} (h : trim v ≠ "") : v ≠ "" := by
  intro h0
  rw [h0] at h
  exact h trim_empty

theorem lettersCheck_subset : ∀ f ∈ lettersCheck, f ∈ requiredStep1 := by decide

theorem checkStep1_snd (a : State × Bool) (ha : a.2 = true) :
    (checkStep1 a).2 = true ↔ step1Ok a.1 := by
  unfold checkStep1 step1Ok
  dsimp only
  rw [flag_snd, flag_snd, flag_snd, flag_snd, flagEach_snd, flag_snd, flagBlank_snd]
  · have e1 := (sameButReport_flagEach (fun s name => trim (s.value name) = "")
      "This field is required." requiredStep1 a)
    have e2 := sameButReport_flag (getRadioValue (flagBlank requiredStep1 a).1 Field.gender = "")
      Field.gender "Please select a gender." (flagBlank requiredStep1 a)
    simp only [getRadioValue, (sameButReport_flag _ _ _ _).value,
      (sameButReport_flagEach _ _ _ _).value, (sameButReport_flagEach _ _ _ _).radio,
      hasNonLetterSpace_trim, flagBlank, ha, true_and]
    constructor
    · rintro ⟨⟨⟨⟨⟨⟨h1, h2⟩, h3⟩, h4⟩, h5⟩, h6⟩, h7⟩
      refine ⟨h1, h2, ?_, ?_, by simpa using h5, by simpa using h6, not_not.mp h7⟩
      · intro f hf
        rw [← hasNonLetterSpace_eq_false_iff]
        cases hh : hasNonLetterSpace (a.1.value f)
        · rfl
        · exact absurd ⟨h1 f (lettersCheck_subset f hf), hh⟩ (h3 f hf)
      · cases hh : isEmailValid (a.1.value Field.email)
        · exact absurd ⟨ne_empty_of_trim_ne (h1 Field.email (by decide)), hh⟩ h4
        · rfl
    · rintro ⟨h1, h2, h3, h4, h5, h6, h7⟩
      refine ⟨⟨⟨⟨⟨⟨h1, h2⟩, ?_⟩, ?_⟩, by simp [h5]⟩, by simp [h6]⟩, not_not.mpr h7⟩
      · intro f hf hbad
        have := (hasNonLetterSpace_eq_false_iff _).mpr (h3 f hf)
        rw [this] at hbad
        exact Bool.noConfusion hbad.2
      · intro hbad
        rw [h4] at hbad
        exact Bool.noConfusion hbad.2
  · intro s t name h
    dsimp only
    rw [h.value]

theorem checkStep2_snd (a : State × Bool) (ha : a.2 = true) :
    (checkStep2 a).2 = true ↔ ∀ n ∈ requiredFiles, a.1.files n ≠ [] := by
  unfold checkStep2
  rw [flagEach_snd]
  · simp [ha]
  · intro s t name h
    rw [h.files]

/-- The verdict of `validateStep(1)` in terms of the values. -/
theorem validateStep1_snd (s : State) : (validateStep s 1).2 = true ↔ step1Ok s := by
  unfold validateStep
  simp only [if_true]
  exact checkStep1_snd _ (Eq.refl true)

/-- The verdict of `validateStep(2)` in terms of the chosen files. -/
theorem validateStep2_snd (s : State) :
    (validateStep s 2).2 = true ↔ ∀ n ∈ requiredFiles, s.files n ≠ [] := by
  unfold validateStep
  simp only [OfNat.ofNat_ne_one, if_false, if_true]
  exact checkStep2_snd _ (Eq.refl true)

/-- The verdict of `validateStep(3)` in terms of the values and the payment
state. -/
theorem validateStep3_snd (s : State) :
    (validateStep s 3).2 = true ↔
      methodInputsOk s ∧ s.paymentState = PaymentState.PAID ∧ s.confirmChecked = true := by
  unfold validateStep
  simp only [OfNat.ofNat_ne_one, if_false, if_true, show (3 : Nat) ≠ 2 by decide]
  exact checkStep3_snd _ (Eq.refl true)

/-- The verdict of a validation pass does not depend on the error texts or the
payment-result line. -/
theorem validateStep_snd_congr {s t : State} (h : SameButReport s t) (step : Nat) :
    (validateStep t step).2 = (validateStep s step).2 := by
  have key : validateStep t step = validateStep
      { s with payResult := t.payResult, payResultClasses := t.payResultClasses } step := by
    unfold SameButReport at h
    rw [h]
    rfl
  rw [key]
  by_cases h1 : step = 1
  · subst h1
    rw [Bool.eq_iff_iff, validateStep1_snd, validateStep1_snd]
    exact Iff.rfl
  · by_cases h2 : step = 2
    · subst h2
      rw [Bool.eq_iff_iff, validateStep2_snd, validateStep2_snd]
    · by_cases h3 : step = 3
      · subst h3
        rw [Bool.eq_iff_iff, validateStep3_snd, validateStep3_snd]
        exact Iff.rfl
      · simp [validateStep, h1, h2, h3]

/-- The verdict of `validateAll()` is the conjunction of the three step
verdicts on the same values. -/
theorem validateAll_snd (s : State) :
    (validateAll s).2 = true ↔
      (validateStep s 1).2 = true ∧ (validateStep s 2).2 = true ∧
        (validateStep s 3).2 = true := by
  have h1 := sameButReport_validateStep s 1
  have h2 := sameButReport_validateStep (validateStep s 1).1 2
  have e2 := validateStep_snd_congr h1 2
  have e3 := validateStep_snd_congr (h1.andThen h2) 3
  unfold validateAll
  dsimp only
  split
  · rename_i hf
    simp [hf]
  · rename_i hf
    split
    · rename_i hg
      rw [e2]
      rw [e2] at hg
      simp [hg]
    · rename_i hg
      rw [e2] at hg
      rw [e3]
      simp_all

/-! ## The verdict and the ErrorMap -/

theorem setError_errors_self (s : State) (name : Field) (msg : String) :
    (setError s name msg).errors name = msg := by
  simp [setError]

theorem tight_set (s : State) (name : Field) (msg : String) (hm : msg ≠ "") :
    Tight (setError s name msg, false) := by
  unfold Tight
  constructor
  · intro h
    exact Bool.noConfusion h
  · intro h
    exact absurd (h name) (by rw [setError_errors_self]; exact hm)

theorem tight_flag (c : Prop) [Decidable c] (name : Field) (msg : String) (hm : msg ≠ "")
    (a : State × Bool) (h : Tight a) : Tight (flag c name msg a) := by
  unfold flag
  split
  · exact tight_set a.1 name msg hm
  · exact h

theorem tight_flagEach (c : State → Field → Prop) [∀ s name, Decidable (c s name)]
    (msg : String) (hm : msg ≠ "") (names : List Field) (a : State × Bool) (h : Tight a) :
    Tight (flagEach c msg names a) := by
  induction names generalizing a with
  | nil => exact h
  | cons n ns ih => exact ih _ (tight_flag _ n msg hm a h)

theorem tight_checkStep1 (a : State × Bool) (h : Tight a) : Tight (checkStep1 a) := by
  unfold checkStep1 flagBlank
  dsimp only
  refine tight_flag _ _ _ (by decide) _ <| tight_flag _ _ _ (by decide) _ <|
    tight_flag _ _ _ (by decide) _ <| tight_flag _ _ _ (by decide) _ <|
    tight_flagEach _ _ (by decide) _ _ <| tight_flag _ _ _ (by decide) _ <|
    tight_flagEach _ _ (by decide) _ _ h

theorem tight_checkStep2 (a : State × Bool) (h : Tight a) : Tight (checkStep2 a) :=
  tight_flagEach _ _ (by decide) _ _ h

theorem tight_checkUpi (a : State × Bool) (h : Tight a) : Tight (checkUpi a) := by
  unfold checkUpi
  dsimp only
  split
  · exact tight_set _ _ _ (by decide)
  · split
    · exact tight_set _ _ _ (by decide)
    · exact h

theorem tight_checkCard (a : State × Bool) (h : Tight a) : Tight (checkCard a) := by
  unfold checkCard flagBlank
  dsimp only
  exact tight_flag _ _ _ (by decide) _ <| tight_flag _ _ _ (by decide) _ <|
    tight_flag _ _ _ (by decide) _ <| tight_flagEach _ _ (by decide) _ _ h

theorem tightPaid_checkPaid (a : State × Bool) (h : Tight a) : TightPaid (checkPaid a) := by
  unfold checkPaid TightPaid
  split
  · rename_i hp
    constructor
    · intro h0
      exact Bool.noConfusion h0
    · rintro ⟨_, h2⟩
      exact absurd h2 hp
  · rename_i hp
    unfold Tight at h
    exact ⟨fun h0 => ⟨h.mp h0, not_not.mp hp⟩, fun h0 => h.mpr h0.1⟩

theorem tightPaid_flag (c : Prop) [Decidable c] (name : Field) (msg : String) (hm : msg ≠ "")
    (a : State × Bool) (h : TightPaid a) : TightPaid (flag c name msg a) := by
  unfold flag
  split
  · unfold TightPaid
    constructor
    · intro h0
      exact Bool.noConfusion h0
    · rintro ⟨h1, _⟩
      exact absurd (h1 name) (by rw [setError_errors_self]; exact hm)
  · exact h

theorem tightPaid_checkStep3 (a : State × Bool) (h : Tight a) : TightPaid (checkStep3 a) := by
  unfold checkStep3
  dsimp only
  split
  · unfold TightPaid
    constructor
    · intro h0
      exact Bool.noConfusion h0
    · rintro ⟨h1, _⟩
      exact absurd (h1 Field.payMethod) (by rw [setError_errors_self]; decide)
  · apply tightPaid_flag _ _ _ (by decide)
    apply tightPaid_checkPaid
    split
    · exact tight_checkUpi a h
    · exact tight_checkCard a h

theorem tight_cleared (s : State) : Tight (clearAllErrors s, true) := by
  unfold Tight clearAllErrors
  simp

/-- An error text, once set in a pass, is not emptied by a later check. -/
theorem flag_errors_ne (c : Prop) [Decidable c] (name : Field) (msg : String) (hm : msg ≠ "")
    (a : State × Bool) (f : Field) (h : a.1.errors f ≠ "") :
    (flag c name msg a).1.errors f ≠ "" := by
  unfold flag
  split
  · by_cases hf : f = name
    · subst hf
      rw [setError_errors_self]
      exact hm
    · simpa [setError, Function.update_noteq hf] using h
  · exact h

theorem flagEach_errors_ne (c : State → Field → Prop) [∀ s name, Decidable (c s name)]
    (msg : String) (hm : msg ≠ "") (names : List Field) (a : State × Bool) (f : Field)
    (h : a.1.errors f ≠ "") : (flagEach c msg names a).1.errors f ≠ "" := by
  induction names generalizing a with
  | nil => exact h
  | cons n ns ih => exact ih _ (flag_errors_ne _ n msg hm a f h)

/-- The loop sets the error text of each name whose condition holds. -/
theorem flagEach_errors_of (c : State → Field → Prop) [∀ s name, Decidable (c s name)]
    (hc : ∀ s t name, SameButReport s t → (c t name ↔ c s name))
    (msg : String) (hm : msg ≠ "") (names : List Field) (a : State × Bool) (n : Field)
    (hn : n ∈ names) (h : c a.1 n) : (flagEach c msg names a).1.errors n ≠ "" := by
  induction names generalizing a with
  | nil => exact absurd hn (List.not_mem_nil n)
  | cons m ms ih =>
    have hstep : flagEach c msg (m :: ms) a = flagEach c msg ms (flag (c a.1 m) m msg a) :=
      Eq.refl _
    rw [hstep]
    by_cases hnm : n = m
    · subst hnm
      apply flagEach_errors_ne c msg hm
      unfold flag
      rw [if_pos h, setError_errors_self]
      exact hm
    · have hn2 : n ∈ ms := by
        rcases List.mem_cons.mp hn with h0 | h0
        · exact absurd h0 hnm
        · exact h0
      exact ih _ hn2 ((hc _ _ n (sameButReport_flag _ _ _ _)).mpr h)

theorem checkStep1_errors_of_blank (a : State × Bool) (n : Field) (hn : n ∈ requiredStep1)
    (h : trim (a.1.value n) = "") : (checkStep1 a).1.errors n ≠ "" := by
  unfold checkStep1 flagBlank
  dsimp only
  refine flag_errors_ne _ _ _ (by decide) _ n <| flag_errors_ne _ _ _ (by decide) _ n <|
    flag_errors_ne _ _ _ (by decide) _ n <| flag_errors_ne _ _ _ (by decide) _ n <|
    flagEach_errors_ne _ _ (by decide) _ _ n <| flag_errors_ne _ _ _ (by decide) _ n <|
    flagEach_errors_of _ ?_ _ (by decide) _ _ n hn h
  intro s t name hst
  rw [hst.value]

/-- A pass starts from an empty ErrorMap: its result does not depend on the
error texts present before. -/
theorem validateStep_forgets_errors (s : State) (e : Field → String) (step : Nat) :
    validateStep { s with errors := e } step = validateStep s step := Eq.refl _

theorem tight_validateStep1 (s : State) : Tight (validateStep s 1) := by
  unfold validateStep
  simp only [if_true]
  exact tight_checkStep1 _ (tight_cleared s)

theorem tight_validateStep2 (s : State) : Tight (validateStep s 2) := by
  unfold validateStep
  simp only [OfNat.ofNat_ne_one, if_false, if_true]
  exact tight_checkStep2 _ (tight_cleared s)

theorem tightPaid_validateStep3 (s : State) : TightPaid (validateStep s 3) := by
  unfold validateStep
  simp only [OfNat.ofNat_ne_one, if_false, if_true, show (3 : Nat) ≠ 2 by decide]
  exact tightPaid_checkStep3 _ (tight_cleared s)

/-! ## The ErrorMap a pass leaves -/

/-- The error text a guarded `setError` leaves on a name. -/
theorem flag_errors (c : Prop) [Decidable c] (name : Field) (msg : String)
    (a : State × Bool) (f : Field) :
    (flag c name msg a).1.errors f = if c ∧ f = name then msg else a.1.errors f := by
  unfold flag
  by_cases hc : c
  · rw [if_pos hc]
    by_cases hf : f = name
    · subst hf
      rw [if_pos ⟨hc, rfl⟩, setError_errors_self]
    · rw [if_neg (fun h => hf h.2)]
      simp [setError, Function.update_noteq hf]
  · rw [if_neg hc, if_neg (fun h => hc h.1)]

/-- The error text the loop leaves on a name. -/
theorem flagEach_errors (c : State → Field → Prop) [∀ s name, Decidable (c s name)]
    (hc : ∀ s t name, SameButReport s t → (c t name ↔ c s name))
    (msg : String) (names : List Field) (a : State × Bool) (f : Field) :
    (flagEach c msg names a).1.errors f =
      if f ∈ names ∧ c a.1 f then msg else a.1.errors f := by
  induction names generalizing a with
  | nil => simp [flagEach]
  | cons n ns ih =>
    have hstep : flagEach c msg (n :: ns) a = flagEach c msg ns (flag (c a.1 n) n msg a) :=
      Eq.refl _
    have hsame := sameButReport_flag (c a.1 n) n msg a
    rw [hstep, ih, flag_errors]
    by_cases h1 : f ∈ ns ∧ c a.1 f
    · rw [if_pos ⟨h1.1, (hc _ _ f hsame).mpr h1.2⟩,
        if_pos ⟨List.mem_cons_of_mem n h1.1, h1.2⟩]
    · rw [if_neg (fun h => h1 ⟨h.1, (hc _ _ f hsame).mp h.2⟩)]
      by_cases h2 : c a.1 n ∧ f = n
      · rw [if_pos h2, if_pos ⟨by rw [h2.2]; exact List.mem_cons_self n ns, by rw [h2.2]; exact h2.1⟩]
      · rw [if_neg h2, if_neg]
        rintro ⟨hm, hcf⟩
        rcases List.mem_cons.mp hm with h3 | h3
        · exact h2 ⟨by rw [← h3]; exact hcf, h3⟩
        · exact h1 ⟨h3, hcf⟩

theorem validateStep1_errors (s : State) (f : Field) :
    (validateStep s 1).1.errors f =
      if ¬((onlyDigits (s.value Field.nid)).length = 12 ∨
            ((onlyDigits (s.value Field.nid)).length ≥ 8 ∧
              (onlyDigits (s.value Field.nid)).length ≤ 16)) ∧ f = Field.nid then
        "National ID must be 8–16 digits (Aadhaar: exactly 12)."
      else if (onlyDigits (s.value Field.mobile)).length ≠ 10 ∧ f = Field.mobile then
        "Mobile number must be exactly 10 digits."
      else if (onlyDigits (s.value Field.pincode)).length ≠ 6 ∧ f = Field.pincode then
        "Pincode must be exactly 6 digits."
      else if (s.value Field.email ≠ "" ∧ isEmailValid (s.value Field.email) = false) ∧
          f = Field.email then
        "Enter a valid email address."
      else if f ∈ lettersCheck ∧
          (trim (s.value f) ≠ "" ∧ hasNonLetterSpace (trim (s.value f)) = true) then
        "Only letters and spaces are allowed."
      else if getRadioValue s Field.gender = "" ∧ f = Field.gender then
        "Please select a gender."
      else if f ∈ requiredStep1 ∧ trim (s.value f) = "" then "This field is required."
      else "" := by
  unfold validateStep
  simp only [if_true]
  unfold checkStep1 flagBlank
  dsimp only
  rw [flag_errors, flag_errors, flag_errors, flag_errors, flagEach_errors, flag_errors,
    flagEach_errors]
  · simp only [getRadioValue, (sameButReport_flag _ _ _ _).value,
      (sameButReport_flagEach _ _ _ _).value, (sameButReport_flagEach _ _ _ _).radio]
    rfl
  · intro s t name h
    rw [h.value]
  · intro s t name h
    dsimp only
    rw [h.value]

theorem validateStep2_errors (s : State) (f : Field) :
    (validateStep s 2).1.errors f =
      if f ∈ requiredFiles ∧ s.files f = [] then "Please upload this document." else "" := by
  unfold validateStep
  simp only [OfNat.ofNat_ne_one, if_false, if_true]
  unfold checkStep2
  rw [flagEach_errors]
  · rfl
  · intro s t name h
    rw [h.files]

theorem checkUpi_errors (a : State × Bool) (f : Field) :
    (checkUpi a).1.errors f =
      if trim (a.1.value Field.upiId) = "" ∧ f = Field.upiId then "UPI ID is required."
      else if isUpiValid (a.1.value Field.upiId) = false ∧ f = Field.upiId then
        "Enter a valid UPI ID (example: ankit@okicici)."
      else a.1.errors f := by
  unfold checkUpi
  dsimp only
  rw [isUpiValid_trim]
  by_cases h1 : trim (a.1.value Field.upiId) = ""
  · by_cases hf : f = Field.upiId
    · simp [h1, hf, setError]
    · simp [h1, hf, setError, Function.update_noteq hf]
  · by_cases h2 : isUpiValid (a.1.value Field.upiId) = false
    · by_cases hf : f = Field.upiId
      · simp [h1, h2, hf, setError]
      · simp [h1, h2, hf, setError, Function.update_noteq hf]
    · simp [h1, h2]

theorem checkCard_errors (a : State × Bool) (f : Field) :
    (checkCard a).1.errors f =
      if (onlyDigits (a.1.value Field.cvv)).length ≠ 3 ∧ f = Field.cvv then
        "CVV must be exactly 3 digits."
      else if (onlyDigits (a.1.value Field.cardNumber)).length ≠ 16 ∧ f = Field.cardNumber then
        "Card number must be exactly 16 digits."
      else if (a.1.value Field.cardName ≠ "" ∧
          hasNonLetterSpace (trim (a.1.value Field.cardName)) = true) ∧ f = Field.cardName then
        "Only letters and spaces are allowed."
      else if f ∈ requiredCard ∧ trim (a.1.value f) = "" then "This field is required."
      else a.1.errors f := by
  unfold checkCard flagBlank
  dsimp only
  rw [flag_errors, flag_errors, flag_errors, flagEach_errors]
  · simp only [(sameButReport_flag _ _ _ _).value, (sameButReport_flagEach _ _ _ _).value]
  · intro s t name h
    rw [h.value]

theorem checkPaid_errors (a : State × Bool) : (checkPaid a).1.errors = a.1.errors := by
  unfold checkPaid
  split <;> rfl

theorem validateStep3_errors (s : State) (f : Field) :
    (validateStep s 3).1.errors f =
      if getRadioValue s Field.payMethod = "" then
        (if f = Field.payMethod then "Please select payment method." else "")
      else if s.confirmChecked = false ∧ f = Field.confirm then
        "Please confirm the information."
      else if getRadioValue s Field.payMethod = "UPI" then
        (if trim (s.value Field.upiId) = "" ∧ f = Field.upiId then "UPI ID is required."
         else if isUpiValid (s.value Field.upiId) = false ∧ f = Field.upiId then
           "Enter a valid UPI ID (example: ankit@okicici)."
         else "")
      else
        (if (onlyDigits (s.value Field.cvv)).length ≠ 3 ∧ f = Field.cvv then
           "CVV must be exactly 3 digits."
         else if (onlyDigits (s.value Field.cardNumber)).length ≠ 16 ∧
             f = Field.cardNumber then
           "Card number must be exactly 16 digits."
         else if (s.value Field.cardName ≠ "" ∧
             hasNonLetterSpace (trim (s.value Field.cardName)) = true) ∧
             f = Field.cardName then
           "Only letters and spaces are allowed."
         else if f ∈ requiredCard ∧ trim (s.value f) = "" then "This field is required."
         else "") := by
  unfold validateStep
  simp only [OfNat.ofNat_ne_one, if_false, if_true, show (3 : Nat) ≠ 2 by decide]
  unfold checkStep3
  dsimp only
  have hm : getRadioValue (clearAllErrors s) Field.payMethod = getRadioValue s Field.payMethod :=
    rfl
  rw [hm]
  split
  · by_cases hf : f = Field.payMethod
    · subst hf
      rw [if_pos rfl, setError_errors_self]
    · rw [if_neg hf]
      simp [setError, Function.update_noteq hf, clearAllErrors]
  · rw [flag_errors, checkPaid_errors, (sameButReport_checkPaid _).confirmChecked]
    split
    · rw [(sameButReport_checkUpi _).confirmChecked, checkUpi_errors]
      rfl
    · rw [(sameButReport_checkCard _).confirmChecked, checkCard_errors]
      rfl

theorem trim_ne_of_hasNonLetterSpace {v : String} (h : hasNonLetterSpace v = true) :
    trim v ≠ "" := by
  rw [← hasNonLetterSpace_trim] at h
  intro h0
  rw [h0] at h
  exact absurd h (by decide)

theorem ite_ne_empty_of_rest {c : Prop} [Decidable c] {m r : String} (hm : m ≠ "")
    (hr : r ≠ "") : (if c then m else r) ≠ "" := by
  split
  · exact hm
  · exact hr

theorem ite_ne_empty_of_pos {c : Prop} [Decidable c] {m r : String} (hc : c) (hm : m ≠ "") :
    (if c then m else r) ≠ "" := by
  rw [if_pos hc]
  exact hm

/-- Each condition of step 1 that is violated leaves a non-empty error text on
its field. -/
theorem validateStep1_covers (s : State) :
    (∀ n ∈ requiredStep1, trim (s.value n) = "" → (validateStep s 1).1.errors n ≠ "") ∧
    (getRadioValue s Field.gender = "" → (validateStep s 1).1.errors Field.gender ≠ "") ∧
    (∀ f ∈ lettersCheck, hasNonLetterSpace (s.value f) = true →
      (validateStep s 1).1.errors f ≠ "") ∧
    (isEmailValid (s.value Field.email) = false →
      (validateStep s 1).1.errors Field.email ≠ "") ∧
    ((onlyDigits (s.value Field.pincode)).length ≠ 6 →
      (validateStep s 1).1.errors Field.pincode ≠ "") ∧
    ((onlyDigits (s.value Field.mobile)).length ≠ 10 →
      (validateStep s 1).1.errors Field.mobile ≠ "") ∧
    (¬((onlyDigits (s.value Field.nid)).length = 12 ∨
        ((onlyDigits (s.value Field.nid)).length ≥ 8 ∧
          (onlyDigits (s.value Field.nid)).length ≤ 16)) →
      (validateStep s 1).1.errors Field.nid ≠ "") := by
  have hreq : ∀ n ∈ requiredStep1, trim (s.value n) = "" →
      (validateStep s 1).1.errors n ≠ "" := by
    intro n hn hb
    rw [validateStep1_errors]
    exact ite_ne_empty_of_rest (by decide) <| ite_ne_empty_of_rest (by decide) <|
      ite_ne_empty_of_rest (by decide) <| ite_ne_empty_of_rest (by decide) <|
      ite_ne_empty_of_rest (by decide) <| ite_ne_empty_of_rest (by decide) <|
      ite_ne_empty_of_pos ⟨hn, hb⟩ (by decide)
  refine ⟨hreq, ?_, ?_, ?_, ?_, ?_, ?_⟩
  · intro hb
    rw [validateStep1_errors]
    exact ite_ne_empty_of_rest (by decide) <| ite_ne_empty_of_rest (by decide) <|
      ite_ne_empty_of_rest (by decide) <| ite_ne_empty_of_rest (by decide) <|
      ite_ne_empty_of_rest (by decide) <| ite_ne_empty_of_pos ⟨hb, rfl⟩ (by decide)
  · intro f hf hb
    have h1 := trim_ne_of_hasNonLetterSpace hb
    rw [← hasNonLetterSpace_trim] at hb
    rw [validateStep1_errors]
    exact ite_ne_empty_of_rest (by decide) <| ite_ne_empty_of_rest (by decide) <|
      ite_ne_empty_of_rest (by decide) <| ite_ne_empty_of_rest (by decide) <|
      ite_ne_empty_of_pos ⟨hf, h1, hb⟩ (by decide)
  · intro hb
    by_cases he : trim (s.value Field.email) = ""
    · exact hreq Field.email (by decide) he
    · rw [validateStep1_errors]
      exact ite_ne_empty_of_rest (by decide) <| ite_ne_empty_of_rest (by decide) <|
        ite_ne_empty_of_rest (by decide) <|
        ite_ne_empty_of_pos ⟨⟨ne_empty_of_trim_ne he, hb⟩, rfl⟩ (by decide)
  · intro hb
    rw [validateStep1_errors]
    exact ite_ne_empty_of_rest (by decide) <| ite_ne_empty_of_rest (by decide) <|
      ite_ne_empty_of_pos ⟨hb, rfl⟩ (by decide)
  · intro hb
    rw [validateStep1_errors]
    exact ite_ne_empty_of_rest (by decide) <| ite_ne_empty_of_pos ⟨hb, rfl⟩ (by decide)
  · intro hb
    rw [validateStep1_errors]
    exact ite_ne_empty_of_pos ⟨hb, rfl⟩ (by decide)

/-- Each file input of step 2 that is empty gets a non-empty error text. -/
theorem validateStep2_covers (s : State) :
    ∀ n ∈ requiredFiles, s.files n = [] → (validateStep s 2).1.errors n ≠ "" := by
  intro n hn hb
  rw [validateStep2_errors, if_pos ⟨hn, hb⟩]
  decide

/-- Step 3 with no method selected leaves an error text on `payMethod`; with
a method selected, each violated condition on the confirm box or on the fields
of that method leaves a non-empty error text on its field. -/
theorem validateStep3_covers (s : State) :
    (getRadioValue s Field.payMethod = "" →
      (validateStep s 3).1.errors Field.payMethod ≠ "") ∧
    (getRadioValue s Field.payMethod ≠ "" →
      (s.confirmChecked = false → (validateStep s 3).1.errors Field.confirm ≠ "") ∧
      (getRadioValue s Field.payMethod = "UPI" →
        (trim (s.value Field.upiId) = "" ∨ isUpiValid (s.value Field.upiId) = false) →
          (validateStep s 3).1.errors Field.upiId ≠ "") ∧
      (getRadioValue s Field.payMethod ≠ "UPI" →
        (∀ n ∈ requiredCard, trim (s.value n) = "" → (validateStep s 3).1.errors n ≠ "") ∧
        (hasNonLetterSpace (s.value Field.cardName) = true →
          (validateStep s 3).1.errors Field.cardName ≠ "") ∧
        ((onlyDigits (s.value Field.cardNumber)).length ≠ 16 →
          (validateStep s 3).1.errors Field.cardNumber ≠ "") ∧
        ((onlyDigits (s.value Field.cvv)).length ≠ 3 →
          (validateStep s 3).1.errors Field.cvv ≠ ""))) := by
  refine ⟨?_, fun hm => ⟨?_, ?_, fun hu => ⟨?_, ?_, ?_, ?_⟩⟩⟩
  · intro hm
    rw [validateStep3_errors, if_pos hm, if_pos rfl]
    decide
  · intro hb
    rw [validateStep3_errors, if_neg hm, if_pos ⟨hb, rfl⟩]
    decide
  · intro hu hb
    rw [validateStep3_errors, if_neg hm, if_neg (fun h => Field.noConfusion h.2), if_pos hu]
    rcases hb with hb | hb
    · exact ite_ne_empty_of_pos ⟨hb, rfl⟩ (by decide)
    · exact ite_ne_empty_of_rest (by decide) (ite_ne_empty_of_pos ⟨hb, rfl⟩ (by decide))
  · intro n hn hb
    have hne : n ≠ Field.confirm := by
      intro h0
      rw [h0] at hn
      exact absurd hn (by decide)
    rw [validateStep3_errors, if_neg hm, if_neg (fun h => hne h.2), if_neg hu]
    exact ite_ne_empty_of_rest (by decide) <| ite_ne_empty_of_rest (by decide) <|
      ite_ne_empty_of_rest (by decide) <| ite_ne_empty_of_pos ⟨hn, hb⟩ (by decide)
  · intro hb
    have h1 := ne_empty_of_trim_ne (trim_ne_of_hasNonLetterSpace hb)
    rw [← hasNonLetterSpace_trim] at hb
    rw [validateStep3_errors, if_neg hm, if_neg (fun h => Field.noConfusion h.2), if_neg hu]
    exact ite_ne_empty_of_rest (by decide) <| ite_ne_empty_of_rest (by decide) <|
      ite_ne_empty_of_pos ⟨⟨h1, hb⟩, rfl⟩ (by decide)
  · intro hb
    rw [validateStep3_errors, if_neg hm, if_neg (fun h => Field.noConfusion h.2), if_neg hu]
    exact ite_ne_empty_of_rest (by decide) <| ite_ne_empty_of_pos ⟨hb, rfl⟩ (by decide)
  · intro hb
    rw [validateStep3_errors, if_neg hm, if_neg (fun h => Field.noConfusion h.2), if_neg hu]
    exact ite_ne_empty_of_pos ⟨hb, rfl⟩ (by decide)

/-! ## Claims about validation -/

/-- C1: `validateStep(3)` returns true exactly when a payment method is
selected, the fields of the selected method pass their checks (UPI: a
non-blank id matching the UPI pattern; any other method, the card: the four
card fields non-blank, the holder name letters and whitespace only, 16 card
digits and 3 CVV digits after stripping non-digits), `paymentState` is PAID
and the confirm checkbox is checked. -/
theorem validateStep3_true_iff (s : State) :
    (validateStep s 3).2 = true ↔
      getRadioValue s Field.payMethod ≠ "" ∧
      (getRadioValue s Field.payMethod = "UPI" →
        trim (s.value Field.upiId) ≠ "" ∧ isUpiValid (s.value Field.upiId) = true) ∧
      (getRadioValue s Field.payMethod ≠ "UPI" →
        trim (s.value Field.cardName) ≠ "" ∧ trim (s.value Field.cardNumber) ≠ "" ∧
        trim (s.value Field.expiry) ≠ "" ∧ trim (s.value Field.cvv) ≠ "" ∧
        (∀ c ∈ (s.value Field.cardName).data, isAsciiLetter c = true ∨ isJsSpace c = true) ∧
        (onlyDigits (s.value Field.cardNumber)).length = 16 ∧
        (onlyDigits (s.value Field.cvv)).length = 3) ∧
      s.paymentState = PaymentState.PAID ∧ s.confirmChecked = true := by
  rw [validateStep3_snd]
  unfold methodInputsOk
  simp only [requiredCard, List.mem_cons, List.mem_singleton, forall_eq_or_imp, forall_eq,
    List.not_mem_nil, false_imp_iff, implies_true, and_true, and_assoc]

/-- C10: `validateStep(1)` returns true exactly when each of the twelve
required fields is non-blank after trimming, a gender is selected, the five
name-like fields hold letters and whitespace only, the email is well formed
and the pincode, mobile and national-id digit rules hold; and the pass leaves
a non-empty error text on every required field that is blank. -/
theorem validateStep1_true_iff (s : State) :
    ((validateStep s 1).2 = true ↔
      (∀ n ∈ [Field.firstName, Field.lastName, Field.dob, Field.nationality, Field.nid,
          Field.passportType, Field.address, Field.city, Field.state, Field.pincode,
          Field.mobile, Field.email], trim (s.value n) ≠ "") ∧
      getRadioValue s Field.gender ≠ "" ∧
      (∀ f ∈ [Field.firstName, Field.lastName, Field.nationality, Field.city, Field.state],
        ∀ c ∈ (s.value f).data, isAsciiLetter c = true ∨ isJsSpace c = true) ∧
      isEmailValid (s.value Field.email) = true ∧
      (onlyDigits (s.value Field.pincode)).length = 6 ∧
      (onlyDigits (s.value Field.mobile)).length = 10 ∧
      ((onlyDigits (s.value Field.nid)).length = 12 ∨
        ((onlyDigits (s.value Field.nid)).length ≥ 8 ∧
          (onlyDigits (s.value Field.nid)).length ≤ 16))) ∧
    (∀ n ∈ [Field.firstName, Field.lastName, Field.dob, Field.nationality, Field.nid,
          Field.passportType, Field.address, Field.city, Field.state, Field.pincode,
          Field.mobile, Field.email],
      trim (s.value n) = "" → (validateStep s 1).1.errors n ≠ "") := by
  refine ⟨validateStep1_snd s, ?_⟩
  intro n hn hblank
  unfold validateStep
  simp only [if_true]
  exact checkStep1_errors_of_blank _ n hn hblank

/-- C9, as stated, fails: on a page loaded with valid UPI inputs and the
confirm box checked, the payment being UNPAID, `validateStep(3)` returns false
although the ErrorMap it leaves is empty. -/
theorem validateStep3_false_without_error :
    Reachable (load unpaidConfirmed) ∧
    (load unpaidConfirmed).paymentState = PaymentState.UNPAID ∧
    (validateStep (load unpaidConfirmed) 3).2 = false ∧
    ∀ f, (validateStep (load unpaidConfirmed) 3).1.errors f = "" := by
  refine ⟨Reachable.load unpaidConfirmed, by decide, by decide, ?_⟩
  intro f
  cases f <;> decide

/-- C9, amended: a pass of `validateStep(n)` starts from an empty ErrorMap
(its result is the same whatever the earlier error texts); for n = 1 and
n = 2 it returns true exactly when it leaves no error text; for n = 3 it
returns true exactly when it leaves no error text and `paymentState` is PAID,
a payment that is not PAID being reported in the payment-result line and not
in the ErrorMap; and every violated condition on a field leaves a non-empty
error text on that field (in step 3, once a payment method is selected). -/
theorem validateStep_true_iff_no_error (s : State) :
    (∀ (e : Field → String) (n : Nat),
      validateStep { s with errors := e } n = validateStep s n) ∧
    ((validateStep s 1).2 = true ↔ ∀ f, (validateStep s 1).1.errors f = "") ∧
    ((validateStep s 2).2 = true ↔ ∀ f, (validateStep s 2).1.errors f = "") ∧
    ((validateStep s 3).2 = true ↔
      (∀ f, (validateStep s 3).1.errors f = "") ∧ s.paymentState = PaymentState.PAID) ∧
    (s.paymentState ≠ PaymentState.PAID → getRadioValue s Field.payMethod ≠ "" →
      (validateStep s 3).1.payResult = "Please complete payment verification to continue.") ∧
    ((∀ n ∈ requiredStep1, trim (s.value n) = "" → (validateStep s 1).1.errors n ≠ "") ∧
      (getRadioValue s Field.gender = "" → (validateStep s 1).1.errors Field.gender ≠ "") ∧
      (∀ f ∈ lettersCheck, hasNonLetterSpace (s.value f) = true →
        (validateStep s 1).1.errors f ≠ "") ∧
      (isEmailValid (s.value Field.email) = false →
        (validateStep s 1).1.errors Field.email ≠ "") ∧
      ((onlyDigits (s.value Field.pincode)).length ≠ 6 →
        (validateStep s 1).1.errors Field.pincode ≠ "") ∧
      ((onlyDigits (s.value Field.mobile)).length ≠ 10 →
        (validateStep s 1).1.errors Field.mobile ≠ "") ∧
      (¬((onlyDigits (s.value Field.nid)).length = 12 ∨
          ((onlyDigits (s.value Field.nid)).length ≥ 8 ∧
            (onlyDigits (s.value Field.nid)).length ≤ 16)) →
        (validateStep s 1).1.errors Field.nid ≠ "")) ∧
    (∀ n ∈ requiredFiles, s.files n = [] → (validateStep s 2).1.errors n ≠ "") ∧
    ((getRadioValue s Field.payMethod = "" →
        (validateStep s 3).1.errors Field.payMethod ≠ "") ∧
      (getRadioValue s Field.payMethod ≠ "" →
        (s.confirmChecked = false → (validateStep s 3).1.errors Field.confirm ≠ "") ∧
        (getRadioValue s Field.payMethod = "UPI" →
          (trim (s.value Field.upiId) = "" ∨ isUpiValid (s.value Field.upiId) = false) →
            (validateStep s 3).1.errors Field.upiId ≠ "") ∧
        (getRadioValue s Field.payMethod ≠ "UPI" →
          (∀ n ∈ requiredCard, trim (s.value n) = "" →
            (validateStep s 3).1.errors n ≠ "") ∧
          (hasNonLetterSpace (s.value Field.cardName) = true →
            (validateStep s 3).1.errors Field.cardName ≠ "") ∧
          ((onlyDigits (s.value Field.cardNumber)).length ≠ 16 →
            (validateStep s 3).1.errors Field.cardNumber ≠ "") ∧
          ((onlyDigits (s.value Field.cvv)).length ≠ 3 →
            (validateStep s 3).1.errors Field.cvv ≠ "")))) := by
  refine ⟨fun e n => validateStep_forgets_errors s e n, tight_validateStep1 s,
    tight_validateStep2 s, ?_, ?_, validateStep1_covers s, validateStep2_covers s,
    validateStep3_covers s⟩
  · have h := tightPaid_validateStep3 s
    unfold TightPaid at h
    rw [(sameButReport_validateStep s 3).paymentState] at h
    exact h
  · intro hp hm
    unfold validateStep
    simp only [OfNat.ofNat_ne_one, if_false, if_true, show (3 : Nat) ≠ 2 by decide]
    unfold checkStep3
    dsimp only
    have hm2 : getRadioValue (clearAllErrors s) Field.payMethod ≠ "" := hm
    rw [if_neg hm2]
    have hflag : ∀ (c : Prop) [Decidable c] (name : Field) (msg : String) (a : State × Bool),
        (flag c name msg a).1.payResult = a.1.payResult := by
      intro c _ name msg a
      unfold flag
      split <;> rfl
    rw [hflag]
    unfold checkPaid
    have hp2 : ∀ a : State × Bool, SameButReport (clearAllErrors s) a.1 →
        a.1.paymentState ≠ PaymentState.PAID := by
      intro a ha
      rw [ha.paymentState]
      exact hp
    split
    · rw [if_pos (hp2 _ (sameButReport_checkUpi _))]
    · rw [if_pos (hp2 _ (sameButReport_checkCard _))]

/-! ## Navigation -/

theorem goToStep_locked (s : State) (n : Nat) (h : s.isSubmitted = true) :
    goToStep s n = s := by
  unfold goToStep
  rw [if_pos h]

theorem goToStep_currentStep (s : State) (n : Nat) (h : s.isSubmitted = false) :
    (goToStep s n).currentStep = n := by
  unfold goToStep
  rw [if_neg (by simp [h])]
  dsimp only
  split <;> rfl

theorem goToStep_pageHidden (s : State) (n : Nat) (h : s.isSubmitted = false) (idx : Fin 4) :
    (goToStep s n).pageHidden idx = decide (idx.val + 1 ≠ n) := by
  unfold goToStep
  rw [if_neg (by simp [h])]
  dsimp only
  split <;> rfl

theorem goToStep_steps (s : State) (n : Nat) :
    (goToStep s n).stepButtons.map StepButton.step = s.stepButtons.map StepButton.step := by
  unfold goToStep
  split
  · rfl
  · dsimp only
    split <;> simp [buildReview, Function.comp_def]

theorem stepInv_of (s : State) (n : Nat) (h1 : 1 ≤ n) (h4 : n ≤ 4)
    (hc : s.currentStep = n) (hp : ∀ idx : Fin 4, s.pageHidden idx = decide (idx.val + 1 ≠ n)) :
    StepInv s := by
  refine ⟨by omega, ⟨⟨n - 1, by omega⟩, ?_, ?_⟩⟩
  · simp only [hp]
    simp only [ne_eq, decide_not, Bool.not_eq_false', decide_eq_true_eq]
    omega
  · intro idx hidx
    rw [hp] at hidx
    simp only [ne_eq, decide_not, Bool.not_eq_false', decide_eq_true_eq] at hidx
    apply Fin.ext
    simp only
    omega

theorem stepInv_goToStep (s : State) (n : Nat) (h1 : 1 ≤ n) (h4 : n ≤ 4) (h : StepInv s) :
    StepInv (goToStep s n) := by
  cases hs : s.isSubmitted
  · exact stepInv_of _ n h1 h4 (goToStep_currentStep s n hs) (goToStep_pageHidden s n hs)
  · rw [goToStep_locked s n hs]
    exact h

theorem SameNav.stepInv {s t : State} (h : SameNav s t) (hs : StepInv s) : StepInv t := by
  unfold StepInv at *
  rw [h.1, h.2.1]
  exact hs

theorem SameNav.stepperInRange {s t : State} (h : SameNav s t) (hs : StepperInRange s) :
    StepperInRange t := by
  intro b hb
  have hmem : b.step ∈ t.stepButtons.map StepButton.step := List.mem_map_of_mem _ hb
  rw [h.2.2] at hmem
  obtain ⟨b2, hb2, he⟩ := List.mem_map.mp hmem
  rw [← he]
  exact hs b2 hb2

theorem SameNav.andThenNav {s t u : State} (h1 : SameNav s t) (h2 : SameNav t u) : SameNav s u :=
  ⟨h2.1.trans h1.1, h2.2.1.trans h1.2.1, h2.2.2.trans h1.2.2⟩

theorem SameButReport.sameNav {s t : State} (h : SameButReport s t) : SameNav s t :=
  ⟨h.currentStep, h.pageHidden, by rw [h.stepButtons]⟩

theorem sameNav_alert (s : State) (msg : String) : SameNav s (alert s msg) :=
  ⟨rfl, rfl, rfl⟩

theorem sameNav_setPayUI (s : State) (state : PaymentState) (message cssClass : String) :
    SameNav s (setPayUI s state message cssClass) := by
  unfold setPayUI
  cases state <;> exact ⟨rfl, rfl, rfl⟩

theorem sameNav_keepLettersSpaces (s : State) (el name : Field) :
    SameNav s (keepLettersSpaces s el name) := by
  unfold keepLettersSpaces
  dsimp only
  split <;> exact ⟨rfl, rfl, rfl⟩

theorem sameNav_keepDigits (s : State) (el name : Field) (maxLen : Nat) :
    SameNav s (keepDigits s el name maxLen) := by
  unfold keepDigits
  dsimp only
  split <;> exact ⟨rfl, rfl, rfl⟩

theorem sameNav_foldl {α : Type} (f : State → α → State) (hf : ∀ s x, SameNav s (f s x))
    (l : List α) (s : State) : SameNav s (l.foldl f s) := by
  induction l generalizing s with
  | nil => exact ⟨rfl, rfl, rfl⟩
  | cons x xs ih => exact (hf s x).andThenNav (ih (f s x))

theorem sameNav_onInput (s : State) (el : Field) : SameNav s (onInput s el) := by
  unfold onInput
  dsimp only
  refine SameNav.andThenNav (sameNav_foldl _ ?_ _ _) (sameNav_foldl _ ?_ _ _)
  · intro s x
    split
    · exact sameNav_keepLettersSpaces _ _ _
    · exact ⟨rfl, rfl, rfl⟩
  · intro s x
    split
    · exact sameNav_keepDigits _ _ _ _
    · exact ⟨rfl, rfl, rfl⟩

theorem sameNav_onPayMethodChange (s : State) : SameNav s (onPayMethodChange s) := by
  unfold onPayMethodChange setError clearAllErrors SameNav
  dsimp only
  exact ⟨rfl, rfl, rfl⟩

/-! ## Lock and payment: what the other handlers leave alone -/

theorem SamePayment.samePay (s : State) : SamePayment s s := ⟨Eq.refl _, Eq.refl _, Eq.refl _, Eq.refl _, Eq.refl _⟩

theorem SamePayment.andThenPay {s t u : State} (h1 : SamePayment s t) (h2 : SamePayment t u) :
    SamePayment s u :=
  ⟨h2.1.trans h1.1, h2.2.1.trans h1.2.1, h2.2.2.1.trans h1.2.2.1,
    h2.2.2.2.1.trans h1.2.2.2.1, h2.2.2.2.2.trans h1.2.2.2.2⟩

theorem SameButReport.samePayment {s t : State} (h : SameButReport s t) : SamePayment s t :=
  ⟨h.isSubmitted, h.paymentState, h.pendingTxn, h.disabled, h.timers⟩

theorem samePayment_alert (s : State) (msg : String) : SamePayment s (alert s msg) :=
  SamePayment.samePay s

theorem samePayment_goToStep (s : State) (n : Nat) : SamePayment s (goToStep s n) := by
  unfold goToStep
  split
  · exact SamePayment.samePay s
  · dsimp only
    split <;> exact SamePayment.samePay s

theorem samePayment_keepLettersSpaces (s : State) (el name : Field) :
    SamePayment s (keepLettersSpaces s el name) := by
  unfold keepLettersSpaces
  dsimp only
  split <;> exact SamePayment.samePay s

theorem samePayment_keepDigits (s : State) (el name : Field) (maxLen : Nat) :
    SamePayment s (keepDigits s el name maxLen) := by
  unfold keepDigits
  dsimp only
  split <;> exact SamePayment.samePay s

theorem samePayment_foldl {α : Type} (f : State → α → State)
    (hf : ∀ s x, SamePayment s (f s x)) (l : List α) (s : State) :
    SamePayment s (l.foldl f s) := by
  induction l generalizing s with
  | nil => exact SamePayment.samePay s
  | cons x xs ih => exact (hf s x).andThenPay (ih (f s x))

theorem samePayment_onInput (s : State) (el : Field) : SamePayment s (onInput s el) := by
  unfold onInput
  dsimp only
  refine SamePayment.andThenPay (samePayment_foldl _ ?_ _ _) (samePayment_foldl _ ?_ _ _)
  · intro s x
    split
    · exact samePayment_keepLettersSpaces _ _ _
    · exact SamePayment.samePay s
  · intro s x
    split
    · exact samePayment_keepDigits _ _ _ _
    · exact SamePayment.samePay s

theorem samePayment_onPayMethodChange (s : State) : SamePayment s (onPayMethodChange s) := by
  unfold onPayMethodChange setError clearAllErrors
  dsimp only
  exact SamePayment.samePay s

theorem samePayment_onStepButtonClick (s : State) (target : Nat) :
    SamePayment s (onStepButtonClick s target) := by
  unfold onStepButtonClick
  have hv := (sameButReport_validateStep s s.currentStep).samePayment
  split
  · dsimp only
    split
    · exact hv.andThenPay (samePayment_alert _ _)
    · exact hv.andThenPay (samePayment_goToStep _ _)
  · exact samePayment_goToStep _ _

theorem samePayment_onNextClick (s : State) (next : Nat) :
    SamePayment s (onNextClick s next) := by
  unfold onNextClick
  have hv := (sameButReport_validateStep s s.currentStep).samePayment
  dsimp only
  split
  · exact hv.andThenPay (samePayment_alert _ _)
  · exact hv.andThenPay (samePayment_goToStep _ _)

theorem samePayment_onNoClick (s : State) : SamePayment s (onNoClick s) := by
  unfold onNoClick
  split <;> exact SamePayment.samePay s

theorem samePayment_validateBeforePayment (s : State) :
    SamePayment s (validateBeforePayment s).1 := by
  unfold validateBeforePayment
  have h1 := (sameButReport_validateStep s 1).samePayment
  have h2 := (sameButReport_validateStep (validateStep s 1).1 2).samePayment
  dsimp only
  generalize hq : (if (validateStep s 1).2 = false then validateStep s 1
        else validateStep (validateStep s 1).1 2) = q
  have hr : SamePayment s q.1 := by
    rw [← hq]
    split
    · exact h1
    · exact h1.andThenPay h2
  by_cases hok : q.2 = false
  · rw [if_pos hok]
    have h3 := samePayment_alert q.1
      "Please complete Step 1 and Step 2 correctly before making payment."
    have h4 := samePayment_goToStep
      (alert q.1 "Please complete Step 1 and Step 2 correctly before making payment.") 1
    exact hr.andThenPay (h3.andThenPay h4)
  · rw [if_neg hok]
    exact hr

theorem SamePayment.payInv {s t : State} (h : SamePayment s t) (hs : PayInv s) : PayInv t := by
  unfold PayInv at *
  rw [h.1, h.2.1, h.2.2.1, h.2.2.2.1, h.2.2.2.2]
  exact hs

/-! ## The payment panel -/

theorem setPayUI_paymentState (s : State) (st : PaymentState) (m c : String) :
    (setPayUI s st m c).paymentState = st := by
  unfold setPayUI
  cases st <;> rfl

theorem setPayUI_pendingTxn (s : State) (st : PaymentState) (m c : String) :
    (setPayUI s st m c).pendingTxn = s.pendingTxn := by
  unfold setPayUI
  cases st <;> rfl

theorem setPayUI_isSubmitted (s : State) (st : PaymentState) (m c : String) :
    (setPayUI s st m c).isSubmitted = s.isSubmitted := by
  unfold setPayUI
  cases st <;> rfl

theorem setPayUI_timers (s : State) (st : PaymentState) (m c : String) :
    (setPayUI s st m c).timers = s.timers := by
  unfold setPayUI
  cases st <;> rfl

theorem setPayUI_payResult (s : State) (st : PaymentState) (m c : String) :
    (setPayUI s st m c).payResult = m := by
  unfold setPayUI
  cases st <;> rfl

theorem setPayUI_confirm (s : State) (st : PaymentState) (m c : String) :
    (setPayUI s st m c).disabled (Control.field Field.confirm) =
      decide (st ≠ PaymentState.PAID) := by
  unfold setPayUI
  cases st <;> simp [toStep4Btn, Function.update]

theorem setPayUI_toStep4Btn (s : State) (st : PaymentState) (m c : String) :
    (setPayUI s st m c).disabled toStep4Btn = decide (st ≠ PaymentState.PAID) := by
  unfold setPayUI
  cases st <;> simp [toStep4Btn, Function.update]

theorem setPayUI_payNowBtn (s : State) (st : PaymentState) (m c : String) :
    (setPayUI s st m c).disabled Control.payNowBtn = decide (st ≠ PaymentState.UNPAID) := by
  unfold setPayUI
  cases st <;> simp [toStep4Btn, Function.update]

theorem setPayUI_verifyPayBtn (s : State) (st : PaymentState) (m c : String) :
    (setPayUI s st m c).disabled Control.verifyPayBtn =
      decide (st ≠ PaymentState.PENDING) := by
  unfold setPayUI
  cases st <;> simp [toStep4Btn, Function.update]

theorem payInv_setPayUI (s : State) (st : PaymentState) (m c : String)
    (hsub : s.isSubmitted = true → st = PaymentState.PAID)
    (hun : st = PaymentState.UNPAID → s.pendingTxn = none ∧ s.timers = 0)
    (hsome : st ≠ PaymentState.UNPAID → ∃ t, s.pendingTxn = some t) :
    PayInv (setPayUI s st m c) := by
  unfold PayInv
  rw [setPayUI_paymentState, setPayUI_pendingTxn, setPayUI_isSubmitted, setPayUI_timers,
    setPayUI_confirm, setPayUI_toStep4Btn]
  refine ⟨?_, hsub, hun, hsome⟩
  intro h
  simp [h]

theorem payInv_load (html : State) : PayInv (load html) := by
  unfold load
  dsimp only
  apply payInv_setPayUI
  · intro h
    rw [(samePayment_goToStep _ 1).1] at h
    exact Bool.noConfusion h
  · intro _
    rw [(samePayment_goToStep _ 1).2.2.1, (samePayment_goToStep _ 1).2.2.2.2]
    exact ⟨rfl, rfl⟩
  · intro h
    exact absurd rfl h

/-! ## The Yes action -/

theorem onYesClick_locked (s : State) (h : s.isSubmitted = true) : onYesClick s = s := by
  unfold onYesClick
  rw [if_pos h]

theorem onYesClick_fail (s : State) (h : s.isSubmitted = false)
    (hv : (validateAll s).2 = false) :
    onYesClick s = goToStep (alert (validateAll s).1
      "Some required details are missing or invalid. Please edit and try again.") 1 := by
  unfold onYesClick
  rw [if_neg (by simp [h])]
  dsimp only
  rw [if_pos hv]

theorem onYesClick_pass (s : State) (h : s.isSubmitted = false)
    (hv : (validateAll s).2 = true) : onYesClick s = confirmSubmission (validateAll s).1 := by
  unfold onYesClick
  rw [if_neg (by simp [h])]
  dsimp only
  rw [if_neg (by simp [hv])]

theorem confirmSubmission_isSubmitted (s : State) :
    (confirmSubmission s).isSubmitted = true := rfl

theorem confirmSubmission_disabled (s : State) (c : Control) :
    (confirmSubmission s).disabled c = true := rfl

theorem confirmSubmission_pageHidden (s : State) (idx : Fin 4) :
    (confirmSubmission s).pageHidden idx = decide (idx.val ≠ 3) := rfl

theorem confirmSubmission_currentStep (s : State) :
    (confirmSubmission s).currentStep = s.currentStep := rfl

theorem confirmSubmission_paymentState (s : State) :
    (confirmSubmission s).paymentState = s.paymentState := rfl

theorem confirmSubmission_pendingTxn (s : State) :
    (confirmSubmission s).pendingTxn = s.pendingTxn := rfl

theorem confirmSubmission_timers (s : State) : (confirmSubmission s).timers = s.timers := rfl

theorem confirmSubmission_stepButtons (s : State) :
    ∀ b ∈ (confirmSubmission s).stepButtons, b.disabled = true := by
  intro b hb
  unfold confirmSubmission lockForm alert at hb
  dsimp only at hb
  obtain ⟨b0, _, rfl⟩ := List.mem_map.mp hb
  rfl

theorem confirmSubmission_steps (s : State) :
    (confirmSubmission s).stepButtons.map StepButton.step =
      s.stepButtons.map StepButton.step := by
  unfold confirmSubmission lockForm alert
  dsimp only
  simp [Function.comp_def]

theorem payInv_onYesClick (s : State) (h : PayInv s) : PayInv (onYesClick s) := by
  cases hs : s.isSubmitted
  · cases hv : (validateAll s).2
    · rw [onYesClick_fail s hs hv]
      exact ((sameButReport_validateAll s).samePayment.andThenPay
        ((samePayment_alert _ _).andThenPay (samePayment_goToStep _ _))).payInv h
    · rw [onYesClick_pass s hs hv]
      have hpaid : s.paymentState = PaymentState.PAID :=
        ((validateStep3_snd s).mp ((validateAll_snd s).mp hv).2.2).2.1
      have hp2 : (validateAll s).1.paymentState = PaymentState.PAID := by
        rw [(sameButReport_validateAll s).paymentState]
        exact hpaid
      unfold PayInv
      rw [confirmSubmission_paymentState, confirmSubmission_pendingTxn,
        confirmSubmission_timers, hp2, (sameButReport_validateAll s).pendingTxn]
      refine ⟨fun h0 => absurd rfl h0, fun _ => rfl, fun h0 => PaymentState.noConfusion h0, ?_⟩
      intro _
      exact h.2.2.2 (by rw [hpaid]; decide)
  · rw [onYesClick_locked s hs]
    exact h

/-! ## Generate, verify and the deferred callback -/

theorem onPayNowClick_not_unpaid (s : State) (env : TxnEnv)
    (h : s.paymentState ≠ PaymentState.UNPAID) : onPayNowClick s env = s := by
  unfold onPayNowClick
  rw [if_pos h]

theorem onVerifyClick_not_pending (s : State) (h : s.paymentState ≠ PaymentState.PENDING) :
    onVerifyClick s = s := by
  unfold onVerifyClick
  rw [if_pos h]

theorem sameButReport_checkUpiGov (a : State × Bool) :
    SameButReport a.1 (checkUpiGov a).1 := by
  unfold checkUpiGov
  dsimp only
  split
  · exact sameButReport_setError _ _ _
  · split <;> exact sameButReport_setError _ _ _

theorem sameButReport_checkCardGov (a : State × Bool) :
    SameButReport a.1 (checkCardGov a).1 := by
  unfold checkCardGov
  dsimp only
  exact (sameButReport_flag _ _ _ _).andThen <| (sameButReport_flag _ _ _ _).andThen <|
    (sameButReport_flag _ _ _ _).andThen <| (sameButReport_flag _ _ _ _).andThen <|
    (sameButReport_flag _ _ _ _).andThen <| (sameButReport_flag _ _ _ _).andThen
      (sameButReport_flag _ _ _ _)

theorem sameButReport_validatePaymentInputsGovStyle (s : State) :
    SameButReport s (validatePaymentInputsGovStyle s).1 := by
  unfold validatePaymentInputsGovStyle
  dsimp only
  split
  · exact sameButReport_setError _ _ _
  · split
    · exact sameButReport_checkUpiGov (s, true)
    · exact sameButReport_checkCardGov (s, true)

theorem checkUpiGov_snd (a : State × Bool) :
    (checkUpiGov a).2 = true ↔
      a.2 = true ∧ trim (a.1.value Field.upiId) ≠ "" ∧
        isUpiValid (a.1.value Field.upiId) = true := by
  unfold checkUpiGov
  dsimp only
  rw [isUpiValid_trim]
  split
  · simp_all
  · split <;> simp_all

theorem checkCardGov_snd (a : State × Bool) :
    (checkCardGov a).2 = true ↔
      a.2 = true ∧ (∀ n ∈ requiredCard, trim (a.1.value n) ≠ "") ∧
        hasNonLetterSpace (a.1.value Field.cardName) = false ∧
        (onlyDigits (a.1.value Field.cardNumber)).length = 16 ∧
        (onlyDigits (a.1.value Field.cvv)).length = 3 := by
  unfold checkCardGov
  dsimp only
  rw [flag_snd, flag_snd, flag_snd, flag_snd, flag_snd, flag_snd, flag_snd]
  simp only [(sameButReport_flag _ _ _ _).value, hasNonLetterSpace_trim, requiredCard,
    List.mem_cons, List.mem_singleton, forall_eq_or_imp, forall_eq, List.not_mem_nil,
    false_imp_iff, implies_true, and_true]
  constructor
  · rintro ⟨⟨⟨⟨⟨⟨⟨h0, h1⟩, h2⟩, h3⟩, h4⟩, h5⟩, h6⟩, h7⟩
    refine ⟨h0, ⟨h1, h2, h3, h4⟩, ?_, by simpa using h5, by simpa using h6⟩
    cases hh : hasNonLetterSpace (a.1.value Field.cardName)
    · rfl
    · exact absurd ⟨ne_empty_of_trim_ne h1, hh⟩ h7
  · rintro ⟨h0, ⟨h1, h2, h3, h4⟩, h5, h6, h7⟩
    refine ⟨⟨⟨⟨⟨⟨⟨h0, h1⟩, h2⟩, h3⟩, h4⟩, by simp [h6]⟩, by simp [h7]⟩, ?_⟩
    simp [h5]

/-- The verdict of `validatePaymentInputsGovStyle()` in terms of the values. -/
theorem validatePaymentInputsGovStyle_snd (s : State) :
    (validatePaymentInputsGovStyle s).2 = true ↔ methodInputsOk s := by
  unfold validatePaymentInputsGovStyle methodInputsOk
  dsimp only
  split
  · rename_i hm
    simp [hm]
  · rename_i hm
    split
    · rename_i hu
      rw [checkUpiGov_snd]
      simp [hm, hu]
    · rename_i hu
      rw [checkCardGov_snd, hasNonLetterSpace_eq_false_iff]
      simp [hm, hu]

theorem methodInputsOk_congr {s t : State} (h : SameButReport s t) :
    methodInputsOk t ↔ methodInputsOk s := by
  unfold methodInputsOk getRadioValue
  rw [h.value, h.radio]

theorem validateBeforePayment_snd (s : State) :
    (validateBeforePayment s).2 = true ↔
      (validateStep s 1).2 = true ∧ (validateStep s 2).2 = true := by
  unfold validateBeforePayment
  dsimp only
  have e2 := validateStep_snd_congr (sameButReport_validateStep s 1) 2
  generalize hq : (if (validateStep s 1).2 = false then validateStep s 1
        else validateStep (validateStep s 1).1 2) = q
  have hq2 : q.2 = true ↔ (validateStep s 1).2 = true ∧ (validateStep s 2).2 = true := by
    rw [← hq]
    split
    · rename_i h1
      simp [h1]
    · rename_i h1
      rw [e2]
      simp at h1
      simp [h1]
  by_cases hok : q.2 = false
  · rw [if_pos hok]
    rw [← hq2]
    simp [hok]
  · rw [if_neg hok]
    rw [← hq2]
    simp at hok
    simp [hok]

theorem validateBeforePayment_fail (s : State) (hs : s.isSubmitted = false)
    (h : (validateBeforePayment s).2 = false) : (validateBeforePayment s).1.currentStep = 1 := by
  unfold validateBeforePayment at h ⊢
  dsimp only at h ⊢
  have h1 := (sameButReport_validateStep s 1)
  have h2 := (sameButReport_validateStep (validateStep s 1).1 2)
  generalize hq : (if (validateStep s 1).2 = false then validateStep s 1
        else validateStep (validateStep s 1).1 2) = q at h ⊢
  have hr : SameButReport s q.1 := by
    rw [← hq]
    split
    · exact h1
    · exact h1.andThen h2
  by_cases hok : q.2 = false
  · rw [if_pos hok]
    apply goToStep_currentStep
    show q.1.isSubmitted = false
    rw [hr.isSubmitted]
    exact hs
  · rw [if_neg hok] at h
    exact Bool.noConfusion h

theorem validateBeforePayment_pass (s : State) (h : (validateBeforePayment s).2 = true) :
    SameButReport s (validateBeforePayment s).1 := by
  unfold validateBeforePayment at h ⊢
  dsimp only at h ⊢
  have h1 := (sameButReport_validateStep s 1)
  have h2 := (sameButReport_validateStep (validateStep s 1).1 2)
  generalize hq : (if (validateStep s 1).2 = false then validateStep s 1
        else validateStep (validateStep s 1).1 2) = q at h ⊢
  have hr : SameButReport s q.1 := by
    rw [← hq]
    split
    · exact h1
    · exact h1.andThen h2
  by_cases hok : q.2 = false
  · rw [if_pos hok] at h
    exact Bool.noConfusion h
  · rw [if_neg hok]
    exact hr

theorem onPayNowClick_blocked (s : State) (env : TxnEnv)
    (hu : s.paymentState = PaymentState.UNPAID)
    (h : (validateBeforePayment s).2 = false) :
    onPayNowClick s env = (validateBeforePayment s).1 := by
  unfold onPayNowClick
  rw [if_neg (by simp [hu])]
  dsimp only
  rw [if_pos h]

theorem onPayNowClick_rejected (s : State) (env : TxnEnv)
    (hu : s.paymentState = PaymentState.UNPAID)
    (h1 : (validateBeforePayment s).2 = true)
    (h2 : (validatePaymentInputsGovStyle (validateBeforePayment s).1).2 = false) :
    onPayNowClick s env =
      alert (validatePaymentInputsGovStyle (validateBeforePayment s).1).1
        "Please correct payment details and try again." := by
  unfold onPayNowClick
  rw [if_neg (by simp [hu])]
  dsimp only
  rw [if_neg (by simp [h1]), if_pos h2]

theorem onPayNowClick_accepted (s : State) (env : TxnEnv)
    (hu : s.paymentState = PaymentState.UNPAID)
    (h1 : (validateBeforePayment s).2 = true)
    (h2 : (validatePaymentInputsGovStyle (validateBeforePayment s).1).2 = true) :
    ∃ msg, onPayNowClick s env =
      setPayUI { (validatePaymentInputsGovStyle (validateBeforePayment s).1).1 with
                  pendingTxn := some (genTxnId env) }
        PaymentState.PENDING msg "pending" := by
  unfold onPayNowClick
  rw [if_neg (by simp [hu])]
  dsimp only
  rw [if_neg (by simp [h1]), if_neg (by simp [h2])]
  exact ⟨_, rfl⟩

/-- The verdict of the payment-input check run by the generate listener is
the one it has on the state the listener started from. -/
theorem paymentInputs_after_before (s : State) (h1 : (validateBeforePayment s).2 = true) :
    (validatePaymentInputsGovStyle (validateBeforePayment s).1).2 =
      (validatePaymentInputsGovStyle s).2 := by
  rw [Bool.eq_iff_iff, validatePaymentInputsGovStyle_snd, validatePaymentInputsGovStyle_snd]
  exact methodInputsOk_congr (validateBeforePayment_pass s h1)

theorem payInv_onPayNowClick (s : State) (env : TxnEnv) (h : PayInv s) :
    PayInv (onPayNowClick s env) := by
  by_cases hu : s.paymentState = PaymentState.UNPAID
  · cases h1 : (validateBeforePayment s).2
    · rw [onPayNowClick_blocked s env hu h1]
      exact (samePayment_validateBeforePayment s).payInv h
    · have hb := (validateBeforePayment_pass s h1).samePayment
      have hp := (sameButReport_validatePaymentInputsGovStyle
        (validateBeforePayment s).1).samePayment
      cases h2 : (validatePaymentInputsGovStyle (validateBeforePayment s).1).2
      · rw [onPayNowClick_rejected s env hu h1 h2]
        exact (hb.andThenPay (hp.andThenPay (samePayment_alert _ _))).payInv h
      · obtain ⟨msg, hm⟩ := onPayNowClick_accepted s env hu h1 h2
        rw [hm]
        apply payInv_setPayUI
        · intro hsub
          dsimp only at hsub
          rw [(hb.andThenPay hp).1] at hsub
          have := h.2.1 hsub
          rw [hu] at this
          exact PaymentState.noConfusion this
        · intro h0
          exact PaymentState.noConfusion h0
        · intro _
          exact ⟨_, rfl⟩
  · rw [onPayNowClick_not_unpaid s env hu]
    exact h

theorem payInv_onVerifyClick (s : State) (h : PayInv s) : PayInv (onVerifyClick s) := by
  by_cases hp : s.paymentState = PaymentState.PENDING
  · unfold onVerifyClick
    rw [if_neg (by simp [hp])]
    dsimp only
    have hinv := payInv_setPayUI s PaymentState.PENDING
      "Verifying payment... please wait (Demo)." "processing"
      (fun hs => by have := h.2.1 hs; rw [hp] at this; exact PaymentState.noConfusion this)
      (fun h0 => PaymentState.noConfusion h0)
      (fun _ => h.2.2.2 (by rw [hp]; decide))
    unfold PayInv at hinv ⊢
    simp only [setPayUI_paymentState] at hinv ⊢
    refine ⟨hinv.1, hinv.2.1, fun h0 => PaymentState.noConfusion h0, hinv.2.2.2⟩
  · rw [onVerifyClick_not_pending s hp]
    exact h

theorem payInv_onVerifyTimeout (s : State) (h : ∃ t, s.pendingTxn = some t) :
    PayInv (onVerifyTimeout s) := by
  unfold onVerifyTimeout
  dsimp only
  apply payInv_setPayUI
  · intro _
    rfl
  · intro h0
    exact PaymentState.noConfusion h0
  · intro _
    exact h

/-! ## Invariants of the reachable states -/

theorem payInv_fire (s : State) (e : Event) (h : PayInv s) : PayInv (fire s e) := by
  cases e with
  | input el v =>
    simp only [fire]
    split
    · exact h
    · exact (samePayment_onInput { s with value := Function.update s.value el v } el).payInv h
  | check group v =>
    simp only [fire]
    split
    · exact h
    · split
      · exact (samePayment_onPayMethodChange
          { s with radio := Function.update s.radio group v }).payInv h
      · exact h
  | choose el names =>
    simp only [fire]
    split <;> exact h
  | toggleConfirm =>
    simp only [fire]
    split <;> exact h
  | stepClick i =>
    simp only [fire]
    split
    · split
      · exact h
      · exact (samePayment_onStepButtonClick s _).payInv h
    · exact h
  | prevClick prev =>
    simp only [fire]
    split
    · exact h
    · exact (samePayment_goToStep s prev).payInv h
  | nextClick next =>
    simp only [fire]
    split
    · exact h
    · exact (samePayment_onNextClick s next).payInv h
  | goEditClick goto =>
    simp only [fire]
    split
    · exact h
    · exact (samePayment_goToStep s goto).payInv h
  | yesClick =>
    simp only [fire]
    split
    · exact h
    · exact payInv_onYesClick s h
  | noClick =>
    simp only [fire]
    split
    · exact h
    · exact (samePayment_onNoClick s).payInv h
  | payNowClick env =>
    simp only [fire]
    split
    · exact h
    · exact payInv_onPayNowClick s env h
  | verifyClick =>
    simp only [fire]
    split
    · exact h
    · exact payInv_onVerifyClick s h
  | timeout =>
    simp only [fire]
    split
    · exact h
    · rename_i ht
      apply payInv_onVerifyTimeout
      apply h.2.2.2
      intro hu
      exact ht (h.2.2.1 hu).2

/-- In every reachable state: while the payment is not PAID the confirm
checkbox and the step-4 Next button are disabled; a locked form is PAID; an
UNPAID form has no transaction id and no queued callback; a form that is not
UNPAID has a transaction id. -/
theorem payInv_of_reachable {s : State} (h : Reachable s) : PayInv s := by
  induction h with
  | load html => exact payInv_load html
  | fire e _ ih => exact payInv_fire _ e ih

theorem reachable_run {s : State} (h : Reachable s) (evs : List Event) :
    Reachable (run s evs) := by
  induction evs generalizing s with
  | nil => exact h
  | cons e es ih => exact ih (Reachable.fire e h)

theorem SameNav.navOk {s t : State} (h : SameNav s t) (hs : NavOk s) : NavOk t :=
  ⟨h.stepInv hs.1, h.stepperInRange hs.2⟩

theorem navOk_goToStep (s : State) (n : Nat) (h1 : 1 ≤ n) (h4 : n ≤ 4) (h : NavOk s) :
    NavOk (goToStep s n) := by
  refine ⟨stepInv_goToStep s n h1 h4 h.1, ?_⟩
  intro b hb
  have hmem : b.step ∈ (goToStep s n).stepButtons.map StepButton.step :=
    List.mem_map_of_mem _ hb
  rw [goToStep_steps] at hmem
  obtain ⟨b2, hb2, he⟩ := List.mem_map.mp hmem
  rw [← he]
  exact h.2 b2 hb2

theorem navOk_confirmSubmission (s : State) (h : NavOk s) : NavOk (confirmSubmission s) := by
  refine ⟨⟨h.1.1, ⟨⟨3, by decide⟩, ?_, ?_⟩⟩, ?_⟩
  · simp only [confirmSubmission_pageHidden]
    decide
  · intro idx hidx
    simp only [confirmSubmission_pageHidden, ne_eq, decide_not, Bool.not_eq_false',
      decide_eq_true_eq] at hidx
    exact Fin.ext hidx
  · intro b hb
    have hmem : b.step ∈ (confirmSubmission s).stepButtons.map StepButton.step :=
      List.mem_map_of_mem _ hb
    rw [confirmSubmission_steps] at hmem
    obtain ⟨b2, hb2, he⟩ := List.mem_map.mp hmem
    rw [← he]
    exact h.2 b2 hb2

theorem sameNav_setTxn (s : State) (t : Option String) :
    SameNav s { s with pendingTxn := t } := ⟨rfl, rfl, rfl⟩

theorem sameNav_setTimers (s : State) (n : Nat) : SameNav s { s with timers := n } :=
  ⟨rfl, rfl, rfl⟩

theorem navOk_onStepButtonClick (s : State) (target : Nat) (h1 : 1 ≤ target) (h4 : target ≤ 4)
    (h : NavOk s) : NavOk (onStepButtonClick s target) := by
  unfold onStepButtonClick
  have hv := (sameButReport_validateStep s s.currentStep).sameNav.navOk h
  split
  · dsimp only
    split
    · exact (sameNav_alert _ _).navOk hv
    · exact navOk_goToStep _ _ h1 h4 hv
  · exact navOk_goToStep _ _ h1 h4 h

theorem navOk_onNextClick (s : State) (next : Nat) (h1 : 1 ≤ next) (h4 : next ≤ 4)
    (h : NavOk s) : NavOk (onNextClick s next) := by
  unfold onNextClick
  have hv := (sameButReport_validateStep s s.currentStep).sameNav.navOk h
  dsimp only
  split
  · exact (sameNav_alert _ _).navOk hv
  · exact navOk_goToStep _ _ h1 h4 hv

theorem navOk_onYesClick (s : State) (h : NavOk s) : NavOk (onYesClick s) := by
  have hv := (sameButReport_validateAll s).sameNav.navOk h
  cases hs : s.isSubmitted
  · cases hok : (validateAll s).2
    · rw [onYesClick_fail s hs hok]
      exact navOk_goToStep _ 1 (by decide) (by decide) ((sameNav_alert _ _).navOk hv)
    · rw [onYesClick_pass s hs hok]
      exact navOk_confirmSubmission _ hv
  · rw [onYesClick_locked s hs]
    exact h

theorem navOk_validateBeforePayment (s : State) (h : NavOk s) :
    NavOk (validateBeforePayment s).1 := by
  unfold validateBeforePayment
  dsimp only
  have h1 := (sameButReport_validateStep s 1)
  have h2 := (sameButReport_validateStep (validateStep s 1).1 2)
  generalize hq : (if (validateStep s 1).2 = false then validateStep s 1
        else validateStep (validateStep s 1).1 2) = q
  have hr : SameButReport s q.1 := by
    rw [← hq]
    split
    · exact h1
    · exact h1.andThen h2
  have hq1 := hr.sameNav.navOk h
  by_cases hok : q.2 = false
  · rw [if_pos hok]
    have h3 := (sameNav_alert q.1
      "Please complete Step 1 and Step 2 correctly before making payment.").navOk hq1
    exact navOk_goToStep _ 1 (by decide) (by decide) h3
  · rw [if_neg hok]
    exact hq1

theorem navOk_onPayNowClick (s : State) (env : TxnEnv) (h : NavOk s) :
    NavOk (onPayNowClick s env) := by
  by_cases hu : s.paymentState = PaymentState.UNPAID
  · have hb := navOk_validateBeforePayment s h
    cases h1 : (validateBeforePayment s).2
    · rw [onPayNowClick_blocked s env hu h1]
      exact hb
    · have hp := (sameButReport_validatePaymentInputsGovStyle
        (validateBeforePayment s).1).sameNav.navOk hb
      cases h2 : (validatePaymentInputsGovStyle (validateBeforePayment s).1).2
      · rw [onPayNowClick_rejected s env hu h1 h2]
        exact (sameNav_alert _ _).navOk hp
      · obtain ⟨msg, hm⟩ := onPayNowClick_accepted s env hu h1 h2
        rw [hm]
        refine (sameNav_setPayUI _ _ _ _).navOk ?_
        exact (sameNav_setTxn _ _).navOk hp
  · rw [onPayNowClick_not_unpaid s env hu]
    exact h

theorem navOk_fire (s : State) (e : Event) (he : e.inRange) (h : NavOk s) :
    NavOk (fire s e) := by
  cases e with
  | input el v =>
    simp only [fire]
    split
    · exact h
    · exact (sameNav_onInput { s with value := Function.update s.value el v } el).navOk h
  | check group v =>
    simp only [fire]
    split
    · exact h
    · split
      · exact (sameNav_onPayMethodChange
          { s with radio := Function.update s.radio group v }).navOk h
      · exact h
  | choose el names =>
    simp only [fire]
    split <;> exact h
  | toggleConfirm =>
    simp only [fire]
    split <;> exact h
  | stepClick i =>
    simp only [fire]
    split
    · rename_i btn hbtn
      split
      · exact h
      · have hmem : btn ∈ s.stepButtons := List.get?_mem hbtn
        exact navOk_onStepButtonClick s _ (h.2 btn hmem).1 (h.2 btn hmem).2 h
    · exact h
  | prevClick prev =>
    simp only [fire]
    split
    · exact h
    · exact navOk_goToStep s prev he.1 he.2 h
  | nextClick next =>
    simp only [fire]
    split
    · exact h
    · exact navOk_onNextClick s next he.1 he.2 h
  | goEditClick goto =>
    simp only [fire]
    split
    · exact h
    · exact navOk_goToStep s goto he.1 he.2 h
  | yesClick =>
    simp only [fire]
    split
    · exact h
    · exact navOk_onYesClick s h
  | noClick =>
    simp only [fire]
    split
    · exact h
    · unfold onNoClick
      split <;> exact h
  | payNowClick env =>
    simp only [fire]
    split
    · exact h
    · exact navOk_onPayNowClick s env h
  | verifyClick =>
    simp only [fire]
    split
    · exact h
    · unfold onVerifyClick
      split
      · exact h
      · exact (sameNav_setTimers _ _).navOk ((sameNav_setPayUI s _ _ _).navOk h)
  | timeout =>
    simp only [fire]
    split
    · exact h
    · unfold onVerifyTimeout
      exact (sameNav_setPayUI _ _ _ _).navOk h

theorem navOk_load (html : State) (h : StepperInRange html) : NavOk (load html) := by
  unfold load
  dsimp only
  refine (sameNav_setPayUI _ _ _ _).navOk ?_
  refine ⟨stepInv_of _ 1 (by decide) (by decide) (goToStep_currentStep _ 1 rfl)
    (goToStep_pageHidden _ 1 rfl), ?_⟩
  intro b hb
  have hmem : b.step ∈ (goToStep _ 1).stepButtons.map StepButton.step :=
    List.mem_map_of_mem _ hb
  rw [goToStep_steps] at hmem
  obtain ⟨b2, hb2, he⟩ := List.mem_map.mp hmem
  rw [← he]
  exact h b2 hb2

theorem navOk_run (s : State) (evs : List Event) (he : ∀ e ∈ evs, e.inRange) (h : NavOk s) :
    NavOk (run s evs) := by
  induction evs generalizing s with
  | nil => exact h
  | cons e es ih =>
    exact ih (fire s e) (fun e2 h2 => he e2 (List.mem_cons_of_mem e h2))
      (navOk_fire s e (he e (List.mem_cons_self e es)) h)

/-! ## Claims about navigation, lock and payment -/

theorem alert_currentStep (s : State) (msg : String) :
    (alert s msg).currentStep = s.currentStep := rfl

theorem not_submitted_of_not_paid {s : State} (hr : Reachable s)
    (hp : s.paymentState ≠ PaymentState.PAID) : s.isSubmitted = false := by
  cases hs : s.isSubmitted
  · rfl
  · exact absurd ((payInv_of_reachable hr).2.1 hs) hp

theorem validateStep3_false_of_not_paid (s : State)
    (hp : s.paymentState ≠ PaymentState.PAID) : (validateStep s 3).2 = false := by
  cases h : (validateStep s 3).2
  · rfl
  · exact absurd ((validateStep3_snd s).mp h).2.1 hp

theorem onNextClick_currentStep (s : State) (next : Nat) (hs : s.isSubmitted = false) :
    (onNextClick s next).currentStep =
      if (validateStep s s.currentStep).2 = false then s.currentStep else next := by
  unfold onNextClick
  dsimp only
  have hv := sameButReport_validateStep s s.currentStep
  split
  · exact hv.currentStep
  · apply goToStep_currentStep
    rw [hv.isSubmitted]
    exact hs

theorem onStepButtonClick_currentStep (s : State) (target : Nat)
    (hs : s.isSubmitted = false) :
    (onStepButtonClick s target).currentStep =
      if target > s.currentStep ∧ (validateStep s s.currentStep).2 = false then s.currentStep
      else target := by
  unfold onStepButtonClick
  have hv := sameButReport_validateStep s s.currentStep
  split
  · rename_i hgt
    dsimp only
    split
    · rename_i hf
      rw [if_pos ⟨hgt, hf⟩]
      exact hv.currentStep
    · rename_i hf
      rw [if_neg (fun h => hf h.2)]
      apply goToStep_currentStep
      rw [hv.isSubmitted]
      exact hs
  · rename_i hgt
    rw [if_neg (fun h => hgt h.1)]
    exact goToStep_currentStep s target hs

/-- C2, as stated, fails: on a fresh page whose personal details have been
entered the payment is UNPAID and the step index is 1, and a click on the
fourth stepper button sets the step index to 4. -/
theorem stepper_reaches_step4_unpaid :
    Reachable (run (load blankPage) step1Inputs) ∧
    (run (load blankPage) step1Inputs).paymentState = PaymentState.UNPAID ∧
    (run (load blankPage) step1Inputs).currentStep = 1 ∧
    (fire (run (load blankPage) step1Inputs) (Event.stepClick 3)).currentStep = 4 := by
  refine ⟨reachable_run (Reachable.load blankPage) step1Inputs, ?_, ?_, ?_⟩
  · decide
  · decide
  · set_option maxRecDepth 1000000 in decide

/-- C2, amended: in every reachable state whose payment is not PAID the
confirm checkbox is disabled; no click on a Next button moves the step index
to 4; while the step index is 3 no stepper click and no Next listener moves it
to 4; from a step index below 4 a click on the stepper button of step 4 moves
to step 4 exactly when the current step validates; and an edit-chooser button
moves to the step it names. -/
theorem step4_gate_while_not_paid (s : State) (hr : Reachable s)
    (hp : s.paymentState ≠ PaymentState.PAID) :
    s.disabled (Control.field Field.confirm) = true ∧
    (∀ next, (fire s (Event.nextClick next)).currentStep = 4 → s.currentStep = 4) ∧
    (s.currentStep = 3 → ∀ target next,
      (onStepButtonClick s target).currentStep ≠ 4 ∧ (onNextClick s next).currentStep = 3) ∧
    (s.currentStep < 4 →
      ((onStepButtonClick s 4).currentStep = 4 ↔ (validateStep s s.currentStep).2 = true)) ∧
    (∀ goto, (onGoEditClick s goto).currentStep = goto) := by
  have hinv := payInv_of_reachable hr
  have hs := not_submitted_of_not_paid hr hp
  refine ⟨(hinv.1 hp).1, ?_, ?_, ?_, ?_⟩
  · intro next h4
    simp only [fire] at h4
    split at h4
    · exact h4
    · rename_i hd
      rw [onNextClick_currentStep s next hs] at h4
      split at h4
      · exact h4
      · subst h4
        exact absurd (hinv.1 hp).2 hd
  · intro h3 target next
    have hv : (validateStep s s.currentStep).2 = false := by
      rw [h3]
      exact validateStep3_false_of_not_paid s hp
    rw [onStepButtonClick_currentStep s target hs, onNextClick_currentStep s next hs]
    refine ⟨?_, ?_⟩
    · split
      · omega
      · rename_i hn
        have : ¬ target > s.currentStep := fun h => hn ⟨h, hv⟩
        omega
    · rw [if_pos hv, h3]
  · intro hlt
    rw [onStepButtonClick_currentStep s 4 hs]
    constructor
    · intro h
      split at h
      · omega
      · rename_i hn
        cases hv : (validateStep s s.currentStep).2
        · exact absurd ⟨hlt, hv⟩ hn
        · rfl
    · intro hv
      rw [if_neg (by simp [hv])]
  · intro goto
    unfold onGoEditClick
    exact goToStep_currentStep s goto hs

/-- The amended C2 at the freshly loaded page. -/
theorem step4_gate_while_not_paid_witness :
    (load blankPage).paymentState = PaymentState.UNPAID ∧
    (load blankPage).disabled (Control.field Field.confirm) = true ∧
    (fire (load blankPage) (Event.nextClick 4)).currentStep = 1 :=
  ⟨by decide,
   (step4_gate_while_not_paid (load blankPage) (Reachable.load blankPage) (by decide)).1,
   by decide⟩

/-- In a reachable locked state `goToStep`, the Yes and No actions, the
generate action and the verify action change nothing. -/
theorem locked_handlers_noop (s : State) (hr : Reachable s) (hs : s.isSubmitted = true)
    (n : Nat) (env : TxnEnv) :
    goToStep s n = s ∧ onYesClick s = s ∧ onNoClick s = s ∧ onPayNowClick s env = s ∧
      onVerifyClick s = s := by
  have hp := (payInv_of_reachable hr).2.1 hs
  refine ⟨goToStep_locked s n hs, onYesClick_locked s hs, ?_,
    onPayNowClick_not_unpaid s env (by rw [hp]; decide),
    onVerifyClick_not_pending s (by rw [hp]; decide)⟩
  unfold onNoClick
  rw [if_pos hs]

/-- C3: after a submission, a deferred verification callback that is still
queued (the verify button was clicked twice) re-enables the confirm checkbox
and the step-4 Next button of the locked form, and the checkbox can then be
unchecked. -/
theorem timeout_after_lock_enables_confirm :
    (run (load blankPage) lockTrace).isSubmitted = true ∧
    (run (load blankPage) lockTrace).paymentState = PaymentState.PAID ∧
    (run (load blankPage) lockTrace).timers = 1 ∧
    (run (load blankPage) lockTrace).disabled (Control.field Field.confirm) = true ∧
    (run (load blankPage) lockTrace).disabled toStep4Btn = true ∧
    (run (load blankPage) lockTrace).confirmChecked = true ∧
    (fire (run (load blankPage) lockTrace) Event.timeout).disabled
      (Control.field Field.confirm) = false ∧
    (fire (run (load blankPage) lockTrace) Event.timeout).disabled toStep4Btn = false ∧
    (run (load blankPage) (lockTrace ++ [Event.timeout, Event.toggleConfirm])).confirmChecked
      = false := by
  set_option maxRecDepth 1000000 in decide

/-- C4: in a locked state the Yes action changes nothing; in an unlocked state
it runs `validateAll`, whose verdict is the conjunction of the verdicts of
steps 1, 2 and 3; when that is false the lock stays false and the step index
becomes 1; when it is true the lock is set, every control of the form and
every stepper button is disabled, and page 4 alone is visible. -/
theorem onYesClick_spec (s : State) :
    (s.isSubmitted = true → onYesClick s = s) ∧
    (s.isSubmitted = false →
      ((validateAll s).2 = true ↔
        (validateStep s 1).2 = true ∧ (validateStep s 2).2 = true ∧
          (validateStep s 3).2 = true) ∧
      ((validateAll s).2 = false →
        (onYesClick s).isSubmitted = false ∧ (onYesClick s).currentStep = 1) ∧
      ((validateAll s).2 = true →
        (onYesClick s).isSubmitted = true ∧
        (∀ c : Control, (onYesClick s).disabled c = true) ∧
        (∀ b ∈ (onYesClick s).stepButtons, b.disabled = true) ∧
        (∀ idx : Fin 4, (onYesClick s).pageHidden idx = false ↔ idx.val = 3))) := by
  refine ⟨onYesClick_locked s, fun hs => ⟨validateAll_snd s, ?_, ?_⟩⟩
  · intro hv
    rw [onYesClick_fail s hs hv]
    have hsame := (sameButReport_validateAll s).samePayment.andThenPay
      (samePayment_alert (validateAll s).1
        "Some required details are missing or invalid. Please edit and try again.")
    have hs2 : (alert (validateAll s).1
        "Some required details are missing or invalid. Please edit and try again.").isSubmitted
          = false := by
      rw [hsame.1]
      exact hs
    refine ⟨?_, goToStep_currentStep _ 1 hs2⟩
    rw [(samePayment_goToStep _ 1).1]
    exact hs2
  · intro hv
    rw [onYesClick_pass s hs hv]
    refine ⟨confirmSubmission_isSubmitted _, confirmSubmission_disabled _,
      confirmSubmission_stepButtons _, ?_⟩
    intro idx
    rw [confirmSubmission_pageHidden]
    simp

/-- C5: for n from 1 to 4, `goToStep(n)` on an unlocked state sets the step
index to n and leaves page n visible and the other three hidden; on a locked
state it changes nothing; and in every state reached from a document whose
stepper buttons carry steps 1 to 4, by events whose buttons carry steps 1 to
4, the step index is one of 1 to 4 and exactly one page is visible. -/
theorem goToStep_spec (s : State) (n : Nat) (h1 : 1 ≤ n) (h4 : n ≤ 4) :
    (s.isSubmitted = false →
      (goToStep s n).currentStep = n ∧
      (∀ idx : Fin 4, ((goToStep s n).pageHidden idx = false ↔ idx.val + 1 = n)) ∧
      ∃! idx : Fin 4, (goToStep s n).pageHidden idx = false) ∧
    (s.isSubmitted = true → goToStep s n = s) ∧
    (∀ (html : State) (evs : List Event), StepperInRange html →
      (∀ e ∈ evs, e.inRange) →
        (1 ≤ (run (load html) evs).currentStep ∧ (run (load html) evs).currentStep ≤ 4) ∧
        ∃! idx : Fin 4, (run (load html) evs).pageHidden idx = false) := by
  refine ⟨fun hs => ⟨goToStep_currentStep s n hs, ?_,
    (stepInv_of _ n h1 h4 (goToStep_currentStep s n hs) (goToStep_pageHidden s n hs)).2⟩,
    goToStep_locked s n, ?_⟩
  · intro idx
    rw [goToStep_pageHidden s n hs]
    simp
  · intro html evs hh he
    exact (navOk_run (load html) evs he (navOk_load html hh)).1

/-- C5 at the freshly loaded page, for n = 2. -/
theorem goToStep_spec_witness :
    (goToStep (load blankPage) 2).currentStep = 2 ∧
    (goToStep (load blankPage) 2).pageHidden 1 = false :=
  ⟨((goToStep_spec (load blankPage) 2 (by decide) (by decide)).1 (by decide)).1,
   (((goToStep_spec (load blankPage) 2 (by decide) (by decide)).1 (by decide)).2.1 1).mpr
     (by decide)⟩

/-- What an event does to the payment state and the transaction id: nothing,
or the step UNPAID to PENDING of a generate click, which sets the id, or the
step to PAID of a queued callback, which keeps the id. -/
theorem fire_payment (s : State) (e : Event) :
    ((fire s e).paymentState = s.paymentState ∧ (fire s e).pendingTxn = s.pendingTxn) ∨
    (∃ env, e = Event.payNowClick env ∧ s.paymentState = PaymentState.UNPAID ∧
      (fire s e).paymentState = PaymentState.PENDING ∧
      (fire s e).pendingTxn = some (genTxnId env)) ∨
    (e = Event.timeout ∧ s.timers ≠ 0 ∧ (fire s e).paymentState = PaymentState.PAID ∧
      (fire s e).pendingTxn = s.pendingTxn) := by
  have key : ∀ t, SamePayment s t → (t.paymentState = s.paymentState ∧
      t.pendingTxn = s.pendingTxn) := fun t h => ⟨h.2.1, h.2.2.1⟩
  cases e with
  | input el v =>
    left
    simp only [fire]
    split
    · exact ⟨rfl, rfl⟩
    · exact key _ (samePayment_onInput { s with value := Function.update s.value el v } el)
  | check group v =>
    left
    simp only [fire]
    split
    · exact ⟨rfl, rfl⟩
    · split
      · exact key _ (samePayment_onPayMethodChange
          { s with radio := Function.update s.radio group v })
      · exact ⟨rfl, rfl⟩
  | choose el names =>
    left
    simp only [fire]
    split <;> exact ⟨rfl, rfl⟩
  | toggleConfirm =>
    left
    simp only [fire]
    split <;> exact ⟨rfl, rfl⟩
  | stepClick i =>
    left
    simp only [fire]
    split
    · split
      · exact ⟨rfl, rfl⟩
      · exact key _ (samePayment_onStepButtonClick s _)
    · exact ⟨rfl, rfl⟩
  | prevClick prev =>
    left
    simp only [fire]
    split
    · exact ⟨rfl, rfl⟩
    · exact key _ (samePayment_goToStep s prev)
  | nextClick next =>
    left
    simp only [fire]
    split
    · exact ⟨rfl, rfl⟩
    · exact key _ (samePayment_onNextClick s next)
  | goEditClick goto =>
    left
    simp only [fire]
    split
    · exact ⟨rfl, rfl⟩
    · exact key _ (samePayment_goToStep s goto)
  | yesClick =>
    left
    simp only [fire]
    split
    · exact ⟨rfl, rfl⟩
    · cases hs : s.isSubmitted
      · cases hv : (validateAll s).2
        · rw [onYesClick_fail s hs hv]
          exact key _ ((sameButReport_validateAll s).samePayment.andThenPay
            ((samePayment_alert _ _).andThenPay (samePayment_goToStep _ _)))
        · rw [onYesClick_pass s hs hv, confirmSubmission_paymentState,
            confirmSubmission_pendingTxn]
          exact ⟨(sameButReport_validateAll s).paymentState,
            (sameButReport_validateAll s).pendingTxn⟩
      · rw [onYesClick_locked s hs]
        exact ⟨rfl, rfl⟩
  | noClick =>
    left
    simp only [fire]
    split
    · exact ⟨rfl, rfl⟩
    · exact key _ (samePayment_onNoClick s)
  | payNowClick env =>
    simp only [fire]
    split
    · exact Or.inl ⟨rfl, rfl⟩
    · by_cases hu : s.paymentState = PaymentState.UNPAID
      · cases h1 : (validateBeforePayment s).2
        · rw [onPayNowClick_blocked s env hu h1]
          exact Or.inl (key _ (samePayment_validateBeforePayment s))
        · have hb := (validateBeforePayment_pass s h1).samePayment
          have hp := (sameButReport_validatePaymentInputsGovStyle
            (validateBeforePayment s).1).samePayment
          cases h2 : (validatePaymentInputsGovStyle (validateBeforePayment s).1).2
          · rw [onPayNowClick_rejected s env hu h1 h2]
            exact Or.inl (key _ (hb.andThenPay (hp.andThenPay (samePayment_alert _ _))))
          · obtain ⟨msg, hm⟩ := onPayNowClick_accepted s env hu h1 h2
            rw [hm, setPayUI_paymentState, setPayUI_pendingTxn]
            exact Or.inr (Or.inl ⟨env, rfl, hu, rfl, rfl⟩)
      · rw [onPayNowClick_not_unpaid s env hu]
        exact Or.inl ⟨rfl, rfl⟩
  | verifyClick =>
    left
    simp only [fire]
    split
    · exact ⟨rfl, rfl⟩
    · by_cases hp : s.paymentState = PaymentState.PENDING
      · unfold onVerifyClick
        rw [if_neg (by simp [hp])]
        dsimp only
        rw [setPayUI_paymentState, setPayUI_pendingTxn]
        exact ⟨hp.symm, rfl⟩
      · rw [onVerifyClick_not_pending s hp]
        exact ⟨rfl, rfl⟩
  | timeout =>
    simp only [fire]
    split
    · exact Or.inl ⟨rfl, rfl⟩
    · rename_i ht
      right
      right
      unfold onVerifyTimeout
      dsimp only
      rw [setPayUI_paymentState, setPayUI_pendingTxn]
      exact ⟨trivial, ht, rfl, rfl⟩

theorem fire_keeps_txn (s : State) (e : Event) (h : s.paymentState ≠ PaymentState.UNPAID) :
    (fire s e).pendingTxn = s.pendingTxn ∧ (fire s e).paymentState ≠ PaymentState.UNPAID := by
  rcases fire_payment s e with ⟨h1, h2⟩ | ⟨env, _, hu, _⟩ | ⟨_, _, h1, h2⟩
  · rw [h1, h2]
    exact ⟨rfl, h⟩
  · exact absurd hu h
  · rw [h1, h2]
    exact ⟨rfl, by decide⟩

theorem run_keeps_txn (s : State) (evs : List Event)
    (h : s.paymentState ≠ PaymentState.UNPAID) :
    (run s evs).pendingTxn = s.pendingTxn ∧ (run s evs).paymentState ≠ PaymentState.UNPAID := by
  induction evs generalizing s with
  | nil => exact ⟨rfl, h⟩
  | cons e es ih =>
    have h1 := fire_keeps_txn s e h
    have h2 := ih (fire s e) h1.2
    exact ⟨h2.1.trans h1.1, h2.2⟩

/-- C6: in a state whose payment is PENDING or PAID the generate action
changes nothing, and whatever events follow, the transaction id stays the
same and the payment never returns to UNPAID. -/
theorem generate_noop_once_pending (s : State) (env : TxnEnv)
    (h : s.paymentState = PaymentState.PENDING ∨ s.paymentState = PaymentState.PAID) :
    onPayNowClick s env = s ∧ fire s (Event.payNowClick env) = s ∧
    ∀ evs : List Event,
      (run s evs).pendingTxn = s.pendingTxn ∧
        (run s evs).paymentState ≠ PaymentState.UNPAID := by
  have hne : s.paymentState ≠ PaymentState.UNPAID := by
    rcases h with h | h <;> rw [h] <;> decide
  refine ⟨onPayNowClick_not_unpaid s env hne, ?_, fun evs => run_keeps_txn s evs hne⟩
  simp only [fire]
  split
  · rfl
  · exact onPayNowClick_not_unpaid s env hne

/-- C6 at the sample application whose payment request has been generated. -/
theorem generate_noop_once_pending_witness :
    (run (load blankPage) pendingTrace).paymentState = PaymentState.PENDING ∧
    onPayNowClick (run (load blankPage) pendingTrace) sampleEnv =
      run (load blankPage) pendingTrace :=
  ⟨by set_option maxRecDepth 1000000 in decide,
   (generate_noop_once_pending (run (load blankPage) pendingTrace) sampleEnv
     (Or.inl (by set_option maxRecDepth 1000000 in decide))).1⟩

/-- C7: from a reachable state whose payment is UNPAID, the generate action
moves to PENDING and sets the transaction id exactly when `validateStep(1)`,
`validateStep(2)` and the payment-input check all pass; when step 1 or step 2
fails the payment stays UNPAID, no transaction id is set and the step index
becomes 1; when only the payment inputs fail the payment stays UNPAID, no
transaction id is set and the step index is unchanged. -/
theorem generate_from_unpaid (s : State) (env : TxnEnv) (hr : Reachable s)
    (hu : s.paymentState = PaymentState.UNPAID) :
    (((onPayNowClick s env).paymentState = PaymentState.PENDING ∧
        (onPayNowClick s env).pendingTxn = some (genTxnId env)) ↔
      ((validateStep s 1).2 = true ∧ (validateStep s 2).2 = true ∧
        (validatePaymentInputsGovStyle s).2 = true)) ∧
    (¬((validateStep s 1).2 = true ∧ (validateStep s 2).2 = true) →
      (onPayNowClick s env).paymentState = PaymentState.UNPAID ∧
      (onPayNowClick s env).pendingTxn = none ∧
      (onPayNowClick s env).currentStep = 1) ∧
    ((validateStep s 1).2 = true ∧ (validateStep s 2).2 = true ∧
        (validatePaymentInputsGovStyle s).2 = false →
      (onPayNowClick s env).paymentState = PaymentState.UNPAID ∧
      (onPayNowClick s env).pendingTxn = none ∧
      (onPayNowClick s env).currentStep = s.currentStep) := by
  have hinv := payInv_of_reachable hr
  have htxn : s.pendingTxn = none := (hinv.2.2.1 hu).1
  have hs : s.isSubmitted = false :=
    not_submitted_of_not_paid hr (by rw [hu]; decide)
  cases h1 : (validateBeforePayment s).2
  · have h12 : ¬((validateStep s 1).2 = true ∧ (validateStep s 2).2 = true) := by
      rw [← validateBeforePayment_snd, h1]
      exact Bool.noConfusion
    have hsame := samePayment_validateBeforePayment s
    rw [onPayNowClick_blocked s env hu h1]
    have e1 : (validateBeforePayment s).1.paymentState = PaymentState.UNPAID := by
      rw [hsame.2.1]
      exact hu
    have e2 : (validateBeforePayment s).1.pendingTxn = none := by
      rw [hsame.2.2.1]
      exact htxn
    refine ⟨?_, fun _ => ⟨e1, e2, validateBeforePayment_fail s hs h1⟩, ?_⟩
    · rw [e1]
      constructor
      · intro h
        exact PaymentState.noConfusion h.1
      · intro h
        exact absurd ⟨h.1, h.2.1⟩ h12
    · intro h
      exact absurd ⟨h.1, h.2.1⟩ h12
  · have h12 := (validateBeforePayment_snd s).mp h1
    have hb := validateBeforePayment_pass s h1
    have hp := sameButReport_validatePaymentInputsGovStyle (validateBeforePayment s).1
    have hvp := paymentInputs_after_before s h1
    cases h2 : (validatePaymentInputsGovStyle (validateBeforePayment s).1).2
    · rw [onPayNowClick_rejected s env hu h1 h2]
      have hsame := (hb.andThen hp).samePayment.andThenPay (samePayment_alert
        (validatePaymentInputsGovStyle (validateBeforePayment s).1).1
        "Please correct payment details and try again.")
      rw [hvp] at h2
      have e1 := hsame.2.1.trans hu
      have e2 := hsame.2.2.1.trans htxn
      have e3 := (alert_currentStep
        (validatePaymentInputsGovStyle (validateBeforePayment s).1).1
        "Please correct payment details and try again.").trans (hb.andThen hp).currentStep
      refine ⟨?_, fun h => absurd h12 h, fun _ => ⟨e1, e2, e3⟩⟩
      rw [e1, h2]
      constructor
      · intro h
        exact PaymentState.noConfusion h.1
      · intro h
        exact Bool.noConfusion h.2.2
    · obtain ⟨msg, hm⟩ := onPayNowClick_accepted s env hu h1 h2
      rw [hvp] at h2
      rw [hm, setPayUI_paymentState, setPayUI_pendingTxn]
      refine ⟨?_, fun h => absurd h12 h, ?_⟩
      · exact ⟨fun _ => ⟨h12.1, h12.2, h2⟩, fun _ => ⟨rfl, rfl⟩⟩
      · intro h
        rw [h2] at h
        exact Bool.noConfusion h.2.2

/-- C7 at the freshly loaded page: the personal details are missing, the
payment stays UNPAID and the step index becomes 1. -/
theorem generate_from_unpaid_witness :
    (load blankPage).paymentState = PaymentState.UNPAID ∧
    (validateStep (load blankPage) 1).2 = false ∧
    (onPayNowClick (load blankPage) sampleEnv).paymentState = PaymentState.UNPAID ∧
    (onPayNowClick (load blankPage) sampleEnv).pendingTxn = none ∧
    (onPayNowClick (load blankPage) sampleEnv).currentStep = 1 :=
  ⟨by decide, by set_option maxRecDepth 1000000 in decide,
   (generate_from_unpaid (load blankPage) sampleEnv (Reachable.load blankPage)
     (by decide)).2.1 (by set_option maxRecDepth 1000000 in decide)⟩

/-- C8: the verify action changes nothing unless the payment is PENDING; on a
reachable PENDING state it leaves the payment PENDING and the transaction id
as it is and queues one callback; no event other than the run of a callback
changes the payment state or the id; and whenever the callback runs later, the
payment becomes PAID, the id is still the one the state had when PENDING, and
the result line is the success message followed by that id. -/
theorem verify_spec (s : State) (hr : Reachable s) :
    (s.paymentState ≠ PaymentState.PENDING → onVerifyClick s = s) ∧
    (s.paymentState = PaymentState.PENDING →
      (onVerifyClick s).paymentState = PaymentState.PENDING ∧
      (onVerifyClick s).pendingTxn = s.pendingTxn ∧
      (onVerifyClick s).timers = s.timers + 1 ∧
      (∀ e, e ≠ Event.timeout →
        (fire s e).paymentState = PaymentState.PENDING ∧
          (fire s e).pendingTxn = s.pendingTxn) ∧
      ∃ t, s.pendingTxn = some t ∧
        ∀ evs : List Event,
          (onVerifyTimeout (run s evs)).paymentState = PaymentState.PAID ∧
          (onVerifyTimeout (run s evs)).pendingTxn = some t ∧
          (onVerifyTimeout (run s evs)).payResult =
            "Payment successful (Demo). Transaction ID: " ++ t) := by
  refine ⟨onVerifyClick_not_pending s, ?_⟩
  intro hp
  have hne : s.paymentState ≠ PaymentState.UNPAID := by
    rw [hp]
    decide
  obtain ⟨t, ht⟩ := (payInv_of_reachable hr).2.2.2 hne
  refine ⟨?_, ?_, ?_, ?_, t, ht, ?_⟩
  · unfold onVerifyClick
    rw [if_neg (by simp [hp])]
    dsimp only
    rw [setPayUI_paymentState]
  · unfold onVerifyClick
    rw [if_neg (by simp [hp])]
    dsimp only
    rw [setPayUI_pendingTxn]
  · unfold onVerifyClick
    rw [if_neg (by simp [hp])]
    dsimp only
    rw [setPayUI_timers]
  · intro e he
    rcases fire_payment s e with ⟨h1, h2⟩ | ⟨env, _, hu, _⟩ | ⟨h1, _⟩
    · rw [h1, h2]
      exact ⟨hp, rfl⟩
    · exact absurd hu hne
    · exact absurd h1 he
  · intro evs
    have hk := (run_keeps_txn s evs hne).1
    unfold onVerifyTimeout
    dsimp only
    rw [setPayUI_paymentState, setPayUI_pendingTxn, setPayUI_payResult, hk, ht]
    exact ⟨rfl, rfl, rfl⟩

/-- C8 at the sample application whose payment request has been generated. -/
theorem verify_spec_witness :
    (run (load blankPage) pendingTrace).paymentState = PaymentState.PENDING ∧
    (onVerifyClick (run (load blankPage) pendingTrace)).paymentState
      = PaymentState.PENDING ∧
    (onVerifyTimeout (onVerifyClick (run (load blankPage) pendingTrace))).payResult
      = "Payment successful (Demo). Transaction ID: GOVTXN-20260208-AAAAAA" :=
  ⟨by set_option maxRecDepth 1000000 in decide,
   ((verify_spec (run (load blankPage) pendingTrace)
      (reachable_run (Reachable.load blankPage) pendingTrace)).2
        (by set_option maxRecDepth 1000000 in decide)).1,
   by set_option maxRecDepth 1000000 in decide⟩

/-! ## The derivative matcher decides the denotation -/

theorem matches_nil_of_nullable : ∀ r : RE, r.nullable = true → RE.Matches r []
  | RE.eps, _ => RE.Matches.eps
  | RE.cls _, h => Bool.noConfusion h
  | RE.cat a b, h => by
      simp only [RE.nullable, Bool.and_eq_true] at h
      exact RE.Matches.cat (matches_nil_of_nullable a h.1) (matches_nil_of_nullable b h.2)
  | RE.star a, _ => RE.Matches.starNil a
  | RE.none, h => Bool.noConfusion h
  | RE.alt a b, h => by
      simp only [RE.nullable, Bool.or_eq_true] at h
      rcases h with h | h
      · exact RE.Matches.altL b (matches_nil_of_nullable a h)
      · exact RE.Matches.altR a (matches_nil_of_nullable b h)

theorem nullable_of_matches {r : RE} {l : List Char} (h : RE.Matches r l) :
    l = [] → r.nullable = true := by
  induction h with
  | eps => intro _; rfl
  | cls p c _ => intro h0; exact List.noConfusion h0
  | cat _ _ iha ihb =>
    intro h0
    obtain ⟨hu, hv⟩ := List.append_eq_nil.mp h0
    simp only [RE.nullable, Bool.and_eq_true]
    exact ⟨iha hu, ihb hv⟩
  | starNil a => intro _; rfl
  | starCons _ _ _ _ => intro _; rfl
  | altL b _ iha =>
    intro h0
    simp only [RE.nullable, Bool.or_eq_true]
    exact Or.inl (iha h0)
  | altR a _ ihb =>
    intro h0
    simp only [RE.nullable, Bool.or_eq_true]
    exact Or.inr (ihb h0)

theorem nullable_iff (r : RE) : r.nullable = true ↔ RE.Matches r [] :=
  ⟨matches_nil_of_nullable r, fun h => nullable_of_matches h rfl⟩

theorem matches_of_deriv : ∀ (r : RE) (c : Char) (l : List Char),
    RE.Matches (r.deriv c) l → RE.Matches r (c :: l)
  | RE.eps, _, _, h => by cases h
  | RE.cls p, c, l, h => by
      simp only [RE.deriv] at h
      by_cases hp : p c = true
      · rw [if_pos hp] at h
        cases h
        exact RE.Matches.cls p c hp
      · rw [if_neg hp] at h
        cases h
  | RE.cat a b, c, l, h => by
      simp only [RE.deriv] at h
      by_cases hn : a.nullable = true
      · rw [if_pos hn] at h
        cases h with
        | altL _ h1 =>
          cases h1 with
          | cat ha hb => exact RE.Matches.cat (matches_of_deriv a c _ ha) hb
        | altR _ h2 =>
          exact RE.Matches.cat (matches_nil_of_nullable a hn) (matches_of_deriv b c _ h2)
      · rw [if_neg hn] at h
        cases h with
        | cat ha hb => exact RE.Matches.cat (matches_of_deriv a c _ ha) hb
  | RE.star a, c, l, h => by
      simp only [RE.deriv] at h
      cases h with
      | cat ha hs => exact RE.Matches.starCons (matches_of_deriv a c _ ha) hs
  | RE.none, _, _, h => by cases h
  | RE.alt a b, c, l, h => by
      simp only [RE.deriv] at h
      cases h with
      | altL _ h1 => exact RE.Matches.altL b (matches_of_deriv a c _ h1)
      | altR _ h2 => exact RE.Matches.altR a (matches_of_deriv b c _ h2)

theorem deriv_of_matches {r : RE} {w : List Char} (h : RE.Matches r w) :
    ∀ (c : Char) (l : List Char), w = c :: l → RE.Matches (r.deriv c) l := by
  induction h with
  | eps => intro c l h0; exact List.noConfusion h0
  | cls p c0 hp =>
    intro c l h0
    injection h0 with h1 h2
    subst h1
    subst h2
    simp only [RE.deriv, if_pos hp]
    exact RE.Matches.eps
  | @cat a b u v ha hb iha ihb =>
    intro c l h0
    simp only [RE.deriv]
    cases u with
    | nil =>
      have hn := nullable_of_matches ha rfl
      rw [if_pos hn]
      exact RE.Matches.altR _ (ihb c l h0)
    | cons x xs =>
      injection h0 with h1 h2
      subst h1
      subst h2
      have h3 := RE.Matches.cat (iha x xs rfl) hb
      by_cases hn : a.nullable = true
      · rw [if_pos hn]
        exact RE.Matches.altL _ h3
      · rw [if_neg hn]
        exact h3
  | starNil a => intro c l h0; exact List.noConfusion h0
  | @starCons a u v ha hs iha ihs =>
    intro c l h0
    cases u with
    | nil => exact ihs c l h0
    | cons x xs =>
      injection h0 with h1 h2
      subst h1
      subst h2
      simp only [RE.deriv]
      exact RE.Matches.cat (iha x xs rfl) hs
  | altL b _ iha =>
    intro c l h0
    simp only [RE.deriv]
    exact RE.Matches.altL _ (iha c l h0)
  | altR a _ ihb =>
    intro c l h0
    simp only [RE.deriv]
    exact RE.Matches.altR _ (ihb c l h0)

/-- The matcher accepts exactly the strings the expression denotes. -/
theorem fullMatch_iff (r : RE) (l : List Char) : r.fullMatch l = true ↔ RE.Matches r l := by
  induction l generalizing r with
  | nil => exact nullable_iff r
  | cons c cs ih =>
    simp only [RE.fullMatch]
    rw [ih]
    exact ⟨matches_of_deriv r c cs, fun h => deriv_of_matches h c cs rfl⟩

/-! ## The strings of the two patterns -/

theorem matches_cls_iff (p : Char → Bool) (l : List Char) :
    RE.Matches (RE.cls p) l ↔ ∃ c, l = [c] ∧ p c = true := by
  constructor
  · intro h
    cases h with
    | cls _ c hp => exact ⟨c, rfl, hp⟩
  · rintro ⟨c, rfl, hp⟩
    exact RE.Matches.cls p c hp

theorem matches_cat_iff (a b : RE) (l : List Char) :
    RE.Matches (RE.cat a b) l ↔ ∃ u v, l = u ++ v ∧ RE.Matches a u ∧ RE.Matches b v := by
  constructor
  · intro h
    cases h with
    | cat ha hb => exact ⟨_, _, rfl, ha, hb⟩
  · rintro ⟨u, v, rfl, ha, hb⟩
    exact RE.Matches.cat ha hb

theorem all_of_matches_star_cls {p : Char → Bool} {r : RE} {l : List Char}
    (h : RE.Matches r l) : r = RE.star (RE.cls p) → ∀ c ∈ l, p c = true := by
  induction h with
  | eps => intro h0; exact RE.noConfusion h0
  | cls _ _ _ => intro h0; exact RE.noConfusion h0
  | cat _ _ _ _ => intro h0; exact RE.noConfusion h0
  | starNil a => intro _ c hc; exact absurd hc (List.not_mem_nil c)
  | @starCons a u v ha _ _ ihs =>
    intro h0 c hc
    injection h0 with h1
    subst h1
    rcases List.mem_append.mp hc with h2 | h2
    · obtain ⟨c0, hu, hp⟩ := (matches_cls_iff p u).mp ha
      rw [hu] at h2
      rw [List.mem_singleton.mp h2]
      exact hp
    · exact ihs rfl c h2
  | altL _ _ _ => intro h0; exact RE.noConfusion h0
  | altR _ _ _ => intro h0; exact RE.noConfusion h0

theorem matches_star_cls_iff (p : Char → Bool) (l : List Char) :
    RE.Matches (RE.star (RE.cls p)) l ↔ ∀ c ∈ l, p c = true := by
  constructor
  · intro h
    exact all_of_matches_star_cls h rfl
  · intro h
    induction l with
    | nil => exact RE.Matches.starNil _
    | cons c cs ih =>
      have h1 : RE.Matches (RE.cls p) [c] := RE.Matches.cls p c (h c (List.mem_cons_self c cs))
      exact RE.Matches.starCons h1 (ih (fun d hd => h d (List.mem_cons_of_mem c hd)))

/-- The strings of `[..]+`: non-empty, every character in the class. -/
theorem matches_plus_cls_iff (p : Char → Bool) (l : List Char) :
    RE.Matches (RE.plus (RE.cls p)) l ↔ l ≠ [] ∧ ∀ c ∈ l, p c = true := by
  unfold RE.plus
  rw [matches_cat_iff]
  constructor
  · rintro ⟨u, v, rfl, hu, hv⟩
    obtain ⟨c, rfl, hp⟩ := (matches_cls_iff p u).mp hu
    refine ⟨by simp, ?_⟩
    intro d hd
    rcases List.mem_cons.mp hd with h1 | h1
    · rw [h1]
      exact hp
    · exact (matches_star_cls_iff p v).mp hv d h1
  · rintro ⟨hne, hall⟩
    cases l with
    | nil => exact absurd rfl hne
    | cons c cs =>
      exact ⟨[c], cs, rfl, RE.Matches.cls p c (hall c (List.mem_cons_self c cs)),
        (matches_star_cls_iff p cs).mpr (fun d hd => hall d (List.mem_cons_of_mem c hd))⟩

/-- The strings of `[..]{2,}`: at least two characters, every one in the
class. -/
theorem matches_atLeast2_cls_iff (p : Char → Bool) (l : List Char) :
    RE.Matches (RE.atLeast2 (RE.cls p)) l ↔ 2 ≤ l.length ∧ ∀ c ∈ l, p c = true := by
  unfold RE.atLeast2
  rw [matches_cat_iff]
  constructor
  · rintro ⟨u, v, rfl, hu, hv⟩
    obtain ⟨c, rfl, hp⟩ := (matches_cls_iff p u).mp hu
    have hv2 := (matches_plus_cls_iff p v).mp hv
    refine ⟨?_, ?_⟩
    · have : 0 < v.length := List.length_pos.mpr hv2.1
      simp only [List.singleton_append, List.length_cons]
      omega
    · intro d hd
      rcases List.mem_cons.mp hd with h1 | h1
      · rw [h1]
        exact hp
      · exact hv2.2 d h1
  · rintro ⟨hlen, hall⟩
    cases l with
    | nil => simp at hlen
    | cons c cs =>
      refine ⟨[c], cs, rfl, RE.Matches.cls p c (hall c (List.mem_cons_self c cs)),
        (matches_plus_cls_iff p cs).mpr ⟨?_, fun d hd => hall d (List.mem_cons_of_mem c hd)⟩⟩
      intro h0
      rw [h0] at hlen
      simp at hlen

theorem char_eq_of_toNat {c : Char} {n : Nat} (h : c.toNat = n) : c = Char.ofNat n := by
  rw [← h, Char.ofNat_toNat]

theorem isAt_iff (c : Char) : isAt c = true ↔ c = '@' := by
  unfold isAt
  constructor
  · intro h
    exact char_eq_of_toNat (by simpa using h)
  · intro h
    rw [h]
    decide

theorem isDot_iff (c : Char) : isDot c = true ↔ c = '.' := by
  unfold isDot
  constructor
  · intro h
    exact char_eq_of_toNat (by simpa using h)
  · intro h
    rw [h]
    decide

/-- The strings of the UPI pattern. -/
theorem matches_upiRE_iff (l : List Char) :
    RE.Matches upiRE l ↔
      ∃ loc ali, l = loc ++ '@' :: ali ∧
        (2 ≤ loc.length ∧ ∀ c ∈ loc, isUpiLocalChar c = true) ∧
        (2 ≤ ali.length ∧ ∀ c ∈ ali, isAsciiLetter c = true) := by
  unfold upiRE
  rw [matches_cat_iff]
  constructor
  · rintro ⟨u, v, rfl, hu, hv⟩
    obtain ⟨x, y, rfl, hx, hy⟩ := (matches_cat_iff _ _ v).mp hv
    obtain ⟨c, rfl, hc⟩ := (matches_cls_iff _ x).mp hx
    rw [(isAt_iff c).mp hc]
    exact ⟨u, y, rfl, (matches_atLeast2_cls_iff _ u).mp hu,
      (matches_atLeast2_cls_iff _ y).mp hy⟩
  · rintro ⟨loc, ali, rfl, hl, ha⟩
    exact ⟨loc, '@' :: ali, rfl, (matches_atLeast2_cls_iff _ loc).mpr hl,
      (matches_cat_iff _ _ _).mpr ⟨['@'], ali, rfl,
        RE.Matches.cls isAt '@' (by decide), (matches_atLeast2_cls_iff _ ali).mpr ha⟩⟩

/-- The strings of the email pattern. -/
theorem matches_emailRE_iff (l : List Char) :
    RE.Matches emailRE l ↔
      ∃ a b c, l = a ++ '@' :: (b ++ '.' :: c) ∧
        (a ≠ [] ∧ ∀ x ∈ a, notSpaceOrAt x = true) ∧
        (b ≠ [] ∧ ∀ x ∈ b, notSpaceOrAt x = true) ∧
        (c ≠ [] ∧ ∀ x ∈ c, notSpaceOrAt x = true) := by
  unfold emailRE
  rw [matches_cat_iff]
  constructor
  · rintro ⟨a, v, rfl, ha, hv⟩
    obtain ⟨x, y, rfl, hx, hy⟩ := (matches_cat_iff _ _ v).mp hv
    obtain ⟨c1, rfl, hc1⟩ := (matches_cls_iff _ x).mp hx
    obtain ⟨b, z, rfl, hb, hz⟩ := (matches_cat_iff _ _ y).mp hy
    obtain ⟨d, c, rfl, hd, hc⟩ := (matches_cat_iff _ _ z).mp hz
    obtain ⟨c2, rfl, hc2⟩ := (matches_cls_iff _ d).mp hd
    rw [(isAt_iff c1).mp hc1, (isDot_iff c2).mp hc2]
    exact ⟨a, b, c, rfl, (matches_plus_cls_iff _ a).mp ha, (matches_plus_cls_iff _ b).mp hb,
      (matches_plus_cls_iff _ c).mp hc⟩
  · rintro ⟨a, b, c, rfl, ha, hb, hc⟩
    refine ⟨a, '@' :: (b ++ '.' :: c), rfl, (matches_plus_cls_iff _ a).mpr ha, ?_⟩
    refine (matches_cat_iff _ _ _).mpr ⟨['@'], b ++ '.' :: c, rfl,
      RE.Matches.cls isAt '@' (by decide), ?_⟩
    refine (matches_cat_iff _ _ _).mpr ⟨b, '.' :: c, rfl, (matches_plus_cls_iff _ b).mpr hb, ?_⟩
    exact (matches_cat_iff _ _ _).mpr ⟨['.'], c, rfl, RE.Matches.cls isDot '.' (by decide),
      (matches_plus_cls_iff _ c).mpr hc⟩

theorem isUpiLocalChar_iff (c : Char) :
    isUpiLocalChar c = true ↔
      isAsciiLetter c = true ∨ isJsDigit c = true ∨ c = '.' ∨ c = '-' ∨ c = '_' := by
  unfold isUpiLocalChar
  simp only [Bool.or_eq_true, beq_iff_eq, or_assoc]
  constructor
  · rintro (h | h | h | h | h)
    · exact Or.inl h
    · exact Or.inr (Or.inl h)
    · exact Or.inr (Or.inr (Or.inl (char_eq_of_toNat h)))
    · exact Or.inr (Or.inr (Or.inr (Or.inl (char_eq_of_toNat h))))
    · exact Or.inr (Or.inr (Or.inr (Or.inr (char_eq_of_toNat h))))
  · rintro (h | h | h | h | h)
    · exact Or.inl h
    · exact Or.inr (Or.inl h)
    · exact Or.inr (Or.inr (Or.inl (by rw [h]; decide)))
    · exact Or.inr (Or.inr (Or.inr (Or.inl (by rw [h]; decide))))
    · exact Or.inr (Or.inr (Or.inr (Or.inr (by rw [h]; decide))))

theorem notSpaceOrAt_iff (c : Char) :
    notSpaceOrAt c = true ↔ isJsSpace c = false ∧ c ≠ '@' := by
  have h := isAt_iff c
  unfold isAt at h
  unfold notSpaceOrAt
  rw [Bool.not_eq_true', Bool.or_eq_false_iff, ← Bool.not_eq_true (c.toNat == 0x40), h]

theorem count_at_split (loc dom : List Char) :
    (loc ++ '@' :: dom).count '@' = 1 ↔ '@' ∉ loc ∧ '@' ∉ dom := by
  rw [List.count_append, List.count_cons_self, ← List.count_eq_zero, ← List.count_eq_zero]
  omega

/-- C13: `isUpiValid(v)` is true exactly when the trimmed `v` is `local@alias`
with one `@` in all, `local` of at least two characters, each an ASCII letter,
a digit, `.`, `-` or `_`, and `alias` of at least two ASCII letters; so
`ankit@okicici` and `ankit@ok` are valid and `ankit` is not. -/
theorem isUpiValid_iff (v : String) :
    (isUpiValid v = true ↔
      ∃ loc ali : List Char,
        (trim v).data = loc ++ '@' :: ali ∧ (trim v).data.count '@' = 1 ∧
        2 ≤ loc.length ∧
        (∀ c ∈ loc, isAsciiLetter c = true ∨ isJsDigit c = true ∨ c = '.' ∨ c = '-' ∨
          c = '_') ∧
        2 ≤ ali.length ∧ ∀ c ∈ ali, isAsciiLetter c = true) ∧
    isUpiValid "ankit@okicici" = true ∧ isUpiValid "ankit@ok" = true ∧
    isUpiValid "ankit" = false := by
  refine ⟨?_, by decide, by decide, by decide⟩
  unfold isUpiValid
  rw [fullMatch_iff, matches_upiRE_iff]
  constructor
  · rintro ⟨loc, ali, h, ⟨hl, hlc⟩, ⟨ha, hac⟩⟩
    refine ⟨loc, ali, h, ?_, hl, fun c hc => (isUpiLocalChar_iff c).mp (hlc c hc), ha, hac⟩
    rw [h, count_at_split]
    constructor
    · intro hm
      exact absurd (hlc '@' hm) (by decide)
    · intro hm
      exact absurd (hac '@' hm) (by decide)
  · rintro ⟨loc, ali, h, _, hl, hlc, ha, hac⟩
    exact ⟨loc, ali, h, ⟨hl, fun c hc => (isUpiLocalChar_iff c).mpr (hlc c hc)⟩, ⟨ha, hac⟩⟩

theorem email_shape_iff (e : String) :
    isEmailValid e = true ↔
      (∀ c ∈ (trim e).data, isJsSpace c = false) ∧ (trim e).data.count '@' = 1 ∧
      ∃ loc dom : List Char,
        (trim e).data = loc ++ '@' :: dom ∧ loc ≠ [] ∧
        ∃ i, 0 < i ∧ i + 1 < dom.length ∧ dom[i]? = some '.' := by
  unfold isEmailValid
  rw [fullMatch_iff, matches_emailRE_iff]
  generalize (trim e).data = t
  constructor
  · rintro ⟨a, b, c, rfl, ⟨ha, hac⟩, ⟨hb, hbc⟩, ⟨hc, hcc⟩⟩
    have hdom : ∀ x ∈ b ++ '.' :: c, isJsSpace x = false ∧ x ≠ '@' := by
      intro x hx
      rcases List.mem_append.mp hx with h1 | h1
      · exact (notSpaceOrAt_iff x).mp (hbc x h1)
      · rcases List.mem_cons.mp h1 with h2 | h2
        · rw [h2]
          exact ⟨by decide, by decide⟩
        · exact (notSpaceOrAt_iff x).mp (hcc x h2)
    refine ⟨?_, ?_, a, b ++ '.' :: c, rfl, ha, b.length, List.length_pos.mpr hb, ?_, ?_⟩
    · intro x hx
      rcases List.mem_append.mp hx with h1 | h1
      · exact ((notSpaceOrAt_iff x).mp (hac x h1)).1
      · rcases List.mem_cons.mp h1 with h2 | h2
        · rw [h2]
          decide
        · exact (hdom x h2).1
    · rw [count_at_split]
      exact ⟨fun hm => ((notSpaceOrAt_iff _).mp (hac _ hm)).2 rfl, fun hm => (hdom _ hm).2 rfl⟩
    · have : 0 < c.length := List.length_pos.mpr hc
      simp only [List.length_append, List.length_cons]
      omega
    · rw [List.getElem?_append_right (Nat.le_refl _)]
      simp
  · rintro ⟨hsp, hcount, loc, dom, rfl, hloc, i, hi0, hi1, hdot⟩
    rw [count_at_split] at hcount
    have hi : i < dom.length := by omega
    have hget : dom[i] = '.' := by
      rw [List.getElem?_eq_getElem hi] at hdot
      exact Option.some.inj hdot
    have hsplit : dom = dom.take i ++ '.' :: dom.drop (i + 1) := by
      rw [← hget, ← List.drop_eq_getElem_cons hi, List.take_append_drop]
    have hin : ∀ x ∈ dom, notSpaceOrAt x = true := by
      intro x hx
      rw [notSpaceOrAt_iff]
      refine ⟨hsp x (List.mem_append_right _ (List.mem_cons_of_mem _ hx)), ?_⟩
      intro h0
      rw [h0] at hx
      exact hcount.2 hx
    refine ⟨loc, dom.take i, dom.drop (i + 1), ?_, ⟨hloc, ?_⟩, ⟨?_, ?_⟩, ⟨?_, ?_⟩⟩
    · rw [← hsplit]
    · intro x hx
      rw [notSpaceOrAt_iff]
      refine ⟨hsp x (List.mem_append_left _ hx), ?_⟩
      intro h0
      rw [h0] at hx
      exact hcount.1 hx
    · intro h0
      have := congrArg List.length h0
      rw [List.length_take, List.length_nil] at this
      omega
    · intro x hx
      exact hin x (List.mem_of_mem_take hx)
    · intro h0
      have := congrArg List.length h0
      rw [List.length_drop, List.length_nil] at this
      omega
    · intro x hx
      exact hin x (List.mem_of_mem_drop hx)

/-! ## Claims about the single rules of step 1 -/

theorem isJsSpace_false_of_digit {c : Char} (h : isJsDigit c = true) : isJsSpace c = false := by
  unfold isJsDigit at h
  unfold isJsSpace
  simp only [Bool.and_eq_true, decide_eq_true_eq] at h
  simp only [Bool.or_eq_false_iff, Bool.and_eq_false_iff, beq_eq_false_iff_ne, ne_eq,
    decide_eq_false_iff_not]
  omega

theorem trim_ne_of_digit {v : String} (h : 0 < (onlyDigits v).length) : trim v ≠ "" := by
  unfold onlyDigits at h
  obtain ⟨c, hc⟩ := List.exists_mem_of_length_pos h
  obtain ⟨hmem, hd⟩ := List.mem_filter.mp hc
  have h1 := mem_trimChars_of_not_space hmem (isJsSpace_false_of_digit hd)
  intro h0
  have h2 : (trim v).data = [] := by rw [h0]
  have h3 : trimChars v.data = [] := h2
  rw [h3] at h1
  exact absurd h1 (List.not_mem_nil c)

theorem validateStep1_errors_nid (s : State) :
    (validateStep s 1).1.errors Field.nid = "" ↔
      8 ≤ (onlyDigits (s.value Field.nid)).length ∧
        (onlyDigits (s.value Field.nid)).length ≤ 16 := by
  rw [validateStep1_errors]
  constructor
  · intro h
    by_contra hbad
    rw [if_pos ⟨by omega, rfl⟩] at h
    exact absurd h (by decide)
  · intro h
    have hne : trim (s.value Field.nid) ≠ "" := trim_ne_of_digit (by omega)
    rw [if_neg (by omega), if_neg (fun h0 => Field.noConfusion h0.2),
      if_neg (fun h0 => Field.noConfusion h0.2), if_neg (fun h0 => Field.noConfusion h0.2),
      if_neg (fun h0 => absurd h0.1 (by decide)), if_neg (fun h0 => Field.noConfusion h0.2),
      if_neg (fun h0 => hne h0.2)]

theorem validateStep1_errors_pincode (s : State) :
    (validateStep s 1).1.errors Field.pincode = "" ↔
      (onlyDigits (s.value Field.pincode)).length = 6 := by
  rw [validateStep1_errors]
  constructor
  · intro h
    by_contra hbad
    rw [if_neg (fun h0 => Field.noConfusion h0.2), if_neg (fun h0 => Field.noConfusion h0.2),
      if_pos ⟨hbad, rfl⟩] at h
    exact absurd h (by decide)
  · intro h
    have hne : trim (s.value Field.pincode) ≠ "" := trim_ne_of_digit (by omega)
    rw [if_neg (fun h0 => Field.noConfusion h0.2), if_neg (fun h0 => Field.noConfusion h0.2),
      if_neg (fun h0 => h0.1 h), if_neg (fun h0 => Field.noConfusion h0.2),
      if_neg (fun h0 => absurd h0.1 (by decide)), if_neg (fun h0 => Field.noConfusion h0.2),
      if_neg (fun h0 => hne h0.2)]

theorem validateStep1_errors_mobile (s : State) :
    (validateStep s 1).1.errors Field.mobile = "" ↔
      (onlyDigits (s.value Field.mobile)).length = 10 := by
  rw [validateStep1_errors]
  constructor
  · intro h
    by_contra hbad
    rw [if_neg (fun h0 => Field.noConfusion h0.2), if_pos ⟨hbad, rfl⟩] at h
    exact absurd h (by decide)
  · intro h
    have hne : trim (s.value Field.mobile) ≠ "" := trim_ne_of_digit (by omega)
    rw [if_neg (fun h0 => Field.noConfusion h0.2), if_neg (fun h0 => h0.1 h),
      if_neg (fun h0 => Field.noConfusion h0.2), if_neg (fun h0 => Field.noConfusion h0.2),
      if_neg (fun h0 => absurd h0.1 (by decide)), if_neg (fun h0 => Field.noConfusion h0.2),
      if_neg (fun h0 => hne h0.2)]

theorem isEmailValid_false_of_blank {v : String} (h : trim v = "") : isEmailValid v = false := by
  unfold isEmailValid
  rw [h]
  decide

theorem validateStep1_errors_email (s : State) (hne : s.value Field.email ≠ "") :
    (validateStep s 1).1.errors Field.email ≠ "" ↔
      isEmailValid (s.value Field.email) = false := by
  rw [validateStep1_errors]
  rw [if_neg (fun h0 => Field.noConfusion h0.2), if_neg (fun h0 => Field.noConfusion h0.2),
    if_neg (fun h0 => Field.noConfusion h0.2)]
  constructor
  · intro h
    by_contra hv
    have hb : trim (s.value Field.email) ≠ "" := fun h0 => hv (isEmailValid_false_of_blank h0)
    rw [if_neg (fun h0 => hv h0.1.2), if_neg (fun h0 => absurd h0.1 (by decide)),
      if_neg (fun h0 => Field.noConfusion h0.2), if_neg (fun h0 => hb h0.2)] at h
    exact h rfl
  · intro h
    rw [if_pos ⟨⟨hne, h⟩, rfl⟩]
    decide

theorem filter_eq_self_of_all {p : Char → Bool} {l : List Char} (h : ∀ c ∈ l, p c = true) :
    l.filter p = l := List.filter_eq_self.mpr h

/-- C11: the national-id rule of `validateStep(1)` passes, and the pass leaves
no error text on `nid`, exactly when the value holds between 8 and 16 digits;
the disjunct "exactly 12" changes nothing; `123456789012` and `12345678` pass
and `1234567` does not. -/
theorem nid_rule (s : State) :
    (((onlyDigits (s.value Field.nid)).length = 12 ∨
        ((onlyDigits (s.value Field.nid)).length ≥ 8 ∧
          (onlyDigits (s.value Field.nid)).length ≤ 16)) ↔
      (8 ≤ (onlyDigits (s.value Field.nid)).length ∧
        (onlyDigits (s.value Field.nid)).length ≤ 16)) ∧
    ((validateStep s 1).1.errors Field.nid = "" ↔
      (8 ≤ (onlyDigits (s.value Field.nid)).length ∧
        (onlyDigits (s.value Field.nid)).length ≤ 16)) ∧
    (validateStep (withValue Field.nid "123456789012") 1).1.errors Field.nid = "" ∧
    (validateStep (withValue Field.nid "12345678") 1).1.errors Field.nid = "" ∧
    (validateStep (withValue Field.nid "1234567") 1).1.errors Field.nid =
      "National ID must be 8–16 digits (Aadhaar: exactly 12)." := by
  refine ⟨by omega, validateStep1_errors_nid s, ?_, ?_, ?_⟩
  · set_option maxRecDepth 100000 in decide
  · set_option maxRecDepth 100000 in decide
  · set_option maxRecDepth 100000 in decide

/-- C12, as stated, fails: a page loaded with the pincode
`400-001`: the value is not made of digits only and
is 7 characters long, and `validateStep(1)` leaves no error text on
`pincode`. -/
theorem pincode_with_dash_passes :
    Reachable (load (withValue Field.pincode "400-001")) ∧
    (load (withValue Field.pincode "400-001")).value Field.pincode = "400-001" ∧
    ("400-001" : String).data.all isJsDigit = false ∧
    ("400-001" : String).length = 7 ∧
    (validateStep (load (withValue Field.pincode "400-001")) 1).1.errors Field.pincode
      = "" := by
  refine ⟨Reachable.load _, by decide, by decide, by decide, ?_⟩
  set_option maxRecDepth 100000 in decide

/-- C12, amended: `validateStep(1)` leaves no error text on `pincode` exactly
when the value holds 6 digits once the non-digits are stripped, and none on
`mobile` exactly when the value holds 10 digits once the non-digits are
stripped; for a value made of digits only this is: exactly 6 (10) characters
long; `400001` passes and `40001` does not. -/
theorem pincode_mobile_rule (s : State) :
    ((validateStep s 1).1.errors Field.pincode = "" ↔
      (onlyDigits (s.value Field.pincode)).length = 6) ∧
    ((validateStep s 1).1.errors Field.mobile = "" ↔
      (onlyDigits (s.value Field.mobile)).length = 10) ∧
    ((∀ c ∈ (s.value Field.pincode).data, isJsDigit c = true) →
      ((validateStep s 1).1.errors Field.pincode = "" ↔
        (s.value Field.pincode).length = 6)) ∧
    ((∀ c ∈ (s.value Field.mobile).data, isJsDigit c = true) →
      ((validateStep s 1).1.errors Field.mobile = "" ↔
        (s.value Field.mobile).length = 10)) ∧
    (validateStep (withValue Field.pincode "400001") 1).1.errors Field.pincode = "" ∧
    (validateStep (withValue Field.pincode "40001") 1).1.errors Field.pincode =
      "Pincode must be exactly 6 digits." := by
  refine ⟨validateStep1_errors_pincode s, validateStep1_errors_mobile s, ?_, ?_, ?_, ?_⟩
  · intro h
    rw [validateStep1_errors_pincode]
    unfold onlyDigits
    rw [filter_eq_self_of_all h]
  · intro h
    rw [validateStep1_errors_mobile]
    unfold onlyDigits
    rw [filter_eq_self_of_all h]
  · set_option maxRecDepth 100000 in decide
  · set_option maxRecDepth 100000 in decide

/-- C14: `isEmailValid(e)` is true exactly when the trimmed `e` holds no
whitespace, holds exactly one `@` with something before it, and the part after
the `@` has a `.` that is neither its first nor its last character; and for a
non-empty email value `validateStep(1)` leaves an error text on `email`
exactly when `isEmailValid` is false. -/
theorem isEmailValid_iff (e : String) (s : State) :
    (isEmailValid e = true ↔
      (∀ c ∈ (trim e).data, isJsSpace c = false) ∧ (trim e).data.count '@' = 1 ∧
      ∃ loc dom : List Char,
        (trim e).data = loc ++ '@' :: dom ∧ loc ≠ [] ∧
        ∃ i, 0 < i ∧ i + 1 < dom.length ∧ dom[i]? = some '.') ∧
    (s.value Field.email ≠ "" →
      ((validateStep s 1).1.errors Field.email ≠ "" ↔
        isEmailValid (s.value Field.email) = false)) :=
  ⟨email_shape_iff e, validateStep1_errors_email s⟩

theorem validateStep3_no_method (s : State) (h : getRadioValue s Field.payMethod = "") :
    validateStep s 3 =
      (setError (clearAllErrors s) Field.payMethod "Please select payment method.", false) := by
  unfold validateStep
  simp only [OfNat.ofNat_ne_one, if_false, if_true, show (3 : Nat) ≠ 2 by decide]
  unfold checkStep3
  dsimp only
  have hm : getRadioValue (clearAllErrors s) Field.payMethod = "" := h
  rw [if_pos hm]

/-- C15: with no payment method selected `validateStep(3)` returns false, the
ErrorMap it leaves has a non-empty text on `payMethod` and on no other name,
and the payment-result line is as it was. -/
theorem validateStep3_without_method (s : State) (h : getRadioValue s Field.payMethod = "") :
    (validateStep s 3).2 = false ∧
    (validateStep s 3).1.errors Field.payMethod = "Please select payment method." ∧
    (∀ f, f ≠ Field.payMethod → (validateStep s 3).1.errors f = "") ∧
    (validateStep s 3).1.payResult = s.payResult ∧
    (validateStep s 3).1.payResultClasses = s.payResultClasses := by
  rw [validateStep3_no_method s h]
  refine ⟨rfl, setError_errors_self _ _ _, ?_, rfl, rfl⟩
  intro f hf
  simp [setError, clearAllErrors, Function.update_noteq hf]

/-- C15 at the freshly loaded page, where no method is selected. -/
theorem validateStep3_without_method_witness :
    getRadioValue (load blankPage) Field.payMethod = "" ∧
    (validateStep (load blankPage) 3).2 = false ∧
    (validateStep (load blankPage) 3).1.errors Field.confirm = "" :=
  ⟨by decide, (validateStep3_without_method (load blankPage) (by decide)).1,
   (validateStep3_without_method (load blankPage) (by decide)).2.2.1 Field.confirm
     (by decide)⟩

/-! ## The transaction id -/

theorem decimalDigits_small (fuel n : Nat) (h : n < 10) :
    decimalDigits (fuel + 1) n = [Char.ofNat (48 + n)] := by
  simp [decimalDigits, h]

theorem decimalDigits_large (fuel n : Nat) (h : 10 ≤ n) :
    decimalDigits (fuel + 1) n = decimalDigits fuel (n / 10) ++ [Char.ofNat (48 + n % 10)] := by
  simp [decimalDigits, Nat.not_lt.mpr h]

theorem digit_char (k : Nat) (h : k < 10) :
    isJsDigit (Char.ofNat (48 + k)) = true ∧ (Char.ofNat (48 + k)).toNat - 48 = k := by
  interval_cases k <;> exact ⟨by decide, by decide⟩

/-- A year from 1000 to 9999 is printed as its four decimal digits. -/
theorem natToString_year (n : Nat) (h1 : 1000 ≤ n) (h2 : n ≤ 9999) :
    (natToString n).data.length = 4 ∧ (∀ c ∈ (natToString n).data, isJsDigit c = true) ∧
      digitsValue (natToString n).data = n := by
  unfold natToString
  obtain ⟨f, hf⟩ : ∃ f, n + 1 = f + 4 := ⟨n - 3, by omega⟩
  rw [hf]
  have e : decimalDigits (f + 4) n =
      [Char.ofNat (48 + n / 10 / 10 / 10), Char.ofNat (48 + n / 10 / 10 % 10),
       Char.ofNat (48 + n / 10 % 10), Char.ofNat (48 + n % 10)] := by
    rw [decimalDigits_large (f + 3) n (by omega), decimalDigits_large (f + 2) (n / 10) (by omega),
      decimalDigits_large (f + 1) (n / 10 / 10) (by omega),
      decimalDigits_small f (n / 10 / 10 / 10) (by omega)]
    rfl
  simp only [e]
  have d3 := digit_char (n / 10 / 10 / 10) (by omega)
  have d2 := digit_char (n / 10 / 10 % 10) (by omega)
  have d1 := digit_char (n / 10 % 10) (by omega)
  have d0 := digit_char (n % 10) (by omega)
  refine ⟨rfl, ?_, ?_⟩
  · intro c hc
    simp only [List.mem_cons, List.mem_singleton, List.not_mem_nil, or_false] at hc
    rcases hc with h | h | h | h <;> rw [h]
    · exact d3.1
    · exact d2.1
    · exact d1.1
    · exact d0.1
  · simp only [digitsValue, List.foldl_cons, List.foldl_nil, d3.2, d2.2, d1.2, d0.2]
    omega

/-- A month is printed as two digits, zero-padded. -/
theorem month_text : ∀ m : Fin 12,
    (padStart2 (natToString (m.val + 1))).data.length = 2 ∧
    (padStart2 (natToString (m.val + 1))).data.all isJsDigit = true ∧
    digitsValue (padStart2 (natToString (m.val + 1))).data = m.val + 1 := by
  decide

/-- A day of the month is printed as two digits, zero-padded. -/
theorem day_text : ∀ d : Fin 32,
    (padStart2 (natToString d.val)).data.length = 2 ∧
    (padStart2 (natToString d.val)).data.all isJsDigit = true ∧
    digitsValue (padStart2 (natToString d.val)).data = d.val := by
  decide

theorem txnLetters_facts :
    txnLetters.length = 32 ∧
    ∀ c ∈ txnLetters, (c.isUpper = true ∨ isJsDigit c = true) ∧
      c ≠ 'I' ∧ c ≠ 'O' ∧ c ≠ '0' ∧ c ≠ '1' := by
  decide

theorem getD_mem_txnLetters (k : Fin 32) : txnLetters.getD k.val 'A' ∈ txnLetters := by
  have hk : k.val < txnLetters.length := by
    rw [txnLetters_facts.1]
    exact k.isLt
  rw [List.getD_eq_getElem _ _ hk]
  exact List.getElem_mem hk

/-- C16: for a year from 1000 to 9999, any month, a day up to 31 and any six
draws, `genTxnId` returns the 22 characters `GOVTXN-`, the year in 4 digits,
the month in 2 digits, the day in 2 digits, `-`, and the 6 characters of the
alphabet the draws select; the alphabet has 32 characters, uppercase letters
and digits, none of them `I`, `O`, `0` or `1`. -/
theorem genTxnId_format (env : TxnEnv) (hy1 : 1000 ≤ env.fullYear)
    (hy2 : env.fullYear ≤ 9999) (hd : env.date ≤ 31) :
    (∃ y m d tail : List Char,
      (genTxnId env).data = "GOVTXN-".data ++ y ++ m ++ d ++ ['-'] ++ tail ∧
      (y.length = 4 ∧ (∀ c ∈ y, isJsDigit c = true) ∧ digitsValue y = env.fullYear) ∧
      (m.length = 2 ∧ (∀ c ∈ m, isJsDigit c = true) ∧ digitsValue m = env.month.val + 1) ∧
      (d.length = 2 ∧ (∀ c ∈ d, isJsDigit c = true) ∧ digitsValue d = env.date) ∧
      (tail = (List.finRange 6).map (fun i => txnLetters.getD (env.draws i).val 'A') ∧
        tail.length = 6 ∧ ∀ c ∈ tail, c ∈ txnLetters)) ∧
    (genTxnId env).length = 22 ∧
    txnLetters.length = 32 ∧
    (∀ c ∈ txnLetters, (c.isUpper = true ∨ isJsDigit c = true) ∧
      c ≠ 'I' ∧ c ≠ 'O' ∧ c ≠ '0' ∧ c ≠ '1') := by
  have hY := natToString_year env.fullYear hy1 hy2
  have hM := month_text env.month
  have hD := day_text ⟨env.date, by omega⟩
  simp only [List.all_eq_true] at hM hD
  have htail : ((List.finRange 6).map
      (fun i => txnLetters.getD (env.draws i).val 'A')).length = 6 := by
    simp
  have hdata : (genTxnId env).data =
      "GOVTXN-".data ++ (natToString env.fullYear).data ++
        (padStart2 (natToString (env.month.val + 1))).data ++
        (padStart2 (natToString env.date)).data ++ ['-'] ++
        (List.finRange 6).map (fun i => txnLetters.getD (env.draws i).val 'A') := by
    unfold genTxnId
    simp only [String.data_append]
  refine ⟨⟨_, _, _, _, hdata, hY, hM, hD, rfl, htail, ?_⟩, ?_, txnLetters_facts.1,
    txnLetters_facts.2⟩
  · intro c hc
    obtain ⟨i, _, rfl⟩ := List.mem_map.mp hc
    exact getD_mem_txnLetters (env.draws i)
  · rw [String.length, hdata]
    simp only [List.length_append, hY.1, hM.1, hD.1, htail]
    rfl

/-- C16 on 8 February 2026 with every draw 0. -/
theorem genTxnId_format_witness :
    genTxnId sampleEnv = "GOVTXN-20260208-AAAAAA" ∧ (genTxnId sampleEnv).length = 22 :=
  ⟨by decide, (genTxnId_format sampleEnv (by decide) (by decide) (by decide)).2.1⟩

/-! ## Claims about the payment panel, the sanitizers and the stepper -/

/-- C17: after `setPayUI(state, ...)` the generate button is enabled exactly
for UNPAID, the verify button exactly for PENDING, the confirm checkbox and
the step-4 Next button exactly for PAID; and in every reachable state an
enabled confirm checkbox means that the payment is PAID. -/
theorem setPayUI_controls (s : State) (st : PaymentState) (m c : String) :
    ((setPayUI s st m c).disabled Control.payNowBtn = false ↔ st = PaymentState.UNPAID) ∧
    ((setPayUI s st m c).disabled Control.verifyPayBtn = false ↔
      st = PaymentState.PENDING) ∧
    ((setPayUI s st m c).disabled (Control.field Field.confirm) = false ↔
      st = PaymentState.PAID) ∧
    ((setPayUI s st m c).disabled toStep4Btn = false ↔ st = PaymentState.PAID) ∧
    (∀ r : State, Reachable r → r.disabled (Control.field Field.confirm) = false →
      r.paymentState = PaymentState.PAID) := by
  rw [setPayUI_payNowBtn, setPayUI_verifyPayBtn, setPayUI_confirm, setPayUI_toStep4Btn]
  refine ⟨by simp, by simp, by simp, by simp, ?_⟩
  intro r hr hc
  by_contra hp
  have := ((payInv_of_reachable hr).1 hp).1
  rw [hc] at this
  exact Bool.noConfusion this

theorem fire_keeps_paid (s : State) (e : Event) (h : s.paymentState = PaymentState.PAID) :
    (fire s e).paymentState = PaymentState.PAID := by
  rcases fire_payment s e with ⟨h1, _⟩ | ⟨env, _, hu, _⟩ | ⟨_, _, h1, _⟩
  · rw [h1]
    exact h
  · rw [h] at hu
    exact PaymentState.noConfusion hu
  · exact h1

theorem run_keeps_paid (s : State) (evs : List Event) (h : s.paymentState = PaymentState.PAID) :
    (run s evs).paymentState = PaymentState.PAID := by
  induction evs generalizing s with
  | nil => exact h
  | cons e es ih => exact ih (fire s e) (fire_keeps_paid s e h)

/-- C18: in a reachable state an event leaves an UNPAID payment UNPAID or
makes it PENDING, leaves a PENDING payment PENDING or makes it PAID, and
leaves a PAID payment PAID; so over any further events a payment that has
left UNPAID does not return to it and a PAID payment stays PAID. -/
theorem payment_moves_forward (s : State) (hr : Reachable s) (e : Event) :
    (s.paymentState = PaymentState.UNPAID →
      (fire s e).paymentState = PaymentState.UNPAID ∨
        (fire s e).paymentState = PaymentState.PENDING) ∧
    (s.paymentState = PaymentState.PENDING →
      (fire s e).paymentState = PaymentState.PENDING ∨
        (fire s e).paymentState = PaymentState.PAID) ∧
    (s.paymentState = PaymentState.PAID → (fire s e).paymentState = PaymentState.PAID) ∧
    (∀ evs : List Event,
      (s.paymentState ≠ PaymentState.UNPAID →
        (run s evs).paymentState ≠ PaymentState.UNPAID) ∧
      (s.paymentState = PaymentState.PAID → (run s evs).paymentState = PaymentState.PAID)) := by
  have hinv := payInv_of_reachable hr
  refine ⟨?_, ?_, fire_keeps_paid s e, fun evs =>
    ⟨fun h => (run_keeps_txn s evs h).2, run_keeps_paid s evs⟩⟩
  · intro hu
    rcases fire_payment s e with ⟨h1, _⟩ | ⟨env, _, _, h1, _⟩ | ⟨_, ht, _, _⟩
    · rw [h1]
      exact Or.inl hu
    · exact Or.inr h1
    · exact absurd (hinv.2.2.1 hu).2 ht
  · intro hp
    rcases fire_payment s e with ⟨h1, _⟩ | ⟨env, _, hu, _⟩ | ⟨_, _, h1, _⟩
    · rw [h1]
      exact Or.inl hp
    · rw [hp] at hu
      exact PaymentState.noConfusion hu
    · exact Or.inr h1

/-- C18 on the sample application: the generate click moves UNPAID to
PENDING. -/
theorem payment_moves_forward_witness :
    (load blankPage).paymentState = PaymentState.UNPAID ∧
    ((fire (load blankPage) (Event.payNowClick sampleEnv)).paymentState
        = PaymentState.UNPAID ∨
      (fire (load blankPage) (Event.payNowClick sampleEnv)).paymentState
        = PaymentState.PENDING) :=
  ⟨by decide,
   (payment_moves_forward (load blankPage) (Reachable.load blankPage)
     (Event.payNowClick sampleEnv)).1 (by decide)⟩

theorem keepDigits_value (s : State) (el name : Field) (m : Nat) :
    (keepDigits s el name m).value el = ⟨((s.value el).data.filter isJsDigit).take m⟩ := by
  unfold keepDigits
  dsimp only
  split
  · simp [setError]
  · rename_i h
    rw [not_not] at h
    simp only [clearError]
    exact h.symm

theorem keepDigits_value_other (s : State) (el name : Field) (m : Nat) (f : Field)
    (hf : f ≠ el) : (keepDigits s el name m).value f = s.value f := by
  unfold keepDigits
  dsimp only
  split
  · simp [setError, Function.update_noteq hf]
  · rfl

theorem keepDigits_errors (s : State) (el name : Field) (m : Nat) :
    (keepDigits s el name m).errors name =
      if (⟨((s.value el).data.filter isJsDigit).take m⟩ : String) ≠ s.value el then
        "Only digits are allowed."
      else "" := by
  unfold keepDigits
  dsimp only
  split
  · simp [setError]
  · simp [clearError]

theorem keepLettersSpaces_value (s : State) (el name : Field) :
    (keepLettersSpaces s el name).value el =
      ⟨(s.value el).data.filter (fun c => !(notLetterOrSpace c))⟩ := by
  unfold keepLettersSpaces
  dsimp only
  split
  · simp [setError]
  · rename_i h
    rw [not_not] at h
    simp only [clearError]
    exact h.symm

theorem keepLettersSpaces_value_other (s : State) (el name : Field) (f : Field)
    (hf : f ≠ el) : (keepLettersSpaces s el name).value f = s.value f := by
  unfold keepLettersSpaces
  dsimp only
  split
  · simp [setError, Function.update_noteq hf]
  · rfl

theorem keepLettersSpaces_errors (s : State) (el name : Field) :
    (keepLettersSpaces s el name).errors name =
      if (⟨(s.value el).data.filter (fun c => !(notLetterOrSpace c))⟩ : String) ≠ s.value el
      then "Only letters and spaces are allowed."
      else "" := by
  unfold keepLettersSpaces
  dsimp only
  split
  · simp [setError]
  · simp [clearError]

theorem take_filter_idem (p : Char → Bool) (m : Nat) (l : List Char) :
    (((l.filter p).take m).filter p).take m = (l.filter p).take m := by
  have h : ((l.filter p).take m).filter p = (l.filter p).take m := by
    apply List.filter_eq_self.mpr
    intro c hc
    exact (List.mem_filter.mp (List.mem_of_mem_take hc)).2
  rw [h, List.take_take, Nat.min_self]

/-- C19: `keepDigits` with maximum length m puts in the control the first m
digits of its value, in their order (digits only, at most m of them), and
leaves the other controls alone; `keepLettersSpaces` puts in it the value
without the characters that are neither ASCII letters nor whitespace; each
sets the error text of the field when that changed the value and empties it
when it did not; applied to its own result each leaves the value as it is
(and, the value being unchanged, empties the error text); and `keepDigits`
with m = 6 turns `4000a1` into `40001`. -/
theorem sanitizers_spec (s : State) (el name : Field) (m : Nat) :
    ((keepDigits s el name m).value el = ⟨((s.value el).data.filter isJsDigit).take m⟩ ∧
      (∀ f, f ≠ el → (keepDigits s el name m).value f = s.value f) ∧
      (∀ c ∈ ((keepDigits s el name m).value el).data, isJsDigit c = true) ∧
      ((keepDigits s el name m).value el).length ≤ m ∧
      ((keepDigits s el name m).value el ≠ s.value el →
        (keepDigits s el name m).errors name = "Only digits are allowed.") ∧
      ((keepDigits s el name m).value el = s.value el →
        (keepDigits s el name m).errors name = "") ∧
      (keepDigits (keepDigits s el name m) el name m).value el =
        (keepDigits s el name m).value el ∧
      (keepDigits (keepDigits s el name m) el name m).errors name = "") ∧
    ((keepLettersSpaces s el name).value el =
        ⟨(s.value el).data.filter (fun c => isAsciiLetter c || isJsSpace c)⟩ ∧
      (∀ f, f ≠ el → (keepLettersSpaces s el name).value f = s.value f) ∧
      (∀ c ∈ ((keepLettersSpaces s el name).value el).data,
        isAsciiLetter c = true ∨ isJsSpace c = true) ∧
      ((keepLettersSpaces s el name).value el ≠ s.value el →
        (keepLettersSpaces s el name).errors name = "Only letters and spaces are allowed.") ∧
      ((keepLettersSpaces s el name).value el = s.value el →
        (keepLettersSpaces s el name).errors name = "") ∧
      (keepLettersSpaces (keepLettersSpaces s el name) el name).value el =
        (keepLettersSpaces s el name).value el ∧
      (keepLettersSpaces (keepLettersSpaces s el name) el name).errors name = "") ∧
    (keepDigits (withValue Field.pincode "4000a1") Field.pincode Field.pincode 6).value
        Field.pincode = "40001" ∧
    (keepDigits (withValue Field.pincode "4000a1") Field.pincode Field.pincode 6).errors
        Field.pincode = "Only digits are allowed." := by
  have hl : (fun c => !(notLetterOrSpace c)) = (fun c => isAsciiLetter c || isJsSpace c) := by
    funext c
    simp [notLetterOrSpace]
  have hd2 : (keepDigits (keepDigits s el name m) el name m).value el =
      (keepDigits s el name m).value el := by
    rw [keepDigits_value (keepDigits s el name m), keepDigits_value s el name m]
    simp only [take_filter_idem]
  have hl2 : (keepLettersSpaces (keepLettersSpaces s el name) el name).value el =
      (keepLettersSpaces s el name).value el := by
    rw [keepLettersSpaces_value (keepLettersSpaces s el name),
      keepLettersSpaces_value s el name]
    simp only [List.filter_filter, Bool.and_self]
  refine ⟨⟨keepDigits_value s el name m, keepDigits_value_other s el name m, ?_, ?_, ?_,
    ?_, hd2, ?_⟩, ⟨?_, keepLettersSpaces_value_other s el name, ?_, ?_, ?_, hl2, ?_⟩,
    by decide, by decide⟩
  · intro c hc
    rw [keepDigits_value] at hc
    exact (List.mem_filter.mp (List.mem_of_mem_take hc)).2
  · rw [keepDigits_value]
    exact List.length_take_le _ _
  · intro h
    rw [keepDigits_errors, if_pos (by rw [← keepDigits_value s el name m]; exact h)]
  · intro h
    rw [keepDigits_errors, if_neg (by rw [← keepDigits_value s el name m]; exact not_not.mpr h)]
  · rw [keepDigits_errors (keepDigits s el name m),
      if_neg (by rw [← keepDigits_value (keepDigits s el name m)]; exact not_not.mpr hd2)]
  · rw [keepLettersSpaces_value, hl]
  · intro c hc
    rw [keepLettersSpaces_value, hl] at hc
    simpa using (List.mem_filter.mp hc).2
  · intro h
    rw [keepLettersSpaces_errors,
      if_pos (by rw [← keepLettersSpaces_value s el name]; exact h)]
  · intro h
    rw [keepLettersSpaces_errors,
      if_neg (by rw [← keepLettersSpaces_value s el name]; exact not_not.mpr h)]
  · rw [keepLettersSpaces_errors (keepLettersSpaces s el name),
      if_neg (by
        rw [← keepLettersSpaces_value (keepLettersSpaces s el name)]
        exact not_not.mpr hl2)]

theorem goToStep_errors (s : State) (n : Nat) : (goToStep s n).errors = s.errors := by
  unfold goToStep
  split
  · rfl
  · dsimp only
    split <;> rfl

/-- C20: on an unlocked state a click on a stepper button with target t
leaves the step index as it is when t is greater than it and `validateStep`
of the current step returns false, makes it t when t is greater and
`validateStep` returns true, and when t is not greater makes it t through
`goToStep` alone, no validation being run (the ErrorMap is untouched); the
click on an enabled button of the stepper runs this listener with the step
the button carries. -/
theorem stepper_click_spec (s : State) (t : Nat) (hs : s.isSubmitted = false) :
    (t > s.currentStep → (validateStep s s.currentStep).2 = false →
      (onStepButtonClick s t).currentStep = s.currentStep) ∧
    (t > s.currentStep → (validateStep s s.currentStep).2 = true →
      (onStepButtonClick s t).currentStep = t) ∧
    (t ≤ s.currentStep →
      (onStepButtonClick s t).currentStep = t ∧ onStepButtonClick s t = goToStep s t ∧
        (onStepButtonClick s t).errors = s.errors) ∧
    (∀ (i : Nat) (btn : StepButton), s.stepButtons.get? i = some btn → btn.disabled = false →
      btn.step = t → fire s (Event.stepClick i) = onStepButtonClick s t) := by
  refine ⟨?_, ?_, ?_, ?_⟩
  · intro hgt hv
    rw [onStepButtonClick_currentStep s t hs, if_pos ⟨hgt, hv⟩]
  · intro _ hv
    rw [onStepButtonClick_currentStep s t hs, if_neg (by simp [hv])]
  · intro hle
    have e : onStepButtonClick s t = goToStep s t := by
      unfold onStepButtonClick
      rw [if_neg (by omega)]
    rw [e]
    exact ⟨goToStep_currentStep s t hs, rfl, goToStep_errors s t⟩
  · intro i btn hget hen ht
    simp only [fire, hget, hen, ht]
    rfl

/-- C20 at the freshly loaded page: a click on the stepper button of step 3
is refused, the personal details being missing. -/
theorem stepper_click_spec_witness :
    (load blankPage).currentStep = 1 ∧
    (validateStep (load blankPage) 1).2 = false ∧
    (onStepButtonClick (load blankPage) 3).currentStep = (load blankPage).currentStep :=
  ⟨by decide, by set_option maxRecDepth 100000 in decide,
   (stepper_click_spec (load blankPage) 3 (by decide)).1 (by decide)
     (by set_option maxRecDepth 100000 in decide)⟩

/-! ## Claims about the lock and the payment-input checks -/

theorem load_pendingTxn (html : State) : (load html).pendingTxn = none := by
  unfold load
  dsimp only
  rw [setPayUI_pendingTxn, (samePayment_goToStep _ 1).2.2.1]

/-- A transaction id, when there is one, is a result of `genTxnId`. -/
theorem txn_generated {s : State} (h : Reachable s) :
    s.pendingTxn = none ∨ ∃ env, s.pendingTxn = some (genTxnId env) := by
  induction h with
  | load html => exact Or.inl (load_pendingTxn html)
  | @fire s e _ ih =>
    rcases fire_payment s e with ⟨_, h2⟩ | ⟨env, _, _, _, h2⟩ | ⟨_, _, _, h2⟩
    · rw [h2]
      exact ih
    · exact Or.inr ⟨env, h2⟩
    · rw [h2]
      exact ih

/-- C21: in every reachable state in which `isSubmitted` is true the payment
is PAID and a transaction id is set, one that `genTxnId` has generated. -/
theorem locked_implies_paid (s : State) (hr : Reachable s) (hs : s.isSubmitted = true) :
    s.paymentState = PaymentState.PAID ∧ (∃ t, s.pendingTxn = some t) ∧
      ∃ env, s.pendingTxn = some (genTxnId env) := by
  have hinv := payInv_of_reachable hr
  have hp := hinv.2.1 hs
  obtain ⟨t, ht⟩ := hinv.2.2.2 (by rw [hp]; decide)
  refine ⟨hp, ⟨t, ht⟩, ?_⟩
  rcases txn_generated hr with h | h
  · rw [ht] at h
    exact Option.noConfusion h
  · exact h

/-- C21 on the submitted sample application. -/
theorem locked_implies_paid_witness :
    (run (load blankPage) lockTrace).isSubmitted = true ∧
    (run (load blankPage) lockTrace).paymentState = PaymentState.PAID ∧
    (run (load blankPage) lockTrace).pendingTxn = some "GOVTXN-20260208-AAAAAA" :=
  ⟨by set_option maxRecDepth 1000000 in decide,
   (locked_implies_paid (run (load blankPage) lockTrace)
     (reachable_run (Reachable.load blankPage) lockTrace)
     (by set_option maxRecDepth 1000000 in decide)).1,
   by set_option maxRecDepth 1000000 in decide⟩

theorem checkUpi_snd_eq_gov (a : State × Bool) : (checkUpi a).2 = (checkUpiGov a).2 := by
  rw [Bool.eq_iff_iff, checkUpi_snd, checkUpiGov_snd]

theorem checkCard_snd_eq_gov (a : State × Bool) : (checkCard a).2 = (checkCardGov a).2 := by
  rw [Bool.eq_iff_iff, checkCard_snd, checkCardGov_snd]

/-- C22: `validatePaymentInputsGovStyle`, `validatePaymentInputs` and the
checks of `validateStep(3)` on the fields of the selected method return the
same verdict (branch by branch, and for step 3 as a whole once the payment is
PAID and the confirm box checked), which is that of the conditions on the
values; so `validateStep(3)` returns the verdict of
`validatePaymentInputsGovStyle()` AND `paymentState` is PAID AND the confirm
box is checked. -/
theorem payment_checks_agree (s : State) :
    (validatePaymentInputs s).2 = (validatePaymentInputsGovStyle s).2 ∧
    (∀ a : State × Bool, (checkUpi a).2 = (checkUpiGov a).2 ∧
      (checkCard a).2 = (checkCardGov a).2) ∧
    (validateStep { s with paymentState := PaymentState.PAID, confirmChecked := true } 3).2 =
      (validatePaymentInputsGovStyle s).2 ∧
    ((validatePaymentInputsGovStyle s).2 = true ↔
      getRadioValue s Field.payMethod ≠ "" ∧
      (getRadioValue s Field.payMethod = "UPI" →
        trim (s.value Field.upiId) ≠ "" ∧ isUpiValid (s.value Field.upiId) = true) ∧
      (getRadioValue s Field.payMethod ≠ "UPI" →
        (∀ n ∈ requiredCard, trim (s.value n) ≠ "") ∧
        (∀ c ∈ (s.value Field.cardName).data, isAsciiLetter c = true ∨ isJsSpace c = true) ∧
        (onlyDigits (s.value Field.cardNumber)).length = 16 ∧
        (onlyDigits (s.value Field.cvv)).length = 3)) ∧
    (validateStep s 3).2 =
      ((validatePaymentInputsGovStyle s).2 && decide (s.paymentState = PaymentState.PAID) &&
        s.confirmChecked) := by
  refine ⟨rfl, fun a => ⟨checkUpi_snd_eq_gov a, checkCard_snd_eq_gov a⟩, ?_, ?_, ?_⟩
  · rw [Bool.eq_iff_iff, validateStep3_snd, validatePaymentInputsGovStyle_snd]
    constructor
    · intro h
      exact h.1
    · intro h
      exact ⟨h, rfl, rfl⟩
  · rw [validatePaymentInputsGovStyle_snd]
    exact Iff.rfl
  · rw [Bool.eq_iff_iff, validateStep3_snd]
    simp only [Bool.and_eq_true, decide_eq_true_eq]
    rw [validatePaymentInputsGovStyle_snd]
    exact ⟨fun h => ⟨⟨h.1, h.2.1⟩, h.2.2⟩, fun h => ⟨h.1.1, h.1.2, h.2⟩⟩

end PassportForm
